import Mathlib

/-!
# Aurora Motors: the contract-signing widget and the page helpers

A shallow embedding of `static/js/contract.js` (signature pad, submission gate and
submitter).  JavaScript numbers are modelled by exact rationals, and a product that is
converted to an integer is first rounded to the nearest double, as the engine does; DOM
elements are modelled by optional records (an absent element is `none`), asynchronous continuations by a list of
pending requests that a later event settles, and the 2D canvas by its bitmap, its
current transformation, its current path and the stroke style.

The canvas itself is browser code.  It is modelled after the HTML canvas rules that the
script relies on: assigning `width`/`height` resets the bitmap and the context state,
`lineTo` on an empty path only places the pen, path points and the rectangle of
`clearRect` go through the current transformation, sub-paths without a line of
non-zero length are not stroked.  Rendering is aliased: a pixel belongs to a shape iff
its centre does.  `getImageData(0, 0, width, height)` returns the bytes of the bitmap, and
throws an `IndexSizeError` when the width or the height is zero; the other canvas calls
of the script cannot fail.

A property of a missing element cannot be read: where the script does so, the handler
stops at that point with an uncaught `TypeError`, keeping what it had already changed;
likewise for the `IndexSizeError`, which no handler of the script catches.

The later sections embed the helpers of the other scripts: the date fields, the pricing
display and the sorting of `static/js/booking.js`, the form validation and the
`debounce` and `throttle` helpers of `static/js/main.js`, and `getCookie` of
`aurora_motors/static/js/base.js`.  There an instant is a number of milliseconds, a
value of a `datetime-local` field is the wall-clock reading of an instant, and the local
clock is a fixed offset ahead of UTC.  Strings that the code takes apart are lists of
characters.  A form is the tree of its elements (controls, elements of class
`error-message`, other elements), so that `parentNode` and `querySelector` are what they
are in the document.  What the scripts take from the engine without fixing it (`parseFloat`,
`localeCompare`, `decodeURIComponent`, the reading of a date string) is a parameter;
`Array.prototype.sort` is a stable insertion sort, and a timer runs at the time it is
due.
-/

namespace AuroraMotors

/-! ## Geometry and the canvas -/

/-- A point, in whichever coordinate space the context says. -/
structure Point where
  x : ℚ
  y : ℚ
deriving DecidableEq

/-- The box returned by `getBoundingClientRect()`, in CSS pixels. -/
structure DOMRect where
  left : ℚ
  top : ℚ
  width : ℚ
  height : ℚ
deriving DecidableEq

/-- Values of `ctx.lineCap`. -/
inductive LineCap where
  | butt
  | round
  | square
deriving DecidableEq

/-- The canvas element `#signature-canvas` with its 2D context: layout box, bitmap
(`data` holds the RGBA bytes row by row, as `getImageData(0, 0, width, height).data`
returns them) and the drawing state of the context.  The script only ever applies
`ctx.scale(r, r)`, so the current transformation is a single scaling factor; path points
are stored in bitmap coordinates, newest first. -/
structure Canvas where
  rect : DOMRect
  width : Nat
  height : Nat
  data : List Nat
  scale : ℚ
  path : List (List Point)
  lineWidth : ℚ
  lineCap : LineCap
  strokeStyle : List Nat
deriving DecidableEq

/-- The number of times `n` can be halved before it falls below 2, which is the position
of its leading binary digit; `fuel` bounds the count. -/
def log2Fuel : Nat → Nat → Nat
  | 0, _ => 0
  | fuel + 1, n => if n < 2 then 0 else log2Fuel fuel (n / 2) + 1

/-- The position of the leading binary digit of `n`. -/
def floorLog2 (n : Nat) : Nat :=
  log2Fuel n n

/-- The power of two with an integer exponent. -/
def pow2 (e : Int) : ℚ :=
  if 0 ≤ e then ((2 ^ e.toNat : Nat) : ℚ) else 1 / ((2 ^ (-e).toNat : Nat) : ℚ)

/-- The binary exponent of a non-zero rational: the `e` with `2^e ≤ |q| < 2^(e+1)`.  The
difference of the leading digit positions of numerator and denominator is `e` or
`e + 1`. -/
def binaryExponent (q : ℚ) : Int :=
  let e : Int := (floorLog2 q.num.natAbs : Int) - (floorLog2 q.den : Int)
  if pow2 e ≤ (if q < 0 then -q else q) then e else e - 1

/-- Rounding to the nearest integer, a tie going to the even one. -/
def roundHalfEven (q : ℚ) : Int :=
  if q - ⌊q⌋ < 1 / 2 then ⌊q⌋
  else if 1 / 2 < q - ⌊q⌋ then ⌊q⌋ + 1
  else if ⌊q⌋ % 2 = 0 then ⌊q⌋ else ⌊q⌋ + 1

/-- The result of an arithmetic operation whose exact value is `q`, as an IEEE 754
double: `q` rounded to the nearest multiple of the spacing of the doubles around it
(2^(e-52) in the binade of exponent `e`, 2^-1074 below 2^-1022), a tie going to the even
multiple; `none` stands for an infinity, the result when the rounded value leaves the
range of the finite doubles. -/
def toDouble (q : ℚ) : Option ℚ :=
  if q = 0 then some 0
  else
    let spacing := pow2 (max (binaryExponent q) (-1022) - 52)
    let r := (roundHalfEven (q / spacing) : ℚ) * spacing
    if r < pow2 1024 ∧ -pow2 1024 < r then some r else none

/-- Conversion of a number to a WebIDL `unsigned long`: an infinity gives 0; a finite
number is truncated, then reduced modulo 2^32. -/
def toUnsignedLong : Option ℚ → Nat
  | none => 0
  | some q => ((q.num.tdiv q.den) % 4294967296).toNat

/-- Transparent black bitmap for a `w` by `h` canvas. -/
def blankData (w h : Nat) : List Nat :=
  List.replicate (4 * w * h) 0

/-- Setting `canvas.width = v`: the bitmap is replaced by a transparent one of the new
size and the context returns to its default state (identity transformation, empty path,
line width 1, butt caps, black stroke style). -/
def Canvas.setWidth (cv : Canvas) (v : Option ℚ) : Canvas :=
  { cv with
    width := toUnsignedLong v
    data := blankData (toUnsignedLong v) cv.height
    scale := 1
    path := []
    lineWidth := 1
    lineCap := LineCap.butt
    strokeStyle := [0, 0, 0, 255] }

/-- Setting `canvas.height = v`, with the same reset as for the width. -/
def Canvas.setHeight (cv : Canvas) (v : Option ℚ) : Canvas :=
  { cv with
    height := toUnsignedLong v
    data := blankData cv.width (toUnsignedLong v)
    scale := 1
    path := []
    lineWidth := 1
    lineCap := LineCap.butt
    strokeStyle := [0, 0, 0, 255] }

/-- The call `ctx.scale(r, r)`. -/
def Canvas.ctxScale (cv : Canvas) (r : ℚ) : Canvas :=
  { cv with scale := cv.scale * r }

/-- The image of a user-space point under the current transformation. -/
def Canvas.toDevice (cv : Canvas) (p : Point) : Point :=
  ⟨p.x * cv.scale, p.y * cv.scale⟩

/-- The call `ctx.beginPath()`. -/
def Canvas.beginPath (cv : Canvas) : Canvas :=
  { cv with path := [] }

/-- The call `ctx.moveTo(x, y)` with finite arguments: a new sub-path holding the point. -/
def Canvas.moveTo (cv : Canvas) (p : Point) : Canvas :=
  { cv with path := [cv.toDevice p] :: cv.path }

/-- The call `ctx.lineTo(x, y)` with finite arguments: on an empty path it behaves as
`moveTo`, otherwise the point is joined to the current sub-path. -/
def Canvas.lineTo (cv : Canvas) (p : Point) : Canvas :=
  match cv.path with
  | [] => { cv with path := [[cv.toDevice p]] }
  | sub :: rest => { cv with path := (cv.toDevice p :: sub) :: rest }

/-- The line segments of one sub-path (newest point first). -/
def subpathSegments : List Point → List (Point × Point)
  | b :: a :: rest => (a, b) :: subpathSegments (a :: rest)
  | _ => []

/-- All line segments of a path, as pairs (from, to). -/
def pathSegments (path : List (List Point)) : List (Point × Point) :=
  path.flatMap subpathSegments

/-- Whether `c` lies within distance `hw` of the point `p`. -/
def inDisc (hw : ℚ) (p c : Point) : Bool :=
  decide ((c.x - p.x) ^ 2 + (c.y - p.y) ^ 2 ≤ hw ^ 2)

/-- Whether `c` lies in the rectangle of half-width `hw` around the segment from `a` to
`b`: its foot on the line falls between `a` and `b` and its distance to the line is at
most `hw` (compared through squares, `l2` being the squared length of the segment). -/
def inBody (hw : ℚ) (a b c : Point) : Bool :=
  let dx := b.x - a.x
  let dy := b.y - a.y
  let l2 := dx ^ 2 + dy ^ 2
  let dot := (c.x - a.x) * dx + (c.y - a.y) * dy
  let cross := (c.x - a.x) * dy - (c.y - a.y) * dx
  decide (0 ≤ dot) && decide (dot ≤ l2) && decide (cross ^ 2 ≤ hw ^ 2 * l2)

/-- Whether `c` lies in the square cap that extends the body by `hw` beyond `a` and `b`. -/
def inSquareCaps (hw : ℚ) (a b c : Point) : Bool :=
  let dx := b.x - a.x
  let dy := b.y - a.y
  let l2 := dx ^ 2 + dy ^ 2
  let dot := (c.x - a.x) * dx + (c.y - a.y) * dy
  let cross := (c.x - a.x) * dy - (c.y - a.y) * dx
  (decide (0 ≤ dot) || decide (dot ^ 2 ≤ hw ^ 2 * l2)) &&
    (decide (dot ≤ l2) || decide ((dot - l2) ^ 2 ≤ hw ^ 2 * l2)) &&
    decide (cross ^ 2 ≤ hw ^ 2 * l2)

/-- Whether the stroke of the segment from `a` to `b` with half-width `hw` covers the
point `c`.  A segment of length zero is pruned and covers nothing. -/
def strokeCovers (hw : ℚ) (cap : LineCap) (a b c : Point) : Bool :=
  if a = b then false
  else
    match cap with
    | LineCap.butt => inBody hw a b c
    | LineCap.round => inBody hw a b c || inDisc hw a c || inDisc hw b c
    | LineCap.square => inSquareCaps hw a b c

/-- The centre of the pixel in column `i` and row `j`. -/
def pixelCentre (i j : Nat) : Point :=
  ⟨(i : ℚ) + 1 / 2, (j : ℚ) + 1 / 2⟩

/-- Whether `ctx.stroke()` paints the pixel in column `i`, row `j`. -/
def Canvas.strokeHits (cv : Canvas) (i j : Nat) : Bool :=
  (pathSegments cv.path).any fun s =>
    strokeCovers (cv.lineWidth / 2 * cv.scale) cv.lineCap s.1 s.2 (pixelCentre i j)

/-- The call `ctx.stroke()`: every pixel hit by the stroke of the current path takes the
(opaque) stroke colour; byte `k` belongs to pixel `k / 4`, which sits in column
`(k / 4) % width` of row `(k / 4) / width`. -/
def Canvas.stroke (cv : Canvas) : Canvas :=
  { cv with
    data := cv.data.mapIdx fun k v =>
      if cv.strokeHits ((k / 4) % cv.width) ((k / 4) / cv.width) then
        cv.strokeStyle.getD (k % 4) 0
      else v }

/-- Whether the rectangle of `clearRect(x, y, w, h)`, taken through the current
transformation, contains the centre of the pixel in column `i`, row `j`. -/
def Canvas.clearHits (cv : Canvas) (x y w h : ℚ) (i j : Nat) : Bool :=
  decide (x * cv.scale ≤ (pixelCentre i j).x) &&
    decide ((pixelCentre i j).x < (x + w) * cv.scale) &&
    decide (y * cv.scale ≤ (pixelCentre i j).y) &&
    decide ((pixelCentre i j).y < (y + h) * cv.scale)

/-- The call `ctx.clearRect(x, y, w, h)`: the pixels of the rectangle become transparent
black. -/
def Canvas.clearRect (cv : Canvas) (x y w h : ℚ) : Canvas :=
  { cv with
    data := cv.data.mapIdx fun k v =>
      if cv.clearHits x y w h ((k / 4) % cv.width) ((k / 4) / cv.width) then 0 else v }

/-- The loop of `hasSignatureData`:
`for (let i = 3; i < data.length; i += 4) { if (data[i] !== 0) return true; } return false`,
one unit of fuel per iteration. -/
def alphaLoop (data : List Nat) : Nat → Nat → Bool
  | 0, _ => false
  | fuel + 1, i =>
    if i < data.length then
      if data.getD i 0 ≠ 0 then true else alphaLoop data fuel (i + 4)
    else false

/-- The scan of the alpha bytes, started at index 3 with fuel for every byte. -/
def scanAlpha (data : List Nat) : Bool :=
  alphaLoop data data.length 3

/-- The call `canvas.toDataURL('image/png')`.  PNG is lossless, so the data URI is
modelled by the bitmap it encodes: width, height and bytes. -/
def Canvas.toDataURL (cv : Canvas) : Nat × Nat × List Nat :=
  (cv.width, cv.height, cv.data)

/-! ## The page and the widget state -/

/-- A button element: its `disabled` flag and its `textContent`. -/
structure Button where
  disabled : Bool
  textContent : String
deriving DecidableEq

/-- The request handed to `fetch` by `submitSignature`. -/
structure Request where
  url : String
  method : String
  contentType : String
  csrfHeader : String
  signature : Nat × Nat × List Nat
  agree_terms : Bool
  timestamp : String
deriving DecidableEq

/-- A request in flight together with what its continuation captured: `originalText`. -/
structure Pending where
  request : Request
  originalText : String
deriving DecidableEq

/-- How a `fetch(...).then(response => response.json())` chain settles: rejected (network
failure, or a body that is not JSON), resolved with JSON `null`, or resolved with a value
whose `success`, `redirect_url` and `error` properties are read (an absent property is
`none`). -/
inductive FetchOutcome where
  | rejected
  | jsonNull
  | json (success : Bool) (redirect_url : Option String) (error : Option String)
deriving DecidableEq

/-- The document as the script sees it, the variables captured by the closures of
`initializeSignaturePad` (`isDrawing`, `hasSignature`), what has been registered with the
browser (listeners as pairs of target and event type, intervals, timeouts) and the effects
observable from outside (notifications, requests, uncaught exceptions, navigation). -/
structure Widget where
  canvas : Option Canvas
  clearBtn : Option Button
  submitBtn : Option Button
  agreeTerms : Option Bool
  csrfToken : Option String
  modalDisplay : Option String
  bodyOverflow : String
  devicePixelRatio : ℚ
  isDrawing : Bool
  hasSignature : Bool
  listeners : List (String × String)
  intervals : List Nat
  timeouts : List (Nat × String)
  notifications : List (String × String)
  pending : List Pending
  sent : List Request
  uncaught : List String
  location : Option String
deriving DecidableEq

/-- JavaScript truthiness of an optional string property. -/
def truthy : Option String → Bool
  | some s => s ≠ ""
  | none => false

/-- The call `AuroraMotors.showNotification(message, type)`. -/
def showNotification (s : Widget) (message type : String) : Widget :=
  { s with notifications := s.notifications ++ [(message, type)] }

/-- The call `target.addEventListener(type, ...)`. -/
def addEventListener (s : Widget) (target type : String) : Widget :=
  { s with listeners := s.listeners ++ [(target, type)] }

/-! ## `initializeSignaturePad` and its inner functions -/

/-- The inner function `updateSignatureButtons`. -/
def updateSignatureButtons (s : Widget) : Widget :=
  { s with
    clearBtn := s.clearBtn.map fun b => { b with disabled := !s.hasSignature }
    submitBtn := s.submitBtn.map fun b => { b with disabled := !s.hasSignature } }

/-- The position computed by `draw` from the client coordinates of the event:
`(clientX - rect.left) * (canvas.width / rect.width)` and likewise for `y`.  With an empty
box the quotient is not a finite number, and the result is `none`. -/
def drawPoint (cv : Canvas) (clientX clientY : ℚ) : Option Point :=
  if cv.rect.width = 0 ∨ cv.rect.height = 0 then none
  else
    some ⟨(clientX - cv.rect.left) * ((cv.width : ℚ) / cv.rect.width),
      (clientY - cv.rect.top) * ((cv.height : ℚ) / cv.rect.height)⟩

/-- The canvas calls made by `draw`: set the stroke style, `lineTo`, `stroke`,
`beginPath`, `moveTo`.  `lineTo` and `moveTo` ignore arguments that are not finite. -/
def drawOnCanvas (cv : Canvas) (clientX clientY : ℚ) : Canvas :=
  let styled := { cv with lineWidth := 2, lineCap := LineCap.round,
                          strokeStyle := [27, 54, 93, 255] }
  match drawPoint cv clientX clientY with
  | some p => ((styled.lineTo p).stroke.beginPath).moveTo p
  | none => styled.stroke.beginPath

/-- The inner function `draw`, for a mouse or touch event at the given client position. -/
def draw (s : Widget) (clientX clientY : ℚ) : Widget :=
  if !s.isDrawing then s
  else
    updateSignatureButtons
      { s with
        canvas := s.canvas.map fun cv => drawOnCanvas cv clientX clientY
        hasSignature := true }

/-- The inner function `startDrawing`. -/
def startDrawing (s : Widget) (clientX clientY : ℚ) : Widget :=
  draw { s with isDrawing := true } clientX clientY

/-- The inner function `stopDrawing`. -/
def stopDrawing (s : Widget) : Widget :=
  if s.isDrawing then
    { s with isDrawing := false, canvas := s.canvas.map Canvas.beginPath }
  else s

/-- The inner function `resizeCanvas`.  The two products are doubles when they are
assigned. -/
def resizeCanvas (s : Widget) : Widget :=
  { s with
    canvas := s.canvas.map fun cv =>
      (((cv.setWidth (toDouble (cv.rect.width * s.devicePixelRatio))).setHeight
        (toDouble (cv.rect.height * s.devicePixelRatio))).ctxScale s.devicePixelRatio) }

/-- The inner function `clearSignature`. -/
def clearSignature (s : Widget) : Widget :=
  updateSignatureButtons
    { s with
      canvas := s.canvas.map fun cv => cv.clearRect 0 0 cv.width cv.height
      hasSignature := false }

/-- The function `initializeSignaturePad`. -/
def initializeSignaturePad (s : Widget) : Widget :=
  match s.canvas with
  | none => s
  | some _ =>
    let s1 := resizeCanvas { s with isDrawing := false, hasSignature := false }
    let s2 := [("signature-canvas", "mousedown"), ("signature-canvas", "mousemove"),
      ("signature-canvas", "mouseup"), ("signature-canvas", "mouseout"),
      ("signature-canvas", "touchstart"), ("signature-canvas", "touchmove"),
      ("signature-canvas", "touchend")].foldl (fun w l => addEventListener w l.1 l.2) s1
    let s3 := if s2.clearBtn.isSome then addEventListener s2 "clear-signature" "click" else s2
    let s4 := if s3.submitBtn.isSome then addEventListener s3 "submit-signature" "click" else s3
    let s5 := addEventListener s4 "window" "resize"
    updateSignatureButtons s5

/-! ## `initializeContractReview`, `hasSignatureData`, `submitSignature` -/

/-- The function `hasSignatureData`: the value it returns, or `none` when it does not
return because `ctx.getImageData(0, 0, canvas.width, canvas.height)` throws an
`IndexSizeError`, which it does when the bitmap has no pixels (width or height zero). -/
def hasSignatureData (s : Widget) : Option Bool :=
  match s.canvas with
  | none => some false
  | some cv => if cv.width = 0 ∨ cv.height = 0 then none else some (scanAlpha cv.data)

/-- The inner function `updateSubmitButton` of `initializeContractReview`.  When
`hasSignatureData()` throws, the function ends there, before the assignment. -/
def updateSubmitButton (s : Widget) : Widget :=
  let hasAgreed := s.agreeTerms.getD false
  match (if s.canvas.isSome then hasSignatureData s else some false) with
  | none => { s with uncaught := s.uncaught ++ ["IndexSizeError"] }
  | some hasSignature =>
    { s with submitBtn := s.submitBtn.map fun b =>
        { b with disabled := !hasAgreed || !hasSignature } }

/-- The function `initializeContractReview`. -/
def initializeContractReview (s : Widget) : Widget :=
  let s1 := if s.agreeTerms.isSome && s.submitBtn.isSome then
      addEventListener s "agree-terms" "change" else s
  { s1 with intervals := s1.intervals ++ [1000] }

/-- The function `hideContractModal`. -/
def hideContractModal (s : Widget) : Widget :=
  match s.modalDisplay with
  | some _ => { s with modalDisplay := some "none", bodyOverflow := "" }
  | none => s

/-- The function `submitSignature`, up to and including the call of `fetch`; `now` is
the value of `new Date().toISOString()`.  Reading a property of a missing element throws,
and so does `hasSignatureData()` on a bitmap without pixels: the handler ends there, with
`fetch` not called and no continuation attached. -/
def submitSignature (s : Widget) (now : String) : Widget :=
  match s.canvas, s.agreeTerms with
  | some cv, some checked =>
    if !checked then
      showNotification s "Please agree to the terms and conditions" "error"
    else
      match hasSignatureData s with
      | none => { s with uncaught := s.uncaught ++ ["IndexSizeError"] }
      | some false => showNotification s "Please provide your signature" "error"
      | some true =>
        let signatureData := cv.toDataURL
        match s.submitBtn with
        | none => { s with uncaught := s.uncaught ++ ["TypeError"] }
        | some btn =>
          let originalText := btn.textContent
          let s1 :=
            { s with submitBtn := some { textContent := "Submitting...", disabled := true } }
          match s1.csrfToken with
          | none => { s1 with uncaught := s1.uncaught ++ ["TypeError"] }
          | some token =>
            let request : Request :=
              { url := "/api/contract/sign/", method := "POST",
                contentType := "application/json", csrfHeader := token,
                signature := signatureData, agree_terms := true, timestamp := now }
            { s1 with
              sent := s1.sent ++ [request]
              pending := s1.pending ++ [{ request := request, originalText := originalText }] }
  | _, _ => s

/-- The `.then(result => ...)` and `.catch(...)` handlers of `submitSignature`. -/
def onResult (s : Widget) : FetchOutcome → Widget
  | FetchOutcome.json true redirect_url _ =>
    let s1 := hideContractModal (showNotification s "Contract signed successfully!" "success")
    if truthy redirect_url then
      { s1 with timeouts := s1.timeouts ++ [(1500, redirect_url.getD "")] }
    else s1
  | FetchOutcome.json false _ error =>
    showNotification s (if truthy error then error.getD "" else "Failed to submit signature")
      "error"
  | _ => showNotification s "An error occurred. Please try again." "error"

/-- The `.finally(...)` handler of `submitSignature`, for the button and label it captured. -/
def onFinally (s : Widget) (originalText : String) : Widget :=
  { s with submitBtn := s.submitBtn.map fun _ =>
      { textContent := originalText, disabled := false } }

/-- The continuation of one request: result or error handler, then the `finally` handler. -/
def settle (s : Widget) (p : Pending) (o : FetchOutcome) : Widget :=
  onFinally (onResult s o) p.originalText

/-! ## Events -/

/-- What the browser can deliver to the page. -/
inductive Event where
  | mousedown (clientX clientY : ℚ)
  | mousemove (clientX clientY : ℚ)
  | mouseup
  | mouseout
  | touchstart (clientX clientY : ℚ)
  | touchmove (clientX clientY : ℚ)
  | touchend
  | clearClick
  | submitClick (now : String)
  | toggleAgree
  | tick
  | windowResize (rect : DOMRect) (devicePixelRatio : ℚ)
  | response (k : Nat) (o : FetchOutcome)
  | timeout (k : Nat)
deriving DecidableEq

/-- Whether a listener for the event type is registered on the target. -/
def listening (s : Widget) (target type : String) : Bool :=
  decide ((target, type) ∈ s.listeners)

/-- Whether a button exists and is enabled, so that a click reaches its listeners. -/
def clickable : Option Button → Bool
  | some b => !b.disabled
  | none => false

/-- One turn of the event loop.  Pointer events run the handlers registered on the canvas;
a click reaches a button only while it is enabled; `toggleAgree` is the user flipping the
checkbox, followed by its `change` event; `tick` is the one-second interval;
`windowResize` is a change of layout box and pixel ratio followed by the `resize` event;
`response k o` settles the `k`-th request in flight; `timeout k` fires the `k`-th timer. -/
def step (s : Widget) : Event → Widget
  | Event.mousedown x y =>
    if listening s "signature-canvas" "mousedown" then startDrawing s x y else s
  | Event.mousemove x y =>
    if listening s "signature-canvas" "mousemove" then draw s x y else s
  | Event.mouseup =>
    if listening s "signature-canvas" "mouseup" then stopDrawing s else s
  | Event.mouseout =>
    if listening s "signature-canvas" "mouseout" then stopDrawing s else s
  | Event.touchstart x y =>
    if listening s "signature-canvas" "touchstart" then startDrawing s x y else s
  | Event.touchmove x y =>
    if listening s "signature-canvas" "touchmove" then draw s x y else s
  | Event.touchend =>
    if listening s "signature-canvas" "touchend" then stopDrawing s else s
  | Event.clearClick =>
    if clickable s.clearBtn && listening s "clear-signature" "click" then clearSignature s
    else s
  | Event.submitClick now =>
    if clickable s.submitBtn && listening s "submit-signature" "click" then
      submitSignature s now
    else s
  | Event.toggleAgree =>
    let s1 := { s with agreeTerms := s.agreeTerms.map fun c => !c }
    if listening s1 "agree-terms" "change" then updateSubmitButton s1 else s1
  | Event.tick =>
    if 1000 ∈ s.intervals then updateSubmitButton s else s
  | Event.windowResize rect r =>
    let s1 := { s with
      canvas := s.canvas.map fun cv => { cv with rect := rect }
      devicePixelRatio := r }
    if listening s1 "window" "resize" then resizeCanvas s1 else s1
  | Event.response k o =>
    match s.pending.get? k with
    | some p => settle { s with pending := s.pending.eraseIdx k } p o
    | none => s
  | Event.timeout k =>
    match s.timeouts.get? k with
    | some t => { s with timeouts := s.timeouts.eraseIdx k, location := some t.2 }
    | none => s

/-- The state after a sequence of events. -/
def run (s : Widget) (es : List Event) : Widget :=
  es.foldl step s

/-- The page as loaded, before any script has run. -/
def pageLoad (canvas : Option Canvas) (clearBtn submitBtn : Option Button)
    (agreeTerms : Option Bool) (csrfToken : Option String) (modalDisplay : Option String)
    (devicePixelRatio : ℚ) : Widget :=
  { canvas := canvas, clearBtn := clearBtn, submitBtn := submitBtn, agreeTerms := agreeTerms,
    csrfToken := csrfToken, modalDisplay := modalDisplay, bodyOverflow := "",
    devicePixelRatio := devicePixelRatio, isDrawing := false, hasSignature := false,
    listeners := [], intervals := [], timeouts := [], notifications := [], pending := [],
    sent := [], uncaught := [], location := none }

/-- Initialisation of the widget: `initializeSignaturePad` then `initializeContractReview`. -/
def initWidget (s : Widget) : Widget :=
  initializeContractReview (initializeSignaturePad s)

/-! ## Sample pages -/

/-- A complete page: a canvas whose box is `w` by `h` CSS pixels at the origin of the
viewport (with the default 300 by 150 bitmap before any script runs), both buttons enabled,
the submit button labelled "Sign Contract", the checkbox in the given state, the given
anti-forgery field and a hidden modal, on a display of pixel ratio `r`. -/
def samplePage (w h r : ℚ) (checked : Bool) (csrfToken : Option String) : Widget :=
  pageLoad
    (some { rect := ⟨0, 0, w, h⟩, width := 300, height := 150, data := blankData 300 150,
            scale := 1, path := [], lineWidth := 1, lineCap := LineCap.butt,
            strokeStyle := [0, 0, 0, 255] })
    (some { disabled := false, textContent := "Clear" })
    (some { disabled := false, textContent := "Sign Contract" })
    (some checked) csrfToken (some "flex") r

/-- The sample page after `initializeSignaturePad` and `initializeContractReview`. -/
def sampleWidget (w h r : ℚ) (checked : Bool) (csrfToken : Option String) : Widget :=
  initWidget (samplePage w h r checked csrfToken)

/-- A press at (1, 1), a move to (2, 1) and a release: one short stroke near the top left
corner of the canvas. -/
def shortStroke : List Event :=
  [Event.mousedown 1 1, Event.mousemove 2 1, Event.mouseup]

/-- One touch stroke along the right edge of the canvas box, from (39/10, 2) to (39/10, 3). -/
def edgeStroke : List Event :=
  [Event.touchstart (39 / 10) 2, Event.touchmove (39 / 10) 3, Event.touchend]

/-! ## Quiet events -/

/-- The widget is at rest on a blank bitmap: not stroking, no ink for the scan to find
(it returns false, or throws on a bitmap without pixels), and the clear and submit
controls, where present, disabled. -/
def AtRestBlank (s : Widget) : Prop :=
  s.isDrawing = false ∧ hasSignatureData s ≠ some true ∧
    (∀ b, s.clearBtn = some b → b.disabled = true) ∧
    (∀ b, s.submitBtn = some b → b.disabled = true)

/-- Poll ticks, checkbox changes, pointer releases and leaves, and pointer moves. -/
def Event.isQuiet : Event → Bool
  | Event.tick => true
  | Event.toggleAgree => true
  | Event.mouseup => true
  | Event.mouseout => true
  | Event.touchend => true
  | Event.mousemove _ _ => true
  | Event.touchmove _ _ => true
  | _ => false


/-- A request in flight as `submitSignature` leaves it on the sample page: the captured
label is "Sign Contract". -/
def samplePending : Pending :=
  { request :=
      { url := "/api/contract/sign/", method := "POST", contentType := "application/json",
        csrfHeader := "token", signature := (0, 0, []), agree_terms := true,
        timestamp := "t1" }
    originalText := "Sign Contract" }

/-! ## The stroke tracker as a state machine -/

/-- Pointer or touch down. -/
def Event.isDown : Event → Bool
  | Event.mousedown _ _ => true
  | Event.touchstart _ _ => true
  | _ => false

/-- Pointer up, pointer leaving the canvas, or end of the touch sequence. -/
def Event.isRelease : Event → Bool
  | Event.mouseup => true
  | Event.mouseout => true
  | Event.touchend => true
  | _ => false

/-- Whether the most recent down, up, mouseout or touchend event of the sequence was a
down (false when there was none). -/
def lastStrokeEventIsDown (es : List Event) : Bool :=
  match (es.filter fun e => e.isDown || e.isRelease).getLast? with
  | some e => e.isDown
  | none => false

/-- Whether the seven canvas listeners of `initializeSignaturePad` are registered. -/
def padListening (s : Widget) : Bool :=
  listening s "signature-canvas" "mousedown" && listening s "signature-canvas" "mousemove" &&
    listening s "signature-canvas" "mouseup" && listening s "signature-canvas" "mouseout" &&
    listening s "signature-canvas" "touchstart" &&
    listening s "signature-canvas" "touchmove" && listening s "signature-canvas" "touchend"

/-! ## The booking form: dates and the pricing display (`static/js/booking.js`) -/

/-- A `datetime-local` input.  A value or `min` string is modelled by the wall-clock time
it denotes, in milliseconds counted from 1970-01-01T00:00 of the same wall clock; the
empty string is `none`. -/
structure DateInput where
  value : Option Int
  min : Option Int
deriving DecidableEq

/-- The part of the page the booking script works on: `#pickup-date`, `#dropoff-date`,
`#pricing-display` (its text, when the element exists) and the offset of local time from
UTC in milliseconds (local minus UTC), taken as constant. -/
structure BookingPage where
  pickupDate : Option DateInput
  dropoffDate : Option DateInput
  pricingDisplay : Option String
  tzOffset : Int
deriving DecidableEq

/-- The instant `new Date(s).getTime()` for a `datetime-local` string `s`: the string is
read as local time. -/
def parseLocal (tzOffset wall : Int) : Int :=
  wall - tzOffset

/-- The wall-clock time denoted by `date.toISOString().slice(0, 16)`: the instant read on
the UTC clock, cut to the minute. -/
def isoSlice16 (t : Int) : Int :=
  t / 60000 * 60000

/-- The text that `updatePricingDisplay` puts into the display for `daysDiff` days. -/
def rentalPeriodText (daysDiff : Int) : String :=
  toString daysDiff ++ " day" ++ (if daysDiff > 1 then "s" else "")

/-- The function `updatePricingDisplay`. -/
def updatePricingDisplay (p : BookingPage) : BookingPage :=
  match p.pickupDate, p.dropoffDate, p.pricingDisplay with
  | some pk, some dr, some _ =>
    match pk.value, dr.value with
    | some pickup, some dropoff =>
      let timeDiff := parseLocal p.tzOffset dropoff - parseLocal p.tzOffset pickup
      let daysDiff := ⌈(timeDiff : ℚ) / (1000 * 3600 * 24)⌉
      if daysDiff > 0 then { p with pricingDisplay := some (rentalPeriodText daysDiff) }
      else p
    | _, _ => p
  | _, _, _ => p

/-- The `change` listener of `#pickup-date`, registered when both date inputs exist; the
field already holds its new value. -/
def pickupChanged (p : BookingPage) : BookingPage :=
  match p.pickupDate, p.dropoffDate with
  | some pk, some dr =>
    match pk.value with
    | none => p
    | some pickupValue =>
      let pickupDateTime := parseLocal p.tzOffset pickupValue + 3600000
      let dr1 : DateInput := { dr with min := some (isoSlice16 pickupDateTime) }
      let dr2 : DateInput :=
        match dr1.value with
        | some dropoff =>
          if parseLocal p.tzOffset dropoff ≤ pickupDateTime then
            { dr1 with value := some (isoSlice16 (pickupDateTime + 23 * 3600000)) }
          else dr1
        | none => dr1
      updatePricingDisplay { p with dropoffDate := some dr2 }
  | _, _ => p

/-- A booking page with both date inputs and the display, the pick-up field holding the
wall-clock time `pickup`. -/
def sampleBooking (tzOffset pickup : Int) (dropoff : Option Int) : BookingPage :=
  { pickupDate := some { value := some pickup, min := none }
    dropoffDate := some { value := dropoff, min := none }
    pricingDisplay := some ""
    tzOffset := tzOffset }

/-! ## Sorting the search results (`static/js/booking.js`) -/

/-- A result card of the grid: its `data-vehicle-id` and the text of its `.daily-rate`,
`.vehicle-name` and `.vehicle-category` elements (`none` when the element is missing). -/
structure Card where
  vehicleId : Nat
  dailyRate : Option String
  name : Option String
  category : Option String
deriving DecidableEq

/-- The call `text.replace(pattern, replacement)` with a string pattern: the first
occurrence is replaced. -/
def replaceFirst (pattern replacement : List Char) : List Char → List Char
  | [] => if pattern = [] then replacement else []
  | c :: cs =>
    if pattern.isPrefixOf (c :: cs) then replacement ++ (c :: cs).drop pattern.length
    else c :: replaceFirst pattern replacement cs

/-- The function `getVehiclePrice`; `parseFloat` is the browser's, with `none` for `NaN`. -/
def getVehiclePrice (parseFloat : String → Option ℚ) (card : Card) : Option ℚ :=
  match card.dailyRate with
  | none => some 0
  | some priceText =>
    parseFloat (String.mk
      (replaceFirst "/day".toList [] (replaceFirst "$".toList [] priceText.toList)))

/-- The function `getVehicleName`. -/
def getVehicleName (card : Card) : String :=
  card.name.getD ""

/-- The function `getVehicleCategory`. -/
def getVehicleCategory (card : Card) : String :=
  card.category.getD ""

/-- The difference of two numbers, `none` standing for `NaN`. -/
def numSub : Option ℚ → Option ℚ → Option ℚ
  | some x, some y => some (x - y)
  | _, _ => none

/-- The comparator that `sortSearchResults` hands to `sort`, for the chosen `sortBy`. -/
def sortComparator (parseFloat : String → Option ℚ) (localeCompare : String → String → ℚ)
    (sortBy : String) (a b : Card) : Option ℚ :=
  if sortBy = "price" then numSub (getVehiclePrice parseFloat a) (getVehiclePrice parseFloat b)
  else if sortBy = "price-desc" then
    numSub (getVehiclePrice parseFloat b) (getVehiclePrice parseFloat a)
  else if sortBy = "name" then some (localeCompare (getVehicleName a) (getVehicleName b))
  else if sortBy = "category" then
    some (localeCompare (getVehicleCategory a) (getVehicleCategory b))
  else some 0

/-- The call `array.sort(comparator)`: a stable sort that puts `a` before `b` when the
comparator is not positive; a comparator result of `NaN` counts as 0.  Modelled by
insertion sort. -/
def arraySort (comparator : Card → Card → Option ℚ) (cards : List Card) : List Card :=
  cards.insertionSort fun a b => (comparator a b).getD 0 ≤ 0

/-- The call `grid.appendChild(card)` for a card of the grid: the card moves to the end. -/
def appendChild (grid : List Card) (card : Card) : List Card :=
  grid.erase card ++ [card]

/-- The function `sortSearchResults`; the grid `.vehicles-grid` is given by the list of
its cards in document order, `none` when there is no grid. -/
def sortSearchResults (parseFloat : String → Option ℚ) (localeCompare : String → String → ℚ)
    (sortBy : String) (grid : Option (List Card)) : Option (List Card) :=
  match grid with
  | none => none
  | some g =>
    some ((arraySort (sortComparator parseFloat localeCompare sortBy) g).foldl appendChild g)

/-- A stand-in for `parseFloat` on the sample cards: digits only. -/
def sampleParseFloat (s : String) : Option ℚ :=
  s.toNat?.map fun n => (n : ℚ)

/-- Three sample cards, priced 89, 45 and 120 a day. -/
def sampleCards : List Card :=
  [{ vehicleId := 1, dailyRate := some "$89/day", name := some "Camry", category := some "Sedan" },
   { vehicleId := 2, dailyRate := some "$45/day", name := some "Yaris", category := some "Compact" },
   { vehicleId := 3, dailyRate := some "$120/day", name := some "Prado", category := some "SUV" }]

/-! ## Form validation (`static/js/main.js`) -/

/-- JavaScript white space and line terminators: what `\s` matches and `trim` removes. -/
def isJsSpace (c : Char) : Bool :=
  c.toNat ∈ [0x9, 0xA, 0xB, 0xC, 0xD, 0x20, 0xA0, 0x1680, 0x2028, 0x2029, 0x202F, 0x205F,
    0x3000, 0xFEFF] || (0x2000 ≤ c.toNat && c.toNat ≤ 0x200A)

/-- The call `s.trim()`. -/
def jsTrim (s : List Char) : List Char :=
  ((s.dropWhile isJsSpace).reverse.dropWhile isJsSpace).reverse

/-- Regular expressions over characters, enough for the patterns of `validateField`:
a character set is given by its membership test. -/
inductive Regex where
  | nothing
  | empty
  | set (p : Char → Bool)
  | seq (a b : Regex)
  | alt (a b : Regex)
  | star (a : Regex)

/-- Whether the expression matches the empty string. -/
def Regex.nullable : Regex → Bool
  | Regex.nothing => false
  | Regex.empty => true
  | Regex.set _ => false
  | Regex.seq a b => a.nullable && b.nullable
  | Regex.alt a b => a.nullable || b.nullable
  | Regex.star _ => true

/-- The derivative of an expression by a character: what may follow after reading it. -/
def Regex.deriv : Regex → Char → Regex
  | Regex.nothing, _ => Regex.nothing
  | Regex.empty, _ => Regex.nothing
  | Regex.set p, c => if p c then Regex.empty else Regex.nothing
  | Regex.seq a b, c =>
    if a.nullable then Regex.alt (Regex.seq (a.deriv c) b) (b.deriv c)
    else Regex.seq (a.deriv c) b
  | Regex.alt a b, c => Regex.alt (a.deriv c) (b.deriv c)
  | Regex.star a, c => Regex.seq (a.deriv c) (Regex.star a)

/-- The call `regex.test(s)` for a pattern anchored by `^` and `$`: the whole string
must match. -/
def Regex.test (r : Regex) (s : List Char) : Bool :=
  (s.foldl Regex.deriv r).nullable

/-- One or more repetitions, `a+`. -/
def Regex.plus (a : Regex) : Regex :=
  Regex.seq a (Regex.star a)

/-- An optional expression, `a?`. -/
def Regex.opt (a : Regex) : Regex :=
  Regex.alt Regex.empty a

/-- Between 0 and `n` repetitions, `a{0,n}`. -/
def Regex.upTo : Nat → Regex → Regex
  | 0, _ => Regex.empty
  | n + 1, a => Regex.alt Regex.empty (Regex.seq a (Regex.upTo n a))

/-- A single character. -/
def Regex.chr (c : Char) : Regex :=
  Regex.set fun d => d == c

/-- The character set `[^\s@]`. -/
def notSpaceNorAt (c : Char) : Bool :=
  !isJsSpace c && c != '@'

/-- The pattern `/^[^\s@]+@[^\s@]+\.[^\s@]+$/` of `validateField`. -/
def emailRegex : Regex :=
  Regex.seq (Regex.plus (Regex.set notSpaceNorAt))
    (Regex.seq (Regex.chr '@')
      (Regex.seq (Regex.plus (Regex.set notSpaceNorAt))
        (Regex.seq (Regex.chr '.') (Regex.plus (Regex.set notSpaceNorAt)))))

/-- The pattern `/^[\+]?[1-9][\d]{0,15}$/` of `validateField`. -/
def phoneRegex : Regex :=
  Regex.seq (Regex.opt (Regex.chr '+'))
    (Regex.seq (Regex.set fun c => decide ('1' ≤ c) && decide (c ≤ '9'))
      (Regex.upTo 15 (Regex.set fun c => decide ('0' ≤ c) && decide (c ≤ '9'))))

/-- The strings an expression matches. -/
inductive Regex.Matches : Regex → List Char → Prop
  | empty : Regex.Matches Regex.empty []
  | set (p : Char → Bool) (c : Char) : p c = true → Regex.Matches (Regex.set p) [c]
  | seq (a b : Regex) (x y : List Char) :
      Regex.Matches a x → Regex.Matches b y → Regex.Matches (Regex.seq a b) (x ++ y)
  | altLeft (a b : Regex) (x : List Char) : Regex.Matches a x → Regex.Matches (Regex.alt a b) x
  | altRight (a b : Regex) (x : List Char) : Regex.Matches b x → Regex.Matches (Regex.alt a b) x
  | starNil (a : Regex) : Regex.Matches (Regex.star a) []
  | starCons (a : Regex) (x y : List Char) :
      Regex.Matches a x → Regex.Matches (Regex.star a) y → Regex.Matches (Regex.star a) (x ++ y)

/-- A form control (input, select or textarea): its identity, the properties
`validateField` reads and whether it carries the class `error`. -/
structure Field where
  fieldId : Nat
  value : String
  type : String
  name : String
  required : Bool
  hasErrorClass : Bool
deriving DecidableEq

/-- The element children of a node, in document order, each with its own children: a
form control, an element of class `error-message` with its text, or any other element.
A form is given by the children of the form element. -/
inductive Dom where
  | nil
  | input (field : Field) (next : Dom)
  | error (text : String) (next : Dom)
  | other (children : Dom) (next : Dom)
deriving DecidableEq

/-- The result of `querySelectorAll('input, select, textarea')` from the node: the
controls below it, in document order. -/
def Dom.fields : Dom → List Field
  | Dom.nil => []
  | Dom.input f next => f :: next.fields
  | Dom.error _ next => next.fields
  | Dom.other c next => c.fields ++ next.fields

/-- The identities of the controls below the node. -/
def Dom.ids (d : Dom) : List Nat :=
  d.fields.map Field.fieldId

/-- The result of `querySelector('.error-message')` from the node: the text of the first
element of that class below it, in document order, if there is one. -/
def Dom.firstError : Dom → Option String
  | Dom.nil => none
  | Dom.input _ next => next.firstError
  | Dom.error t _ => some t
  | Dom.other c next =>
    match c.firstError with
    | some t => some t
    | none => next.firstError

/-- The call `errorElement.remove()` on the element that `querySelector('.error-message')`
finds from the node. -/
def Dom.removeFirstError : Dom → Dom
  | Dom.nil => Dom.nil
  | Dom.input f next => Dom.input f next.removeFirstError
  | Dom.error _ next => next
  | Dom.other c next =>
    if c.firstError.isSome then Dom.other c.removeFirstError next
    else Dom.other c next.removeFirstError

/-- The assignment `errorElement.textContent = message` on the element that
`querySelector('.error-message')` finds from the node. -/
def Dom.setFirstError (message : String) : Dom → Dom
  | Dom.nil => Dom.nil
  | Dom.input f next => Dom.input f (next.setFirstError message)
  | Dom.error _ next => Dom.error message next
  | Dom.other c next =>
    if c.firstError.isSome then Dom.other (c.setFirstError message) next
    else Dom.other c (next.setFirstError message)

/-- The call `appendChild` on the node with a new element of class `error-message`
holding `message`: it becomes the last child. -/
def Dom.appendError (message : String) : Dom → Dom
  | Dom.nil => Dom.error message Dom.nil
  | Dom.input f next => Dom.input f (next.appendError message)
  | Dom.error t next => Dom.error t (next.appendError message)
  | Dom.other c next => Dom.other c (next.appendError message)

/-- The calls `field.classList.add('error')` and `field.classList.remove('error')` on the
control of the given identity. -/
def Dom.setErrorClass (id : Nat) (b : Bool) : Dom → Dom
  | Dom.nil => Dom.nil
  | Dom.input f next =>
    Dom.input (if f.fieldId = id then { f with hasErrorClass := b } else f)
      (next.setErrorClass id b)
  | Dom.error t next => Dom.error t (next.setErrorClass id b)
  | Dom.other c next => Dom.other (c.setErrorClass id b) (next.setErrorClass id b)

/-- Whether the control of the given identity is one of these children. -/
def Dom.isChild (id : Nat) : Dom → Bool
  | Dom.nil => false
  | Dom.input f next => f.fieldId == id || next.isChild id
  | Dom.error _ next => next.isChild id
  | Dom.other _ next => next.isChild id

/-- The children of `field.parentNode`, looked for below these children. -/
def Dom.parentIn (id : Nat) : Dom → Option Dom
  | Dom.nil => none
  | Dom.input _ next => next.parentIn id
  | Dom.error _ next => next.parentIn id
  | Dom.other c next =>
    if c.isChild id then some c
    else
      match c.parentIn id with
      | some p => some p
      | none => next.parentIn id

/-- The children of `field.parentNode` for the control of the given identity: the
children of the form itself when the control is one of them. -/
def Dom.parentOf (id : Nat) (d : Dom) : Option Dom :=
  if d.isChild id then some d else d.parentIn id

/-- Change the children of `field.parentNode` by `g`, the parent being below these
children. -/
def Dom.atParentIn (id : Nat) (g : Dom → Dom) : Dom → Dom
  | Dom.nil => Dom.nil
  | Dom.input f next => Dom.input f (next.atParentIn id g)
  | Dom.error t next => Dom.error t (next.atParentIn id g)
  | Dom.other c next =>
    Dom.other (if c.isChild id then g c else c.atParentIn id g) (next.atParentIn id g)

/-- Change the children of `field.parentNode` by `g`. -/
def Dom.atParent (id : Nat) (g : Dom → Dom) (d : Dom) : Dom :=
  if d.isChild id then g d else d.atParentIn id g

/-- What `validateField` takes from the browser: the reading of a date string by
`new Date(value)` (`none` for an invalid date) and the current instant. -/
structure ValidationEnv where
  parseDate : String → Option Int
  now : Int

/-- The checks of `validateField` on the properties of the field, in the order of the
source: the final `isValid` and `errorMessage`. -/
def fieldVerdict (env : ValidationEnv) (field : Field) : Bool × String :=
  let value := jsTrim field.value.toList
  let r0 : Bool × String := (true, "")
  let r1 := if field.required && value.isEmpty then (false, "This field is required") else r0
  let r2 :=
    if field.type = "email" && !value.isEmpty then
      if emailRegex.test value then r1 else (false, "Please enter a valid email address")
    else r1
  let r3 :=
    if field.name = "phone" && !value.isEmpty then
      if phoneRegex.test (value.filter fun c => !isJsSpace c) then r2
      else (false, "Please enter a valid phone number")
    else r2
  if field.type = "date" ∨ field.type = "datetime-local" then
    if decide ("start".toList <:+: field.name.toList) ||
        decide ("pickup".toList <:+: field.name.toList) then
      match env.parseDate (String.mk value) with
      | some selectedDate =>
        if selectedDate < env.now then (false, "Date cannot be in the past") else r3
      | none => r3
    else r3
  else r3

/-- The function `clearFieldError`: the class is taken from the field, and the first
element of class `error-message` below the parent of the field is removed. -/
def clearFieldError (dom : Dom) (field : Field) : Dom :=
  (dom.setErrorClass field.fieldId false).atParent field.fieldId Dom.removeFirstError

/-- What `showFieldError` does below the parent of the field: the first element of class
`error-message` gets the message, and when there is none a new one is appended to the
parent. -/
def showMessage (message : String) (children : Dom) : Dom :=
  if children.firstError.isSome then children.setFirstError message
  else children.appendError message

/-- The function `showFieldError`. -/
def showFieldError (dom : Dom) (field : Field) (message : String) : Dom :=
  (dom.setErrorClass field.fieldId true).atParent field.fieldId (showMessage message)

/-- The function `validateField`: the returned `isValid` and the form afterwards. -/
def validateField (env : ValidationEnv) (dom : Dom) (field : Field) : Bool × Dom :=
  let cleared := clearFieldError dom field
  if (fieldVerdict env field).1 then (true, cleared)
  else (false, showFieldError cleared field (fieldVerdict env field).2)

/-- The class a field of the form carries after `validateField` ran on `field`. -/
def markField (env : ValidationEnv) (field g : Field) : Field :=
  if g.fieldId = field.fieldId then { g with hasErrorClass := !(fieldVerdict env field).1 } else g

/-- The function `validateForm`: `forEach` over the fields, `isValid` turning
false at each field that fails. -/
def validateForm (env : ValidationEnv) (dom : Dom) : Bool × Dom :=
  dom.fields.foldl
    (fun acc input =>
      if (validateField env acc.2 input).1 then (acc.1, (validateField env acc.2 input).2)
      else (false, (validateField env acc.2 input).2))
    (true, dom)

/-- The message that `querySelector('.error-message')` finds from the parent of the
control of the given identity: what is shown for that field. -/
def Dom.shownFor (id : Nat) (d : Dom) : Option String :=
  (d.parentOf id).bind Dom.firstError

/-- The identities of the controls below the parent of the control of the given
identity. -/
def Dom.under (id : Nat) (d : Dom) : List Nat :=
  match d.parentOf id with
  | some p => p.ids
  | none => []

/-- The identities of the controls below the parent of the control of the given
identity, the parent being looked for below these children. -/
def Dom.underIn (id : Nat) (d : Dom) : List Nat :=
  match d.parentIn id with
  | some p => p.ids
  | none => []

/-- The form without its error elements and classes: what validation never changes. -/
def Dom.skeleton : Dom → Dom
  | Dom.nil => Dom.nil
  | Dom.input f next => Dom.input { f with hasErrorClass := false } next.skeleton
  | Dom.error _ next => next.skeleton
  | Dom.other c next => Dom.other c.skeleton next.skeleton

/-- What the claim on e-mail fields says of a valid value, word for word: no white space,
exactly one `@`, something before it, and after it a part with a `.` that is neither its
first nor its last character. -/
def EmailShape (v : List Char) : Prop :=
  (∀ c ∈ v, isJsSpace c = false) ∧
    ∃ a d, v = a ++ '@' :: d ∧ '@' ∉ a ∧ '@' ∉ d ∧ a ≠ [] ∧
      ∃ b c, d = b ++ '.' :: c ∧ b ≠ [] ∧ c ≠ []

/-- An environment for the samples: no date is readable, the clock stands at 0. -/
def sampleEnv : ValidationEnv :=
  { parseDate := fun _ => none, now := 0 }

/-- A sample e-mail field. -/
def sampleEmailField (value : String) : Field :=
  { fieldId := 1, value := value, type := "email", name := "email",
    required := true, hasErrorClass := false }

/-- A required first name left empty. -/
def firstNameField : Field :=
  { fieldId := 1, value := "", type := "text", name := "first_name", required := true,
    hasErrorClass := false }

/-- A filled last name. -/
def lastNameField : Field :=
  { fieldId := 2, value := "Nguyen", type := "text", name := "last_name", required := true,
    hasErrorClass := false }

/-- A submit button, which is an `input` too. -/
def submitField : Field :=
  { fieldId := 3, value := "Send", type := "submit", name := "", required := false,
    hasErrorClass := false }

/-- A form whose two fields sit in the same node:
`<form><div><input first_name><input last_name></div></form>`. -/
def siblingForm : Dom :=
  Dom.other (Dom.input firstNameField (Dom.input lastNameField Dom.nil)) Dom.nil

/-- A form whose fields sit each in a node of its own, followed by a submit input that
is a child of the form:
`<form><div><input first_name></div><div><input last_name></div><input submit></form>`. -/
def wrappedForm : Dom :=
  Dom.other (Dom.input firstNameField Dom.nil)
    (Dom.other (Dom.input lastNameField Dom.nil) (Dom.input submitField Dom.nil))

/-- The form of `wrappedForm` without the submit input. -/
def wrappedFields : Dom :=
  Dom.other (Dom.input firstNameField Dom.nil)
    (Dom.other (Dom.input lastNameField Dom.nil) Dom.nil)

/-- A form holding one e-mail field in a node of its own. -/
def emailForm (value : String) : Dom :=
  Dom.other (Dom.input (sampleEmailField value) Dom.nil) Dom.nil

/-! ## Timers: `debounce` and `throttle` (`static/js/main.js`, `static/js/booking.js`)

Time is counted in milliseconds. A timer set at time `t` with delay `w` is due at `t + w`
and runs at that time unless it is cleared first; timers run in the order of their due
times, and in the order they were set when due together. Whether a timer due at `t` runs
before or after a call made at `t` is left open (`timersFirst`). -/

/-- A pending timer: its id, the time it is due, and what its callback holds. -/
structure Timer (κ : Type) where
  id : Nat
  due : Nat
  callback : κ
deriving DecidableEq

/-- Queue a timer behind those due no later than it. -/
def insertTimer {κ : Type} (tm : Timer κ) : List (Timer κ) → List (Timer κ)
  | [] => [tm]
  | x :: xs => if x.due ≤ tm.due then x :: insertTimer tm xs else tm :: x :: xs

/-- The call `clearTimeout(id)`: nothing happens for `undefined` or a timer that ran. -/
def clearTimeout {κ : Type} (id : Option Nat) (timers : List (Timer κ)) : List (Timer κ) :=
  timers.filter fun tm => !(decide (some tm.id = id))

/-- Whether a timer due at `due` runs before what happens at time `now`. -/
def isDue (timersFirst : Bool) (now due : Nat) : Bool :=
  if timersFirst then decide (due ≤ now) else decide (due < now)

/-- What `debounce(func, wait)` closes over and what it leaves behind: the variable
`timeout`, the pending timers (each `later` holds the arguments of its call) and the
invocations of `func` with their times, oldest first. -/
structure DebounceState (α : Type) where
  timeout : Option Nat
  timers : List (Timer α)
  nextId : Nat
  invoked : List (Nat × α)
deriving DecidableEq

/-- The state right after `debounce(func, wait)` returned: `timeout` is undefined. -/
def debounce {α : Type} : DebounceState α :=
  { timeout := none, timers := [], nextId := 0, invoked := [] }

/-- The function `executedFunction` of `main.js`, called at time `now`. -/
def executedFunction {α : Type} (wait now : Nat) (args : α) (s : DebounceState α) :
    DebounceState α :=
  { timeout := some s.nextId
    timers := insertTimer { id := s.nextId, due := now + wait, callback := args }
      (clearTimeout s.timeout s.timers)
    nextId := s.nextId + 1
    invoked := s.invoked }

/-- The callback `later` of `main.js`, run when its timer `tm` is due. -/
def later {α : Type} (tm : Timer α) (s : DebounceState α) : DebounceState α :=
  { s with
    timers := clearTimeout s.timeout s.timers
    invoked := s.invoked ++ [(tm.due, tm.callback)] }

/-- The function `executedFunction` of the fallback in `booking.js`. -/
def fallbackExecutedFunction {α : Type} (wait now : Nat) (args : α) (s : DebounceState α) :
    DebounceState α :=
  { timeout := some s.nextId
    timers := insertTimer { id := s.nextId, due := now + wait, callback := args }
      (clearTimeout s.timeout s.timers)
    nextId := s.nextId + 1
    invoked := s.invoked }

/-- The callback `later` of the fallback in `booking.js`. -/
def fallbackLater {α : Type} (tm : Timer α) (s : DebounceState α) : DebounceState α :=
  { s with
    timers := clearTimeout s.timeout s.timers
    invoked := s.invoked ++ [(tm.due, tm.callback)] }

/-- Run the timers that are due, earliest first; `fuel` bounds their number. -/
def debounceRunTimers {α : Type} (callback : Timer α → DebounceState α → DebounceState α)
    (timersFirst : Bool) (now : Nat) : Nat → DebounceState α → DebounceState α
  | 0, s => s
  | fuel + 1, s =>
    match s.timers with
    | [] => s
    | tm :: rest =>
      if isDue timersFirst now tm.due then
        debounceRunTimers callback timersFirst now fuel (callback tm { s with timers := rest })
      else s

/-- Let the time pass up to `now`. -/
def debounceAdvance {α : Type} (callback : Timer α → DebounceState α → DebounceState α)
    (timersFirst : Bool) (now : Nat) (s : DebounceState α) : DebounceState α :=
  debounceRunTimers callback timersFirst now s.timers.length s

/-- A sequence of calls of the debounced function, each with its time and arguments. -/
def debounceRun {α : Type}
    (call : Nat → Nat → α → DebounceState α → DebounceState α)
    (callback : Timer α → DebounceState α → DebounceState α)
    (timersFirst : Bool) (wait : Nat) (calls : List (Nat × α)) (s : DebounceState α) :
    DebounceState α :=
  calls.foldl (fun s c => call wait c.1 c.2 (debounceAdvance callback timersFirst c.1 s)) s

/-- The invocations of `func` seen at time `seenAt`, after the calls and with no call
since. -/
def debounceInvoked {α : Type}
    (call : Nat → Nat → α → DebounceState α → DebounceState α)
    (callback : Timer α → DebounceState α → DebounceState α)
    (timersFirst : Bool) (wait : Nat) (calls : List (Nat × α)) (seenAt : Nat) :
    List (Nat × α) :=
  (debounceAdvance callback true seenAt
    (debounceRun call callback timersFirst wait calls debounce)).invoked

/-- What `throttle(func, limit)` closes over and what it leaves behind: the flag
`inThrottle`, the pending timers and the invocations of `func` with their time, `this`
and arguments, oldest first. -/
structure ThrottleState (θ α : Type) where
  inThrottle : Bool
  timers : List (Timer Unit)
  nextId : Nat
  invoked : List (Nat × θ × α)
deriving DecidableEq

/-- The state right after `throttle(func, limit)` returned: `inThrottle` is undefined. -/
def throttle {θ α : Type} : ThrottleState θ α :=
  { inThrottle := false, timers := [], nextId := 0, invoked := [] }

/-- The function returned by `throttle`, called at time `now`. -/
def throttled {θ α : Type} (limit now : Nat) (context : θ) (args : α)
    (s : ThrottleState θ α) : ThrottleState θ α :=
  if !s.inThrottle then
    { inThrottle := true
      timers := insertTimer { id := s.nextId, due := now + limit, callback := () } s.timers
      nextId := s.nextId + 1
      invoked := s.invoked ++ [(now, context, args)] }
  else s

/-- Run the timers that are due: each sets `inThrottle = false`. -/
def throttleRunTimers {θ α : Type} (timersFirst : Bool) (now : Nat) :
    Nat → ThrottleState θ α → ThrottleState θ α
  | 0, s => s
  | fuel + 1, s =>
    match s.timers with
    | [] => s
    | tm :: rest =>
      if isDue timersFirst now tm.due then
        throttleRunTimers timersFirst now fuel { s with inThrottle := false, timers := rest }
      else s

/-- Let the time pass up to `now`. -/
def throttleAdvance {θ α : Type} (timersFirst : Bool) (now : Nat) (s : ThrottleState θ α) :
    ThrottleState θ α :=
  throttleRunTimers timersFirst now s.timers.length s

/-- A sequence of calls of the throttled function, each with its time, `this` and
arguments. -/
def throttleRun {θ α : Type} (timersFirst : Bool) (limit : Nat) (calls : List (Nat × θ × α))
    (s : ThrottleState θ α) : ThrottleState θ α :=
  calls.foldl (fun s c => throttled limit c.1 c.2.1 c.2.2 (throttleAdvance timersFirst c.1 s)) s

/-- What holds of a throttled function between calls, seen at time `now`: the
invocations are `limit` apart and not in the future; either no window is open, no timer
is pending and every invocation is at least `limit` old, or a window is open and the one
pending timer is due `limit` after the latest invocation. -/
def ThrottleInv {θ α : Type} (limit now : Nat) (s : ThrottleState θ α) : Prop :=
  s.invoked.Pairwise (fun x y => x.1 + limit ≤ y.1) ∧
    (∀ x ∈ s.invoked, x.1 ≤ now) ∧
    ((s.inThrottle = false ∧ s.timers = [] ∧ ∀ x ∈ s.invoked, x.1 + limit ≤ now) ∨
      (s.inThrottle = true ∧ ∃ id due, s.timers = [{ id := id, due := due, callback := () }] ∧
        (∃ x ∈ s.invoked, due = x.1 + limit) ∧ ∀ y ∈ s.invoked, y.1 + limit ≤ due))

/-! ## Cookies (`aurora_motors/static/js/base.js`) -/

/-- The call `s.split(';')`. -/
def splitSemicolon : List Char → List (List Char)
  | [] => [[]]
  | c :: cs =>
    if c = ';' then [] :: splitSemicolon cs
    else
      match splitSemicolon cs with
      | [] => [[c]]
      | x :: xs => (c :: x) :: xs

/-- The loop of `getCookie` over the entries: the first entry that, trimmed, starts with
`name=` ends it. The result is `null` (`none`), a string, or the `URIError` that
`decodeURIComponent` throws when it is given a malformed escape (`none` from
`decodeURIComponent`). -/
def getCookieLoop (decodeURIComponent : List Char → Option (List Char)) (name : List Char) :
    List (List Char) → Except String (Option (List Char))
  | [] => Except.ok none
  | entry :: rest =>
    if (jsTrim entry).take (name.length + 1) = name ++ ['='] then
      match decodeURIComponent ((jsTrim entry).drop (name.length + 1)) with
      | some value => Except.ok (some value)
      | none => Except.error "URIError"
    else getCookieLoop decodeURIComponent name rest

/-- The function `getCookie`, given the value of `document.cookie`. -/
def getCookie (decodeURIComponent : List Char → Option (List Char))
    (documentCookie name : List Char) : Except String (Option (List Char)) :=
  if documentCookie ≠ [] then
    getCookieLoop decodeURIComponent name (splitSemicolon documentCookie)
  else Except.ok none

/-- Whether an entry of the cookie string, after trimming, starts with `name=`. -/
@[reducible]
def entryMatches (name entry : List Char) : Prop :=
  name ++ ['='] <+: jsTrim entry

/-- A stand-in for `decodeURIComponent` on values without escapes. -/
def sampleDecode (value : List Char) : Option (List Char) :=
  if '%' ∈ value then none else some value

/-! ## The pixel scan -/

/-- The loop reports a non-zero byte exactly when one of the indices `i`, `i + 4`, ...
it can reach with its fuel holds one. -/
theorem alphaLoop_eq_true_iff (data : List Nat) (fuel i : Nat) :
    alphaLoop data fuel i = true ↔
      ∃ k, k < fuel ∧ i + 4 * k < data.length ∧ data.getD (i + 4 * k) 0 ≠ 0 := by
  induction fuel generalizing i with
  | zero => simp [alphaLoop]
  | succ n ih =>
    unfold alphaLoop
    by_cases hi : i < data.length
    · by_cases hd : data.getD i 0 ≠ 0
      · rw [if_pos hi, if_pos hd]
        refine ⟨fun _ => ⟨0, Nat.succ_pos n, by simpa using hi, by simpa using hd⟩,
          fun _ => rfl⟩
      · rw [if_pos hi, if_neg hd, ih]
        constructor
        · rintro ⟨k, hk, hlt, hne⟩
          refine ⟨k + 1, Nat.succ_lt_succ hk, ?_, ?_⟩
          · have : i + 4 * (k + 1) = i + 4 + 4 * k := by ring
            rw [this]; exact hlt
          · have : i + 4 * (k + 1) = i + 4 + 4 * k := by ring
            rw [this]; exact hne
        · rintro ⟨k, hk, hlt, hne⟩
          cases k with
          | zero => exact absurd (by simpa using hne) hd
          | succ m =>
            refine ⟨m, Nat.lt_of_succ_lt_succ hk, ?_, ?_⟩
            · have : i + 4 + 4 * m = i + 4 * (m + 1) := by ring
              rw [this]; exact hlt
            · have : i + 4 + 4 * m = i + 4 * (m + 1) := by ring
              rw [this]; exact hne
    · rw [if_neg hi]
      constructor
      · intro h; exact absurd h (by simp)
      · rintro ⟨k, _, hlt, _⟩
        exact absurd (Nat.lt_of_le_of_lt (Nat.le_add_right i (4 * k)) hlt) hi

/-- The scan is true exactly when some alpha byte (index 3 modulo 4) is non-zero. -/
theorem scanAlpha_eq_true_iff (data : List Nat) :
    scanAlpha data = true ↔
      ∃ i, i < data.length ∧ i % 4 = 3 ∧ data.getD i 0 ≠ 0 := by
  unfold scanAlpha
  rw [alphaLoop_eq_true_iff]
  constructor
  · rintro ⟨k, _, hlt, hne⟩
    exact ⟨3 + 4 * k, hlt, by omega, hne⟩
  · rintro ⟨i, hlt, hmod, hne⟩
    refine ⟨i / 4, by omega, ?_, ?_⟩
    · have : 3 + 4 * (i / 4) = i := by omega
      rw [this]; exact hlt
    · have : 3 + 4 * (i / 4) = i := by omega
      rw [this]; exact hne

/-- More fuel than bytes changes nothing: the loop has left the array by then. -/
theorem alphaLoop_fuel_enough (data : List Nat) (fuel : Nat) (h : data.length ≤ fuel) :
    alphaLoop data fuel 3 = scanAlpha data := by
  rw [Bool.eq_iff_iff, scanAlpha_eq_true_iff, alphaLoop_eq_true_iff]
  constructor
  · rintro ⟨k, _, hlt, hne⟩
    exact ⟨3 + 4 * k, hlt, by omega, hne⟩
  · rintro ⟨i, hlt, hmod, hne⟩
    refine ⟨i / 4, by omega, ?_, ?_⟩
    · have : 3 + 4 * (i / 4) = i := by omega
      rw [this]; exact hlt
    · have : 3 + 4 * (i / 4) = i := by omega
      rw [this]; exact hne

/-! ## Claims on `hasSignatureData` and on the preconditions of `submitSignature` -/

/-- The scan on a canvas whose bitmap has pixels returns what the loop over the alpha
bytes finds. -/
theorem hasSignatureData_of_pixels (s : Widget) (cv : Canvas) (hcv : s.canvas = some cv)
    (hw : cv.width ≠ 0) (hh : cv.height ≠ 0) :
    hasSignatureData s = some (scanAlpha cv.data) := by
  simp [hasSignatureData, hcv, hw, hh]

/-- The scan on a canvas whose bitmap has no pixels throws. -/
theorem hasSignatureData_of_no_pixels (s : Widget) (cv : Canvas) (hcv : s.canvas = some cv)
    (h0 : cv.width = 0 ∨ cv.height = 0) : hasSignatureData s = none := by
  simp [hasSignatureData, hcv, h0]

/-- The scan says true only on a canvas with a non-zero alpha byte. -/
theorem hasSignatureData_eq_some_true_iff (s : Widget) :
    hasSignatureData s = some true ↔
      ∃ cv, s.canvas = some cv ∧ cv.width ≠ 0 ∧ cv.height ≠ 0 ∧
        ∃ i, i < cv.data.length ∧ i % 4 = 3 ∧ cv.data.getD i 0 ≠ 0 := by
  unfold hasSignatureData
  cases hcv : s.canvas with
  | none => simp
  | some cv =>
    by_cases h0 : cv.width = 0 ∨ cv.height = 0
    · simp only [h0, if_true, Option.some.injEq, exists_eq_left']
      constructor
      · intro h; exact absurd h (by simp)
      · rintro ⟨hw, hh, _⟩
        rcases h0 with h0 | h0
        · exact absurd h0 hw
        · exact absurd h0 hh
    · have hw : cv.width ≠ 0 := fun h => h0 (Or.inl h)
      have hh : cv.height ≠ 0 := fun h => h0 (Or.inr h)
      simp [h0, hw, hh, scanAlpha_eq_true_iff]

/-- C6, with its failing input: `hasSignatureData()` returns false when the canvas is
absent, and on a bitmap with pixels it returns true exactly when some byte at an index
`i` with `i % 4 = 3` (an alpha byte) is non-zero, so false for a fully transparent one.
On an empty bitmap, of width or height zero, it does not return:
`getImageData(0, 0, canvas.width, canvas.height)` throws an `IndexSizeError`.  That is
the bitmap `initializeSignaturePad` leaves when the box of the canvas is 0 by 0, as it is
while the modal of the canvas is not displayed. -/
theorem C6_hasSignatureData_throws_on_empty_raster :
    (∀ s : Widget, s.canvas = none → hasSignatureData s = some false) ∧
    (∀ (s : Widget) (cv : Canvas), s.canvas = some cv → cv.width ≠ 0 → cv.height ≠ 0 →
      ∃ b, hasSignatureData s = some b ∧
        (b = true ↔ ∃ i, i < cv.data.length ∧ i % 4 = 3 ∧ cv.data.getD i 0 ≠ 0)) ∧
    (∀ (s : Widget) (cv : Canvas), s.canvas = some cv → (cv.width = 0 ∨ cv.height = 0) →
      hasSignatureData s = none) ∧
    (sampleWidget 0 0 1 false (some "token")).canvas.map
      (fun cv => (cv.width, cv.height, cv.data)) = some (0, 0, []) ∧
    hasSignatureData (sampleWidget 0 0 1 false (some "token")) = none ∧
    hasSignatureData (sampleWidget 8 4 1 false (some "token")) = some false := by
  refine ⟨?_, ?_, ?_, by decide!, by decide!, by decide!⟩
  · intro s hcv
    simp [hasSignatureData, hcv]
  · intro s cv hcv hw hh
    exact ⟨scanAlpha cv.data, hasSignatureData_of_pixels s cv hcv hw hh,
      scanAlpha_eq_true_iff cv.data⟩
  · intro s cv hcv h0
    exact hasSignatureData_of_no_pixels s cv hcv h0

/-- C4: with canvas and checkbox present, an unchecked box makes `submitSignature` show
"Please agree to the terms and conditions" and nothing else, whatever the bitmap holds;
a checked box over a bitmap without ink makes it show "Please provide your signature". -/
theorem C4_submitSignature_checks_agreement_before_ink (s : Widget) (now : String)
    (cv : Canvas) (checked : Bool)
    (hcv : s.canvas = some cv) (hbox : s.agreeTerms = some checked) :
    (checked = false →
      (submitSignature s now).notifications =
        s.notifications ++ [("Please agree to the terms and conditions", "error")]) ∧
    (checked = true → hasSignatureData s = some false →
      (submitSignature s now).notifications =
        s.notifications ++ [("Please provide your signature", "error")]) := by
  constructor
  · intro hc
    subst hc
    simp [submitSignature, hcv, hbox, showNotification]
  · intro hc hink
    subst hc
    simp [submitSignature, hcv, hbox, hink, showNotification]

/-- C5: when the checkbox is unchecked or the bitmap has no ink, `submitSignature` issues
no request and leaves the page and the pad as they were (buttons, checkbox, canvas with
its bitmap, `isDrawing`, `hasSignature`, timers): only the notification is added. -/
theorem C5_submitSignature_precondition_failure_changes_nothing (s : Widget)
    (now : String) (h : s.agreeTerms = some false ∨ hasSignatureData s = some false) :
    (submitSignature s now).sent = s.sent ∧
    (submitSignature s now).pending = s.pending ∧
    (submitSignature s now).submitBtn = s.submitBtn ∧
    (submitSignature s now).clearBtn = s.clearBtn ∧
    (submitSignature s now).canvas = s.canvas ∧
    (submitSignature s now).hasSignature = s.hasSignature ∧
    (submitSignature s now).isDrawing = s.isDrawing ∧
    (submitSignature s now).agreeTerms = s.agreeTerms ∧
    (submitSignature s now).timeouts = s.timeouts ∧
    (submitSignature s now).uncaught = s.uncaught := by
  cases hcv : s.canvas with
  | none => simp [submitSignature, hcv]
  | some cv =>
    cases hbox : s.agreeTerms with
    | none => simp [submitSignature, hcv, hbox]
    | some checked =>
      cases checked with
      | false => simp [submitSignature, hcv, hbox, showNotification]
      | true =>
        have hink : hasSignatureData s = some false := by
          rcases h with h | h
          · rw [hbox] at h; exact absurd h (by simp)
          · exact h
        simp [submitSignature, hcv, hbox, hink, showNotification]

/-- C4, witness: a widget that carries a stroke but whose box is unchecked reports the
missing agreement, not a missing signature. -/
theorem C4_witness_inked_but_unchecked :
    hasSignatureData (run (sampleWidget 8 4 1 false (some "token")) shortStroke) = some true ∧
    (submitSignature (run (sampleWidget 8 4 1 false (some "token")) shortStroke)
        "2024-05-01T10:00:00.000Z").notifications =
      (run (sampleWidget 8 4 1 false (some "token")) shortStroke).notifications ++
        [("Please agree to the terms and conditions", "error")] :=
  ⟨by decide!,
    (C4_submitSignature_checks_agreement_before_ink
      (run (sampleWidget 8 4 1 false (some "token")) shortStroke)
      "2024-05-01T10:00:00.000Z"
      ((run (sampleWidget 8 4 1 false (some "token")) shortStroke).canvas.get (by decide!))
      false (Option.some_get _).symm (by decide!)).1 rfl⟩

/-- C5, witness: on the freshly initialised widget with an unchecked box the call sends
nothing and leaves the submit button as it was. -/
theorem C5_witness_unchecked :
    (sampleWidget 8 4 1 false (some "token")).agreeTerms = some false ∧
    (submitSignature (sampleWidget 8 4 1 false (some "token")) "2024-05-01T10:00:00.000Z").sent
      = (sampleWidget 8 4 1 false (some "token")).sent ∧
    (submitSignature (sampleWidget 8 4 1 false (some "token"))
        "2024-05-01T10:00:00.000Z").submitBtn
      = (sampleWidget 8 4 1 false (some "token")).submitBtn :=
  ⟨by decide!,
    (C5_submitSignature_precondition_failure_changes_nothing
      (sampleWidget 8 4 1 false (some "token")) "2024-05-01T10:00:00.000Z"
      (Or.inl (by decide!))).1,
    (C5_submitSignature_precondition_failure_changes_nothing
      (sampleWidget 8 4 1 false (some "token")) "2024-05-01T10:00:00.000Z"
      (Or.inl (by decide!))).2.2.1⟩

/-! ## Clearing -/

/-- Clearing the same rectangle twice is clearing it once. -/
theorem Canvas.clearRect_idem (cv : Canvas) (x y w h : ℚ) :
    (cv.clearRect x y w h).clearRect x y w h = cv.clearRect x y w h := by
  unfold Canvas.clearRect
  simp only [List.mapIdx_mapIdx, Canvas.clearHits]
  congr 1
  apply List.ext_getElem?
  intro i
  simp only [List.getElem?_mapIdx, Function.comp]
  cases cv.data[i]? with
  | none => rfl
  | some v =>
    simp only [Option.map_some']
    split <;> simp_all

/-- `clearSignature` is idempotent on every widget state. -/
theorem clearSignature_idem (s : Widget) :
    clearSignature (clearSignature s) = clearSignature s := by
  cases hcv : s.canvas with
  | none =>
    simp only [clearSignature, updateSignatureButtons, hcv, Option.map_map, Option.map_none',
      Bool.not_false]
    cases s.clearBtn <;> cases s.submitBtn <;> rfl
  | some cv =>
    have h := Canvas.clearRect_idem cv 0 0 cv.width cv.height
    have hw : (cv.clearRect 0 0 cv.width cv.height).width = cv.width := rfl
    have hh : (cv.clearRect 0 0 cv.width cv.height).height = cv.height := rfl
    simp only [clearSignature, updateSignatureButtons, hcv, Option.map_map, Option.map_some',
      Bool.not_false, hw, hh, h]
    cases s.clearBtn <;> cases s.submitBtn <;> rfl

/-- With a context scaled by at least 1, the rectangle of
`clearRect(0, 0, canvas.width, canvas.height)` contains the centre of every pixel. -/
theorem Canvas.clearHits_full (cv : Canvas) (hs : 1 ≤ cv.scale) (i j : Nat)
    (hi : i < cv.width) (hj : j < cv.height) :
    cv.clearHits 0 0 cv.width cv.height i j = true := by
  have hi' : (i : ℚ) + 1 ≤ cv.width := by exact_mod_cast hi
  have hj' : (j : ℚ) + 1 ≤ cv.height := by exact_mod_cast hj
  have hi0 : (0 : ℚ) ≤ i := Nat.cast_nonneg i
  have hj0 : (0 : ℚ) ≤ j := Nat.cast_nonneg j
  have hw : (cv.width : ℚ) ≤ cv.width * cv.scale := by nlinarith
  have hh : (cv.height : ℚ) ≤ cv.height * cv.scale := by nlinarith
  simp only [Canvas.clearHits, pixelCentre, Bool.and_eq_true, decide_eq_true_eq]
  refine ⟨⟨⟨?_, ?_⟩, ?_⟩, ?_⟩ <;> linarith

/-- With a context scaled by at least 1 and a bitmap of the size of the canvas,
`clearSignature` leaves no ink for `hasSignatureData` to find. -/
theorem clearSignature_blank (s : Widget) (cv : Canvas) (hcv : s.canvas = some cv)
    (hs : 1 ≤ cv.scale) (hlen : cv.data.length ≤ 4 * cv.width * cv.height) :
    hasSignatureData (clearSignature s) ≠ some true := by
  have hcanvas : (clearSignature s).canvas = some (cv.clearRect 0 0 cv.width cv.height) := by
    simp [clearSignature, updateSignatureButtons, hcv]
  intro h
  rw [hasSignatureData_eq_some_true_iff] at h
  obtain ⟨cv1, hcv1, _, _, i, hi, _, hne⟩ := h
  rw [hcanvas] at hcv1
  have hcv2 : cv1 = cv.clearRect 0 0 cv.width cv.height := (Option.some.inj hcv1).symm
  subst hcv2
  have hi' : i < cv.data.length := by
    simpa [Canvas.clearRect] using hi
  have hpx : i / 4 < cv.width * cv.height := by
    have : i < 4 * (cv.width * cv.height) := by
      rw [← Nat.mul_assoc]; exact Nat.lt_of_lt_of_le hi' hlen
    exact Nat.div_lt_of_lt_mul this
  have hwpos : 0 < cv.width := by
    rcases Nat.eq_zero_or_pos cv.width with h0 | h0
    · rw [h0, Nat.zero_mul] at hpx; exact absurd hpx (Nat.not_lt_zero _)
    · exact h0
  have hcol : (i / 4) % cv.width < cv.width := Nat.mod_lt _ hwpos
  have hrow : (i / 4) / cv.width < cv.height := Nat.div_lt_of_lt_mul hpx
  have hit := Canvas.clearHits_full cv hs _ _ hcol hrow
  apply hne
  simp [Canvas.clearRect, List.getD_eq_getElem?_getD, List.getElem?_mapIdx, hit,
    List.getElem?_eq_getElem hi']

/-! ## After clearing, until the next stroke -/

/-- What `updateSubmitButton` leaves alone: everything but the submit control and the
record of uncaught errors. -/
theorem updateSubmitButton_frame (s : Widget) :
    (updateSubmitButton s).canvas = s.canvas ∧
    (updateSubmitButton s).isDrawing = s.isDrawing ∧
    (updateSubmitButton s).clearBtn = s.clearBtn ∧
    (updateSubmitButton s).listeners = s.listeners ∧
    (updateSubmitButton s).pending = s.pending := by
  unfold updateSubmitButton
  simp only []
  split <;> exact ⟨rfl, rfl, rfl, rfl, rfl⟩

/-- The scan depends on the canvas only. -/
theorem hasSignatureData_congr (s t : Widget) (h : t.canvas = s.canvas) :
    hasSignatureData t = hasSignatureData s := by
  unfold hasSignatureData
  rw [h]

/-- On a blank bitmap at rest, `updateSubmitButton` keeps the submit control disabled. -/
theorem updateSubmitButton_atRestBlank (s : Widget) (h : AtRestBlank s) :
    AtRestBlank (updateSubmitButton s) := by
  obtain ⟨h1, h2, h3, h4⟩ := h
  have hf := updateSubmitButton_frame s
  refine ⟨hf.2.1.trans h1, ?_, ?_, ?_⟩
  · rw [hasSignatureData_congr s _ hf.1]
    exact h2
  · intro b hb
    rw [hf.2.2.1] at hb
    exact h3 b hb
  · intro b hb
    unfold updateSubmitButton at hb
    simp only [] at hb
    split at hb
    · exact h4 b hb
    · next v hv =>
      have hv0 : v = false := by
        cases hc : s.canvas.isSome with
        | false => rw [hc] at hv; simpa using hv.symm
        | true =>
          rw [hc] at hv
          simp only [if_true] at hv
          cases v with
          | false => rfl
          | true => exact absurd hv h2
      subst hv0
      cases hsb : s.submitBtn with
      | none => rw [hsb] at hb; exact absurd hb (by simp)
      | some b0 =>
        rw [hsb] at hb
        simp only [Option.map_some', Option.some.injEq] at hb
        rw [← hb]
        simp

/-- A quiet event keeps the widget at rest on its blank bitmap. -/
theorem step_atRestBlank (s : Widget) (e : Event) (he : e.isQuiet = true)
    (h : AtRestBlank s) : AtRestBlank (step s e) := by
  have hidle := h.1
  cases e with
  | tick =>
    simp only [step]
    split
    · exact updateSubmitButton_atRestBlank s h
    · exact h
  | toggleAgree =>
    simp only [step]
    have h1 : AtRestBlank { s with agreeTerms := s.agreeTerms.map fun c => !c } := h
    split
    · exact updateSubmitButton_atRestBlank _ h1
    · exact h1
  | mouseup => simp only [step, stopDrawing, hidle]; split <;> exact h
  | mouseout => simp only [step, stopDrawing, hidle]; split <;> exact h
  | touchend => simp only [step, stopDrawing, hidle]; split <;> exact h
  | mousemove x y => simp only [step, draw, hidle]; split <;> exact h
  | touchmove x y => simp only [step, draw, hidle]; split <;> exact h
  | mousedown x y => exact absurd he (by simp [Event.isQuiet])
  | touchstart x y => exact absurd he (by simp [Event.isQuiet])
  | clearClick => exact absurd he (by simp [Event.isQuiet])
  | submitClick now => exact absurd he (by simp [Event.isQuiet])
  | windowResize r d => exact absurd he (by simp [Event.isQuiet])
  | response k o => exact absurd he (by simp [Event.isQuiet])
  | timeout k => exact absurd he (by simp [Event.isQuiet])

/-- Any sequence of quiet events keeps the widget at rest on its blank bitmap: the clear
and submit controls stay disabled. -/
theorem run_atRestBlank (es : List Event) (s : Widget)
    (hq : ∀ e ∈ es, Event.isQuiet e = true) (h : AtRestBlank s) : AtRestBlank (run s es) := by
  induction es generalizing s with
  | nil => exact h
  | cons e rest ih =>
    simp only [run, List.foldl_cons]
    exact ih (step s e) (fun e1 h1 => hq e1 (List.mem_cons_of_mem e h1))
      (step_atRestBlank s e (hq e (List.mem_cons_self e rest)) h)

/-- After `clearSignature` in a context scaled by at least 1, with no stroke in
progress, the widget is at rest on a blank bitmap. -/
theorem clearSignature_atRestBlank (s : Widget) (cv : Canvas) (hcv : s.canvas = some cv)
    (hs : 1 ≤ cv.scale) (hlen : cv.data.length ≤ 4 * cv.width * cv.height)
    (hidle : s.isDrawing = false) : AtRestBlank (clearSignature s) := by
  refine ⟨hidle, clearSignature_blank s cv hcv hs hlen, ?_, ?_⟩
  · intro b hb
    simp only [clearSignature, updateSignatureButtons] at hb
    cases hc : s.clearBtn with
    | none => rw [hc] at hb; exact absurd hb (by simp)
    | some b0 =>
      rw [hc] at hb
      simp only [Option.map_some', Option.some.injEq] at hb
      rw [← hb]; rfl
  · intro b hb
    simp only [clearSignature, updateSignatureButtons] at hb
    cases hc : s.submitBtn with
    | none => rw [hc] at hb; exact absurd hb (by simp)
    | some b0 =>
      rw [hc] at hb
      simp only [Option.map_some', Option.some.injEq] at hb
      rw [← hb]; rfl

/-! ## What the handlers do to the submit control and to the flag -/

/-- A transparent bitmap has no ink. -/
theorem scanAlpha_blankData (w h : Nat) : scanAlpha (blankData w h) = false := by
  rw [Bool.eq_false_iff]
  intro hk
  rw [scanAlpha_eq_true_iff] at hk
  obtain ⟨i, hi, _, hne⟩ := hk
  apply hne
  unfold blankData at hi ⊢
  rw [List.length_replicate] at hi
  simp [List.getD_eq_getElem?_getD, List.getElem?_replicate, hi]

/-- While stroking, `draw` enables the submit control whatever the checkbox says, and
sets the flag whatever gets painted. -/
theorem draw_enables_submit (s : Widget) (x y : ℚ) (h : s.isDrawing = true) :
    (draw s x y).submitBtn = s.submitBtn.map (fun b => { b with disabled := false }) ∧
    (draw s x y).agreeTerms = s.agreeTerms ∧
    (draw s x y).hasSignature = true := by
  simp [draw, h, updateSignatureButtons]

/-- With the box checked and ink on the bitmap, `updateSubmitButton` enables the submit
control whether or not a request is in flight. -/
theorem updateSubmitButton_enables (s : Widget) (ha : s.agreeTerms = some true)
    (hi : hasSignatureData s = some true) :
    (updateSubmitButton s).submitBtn = s.submitBtn.map (fun b => { b with disabled := false }) ∧
    (updateSubmitButton s).pending = s.pending := by
  have hc : s.canvas.isSome = true := by
    unfold hasSignatureData at hi
    cases hcv : s.canvas with
    | none => rw [hcv] at hi; exact absurd hi (by simp)
    | some cv => rfl
  simp [updateSubmitButton, ha, hi, hc]

/-- `resizeCanvas` empties the bitmap and leaves the flag as it was. -/
theorem resizeCanvas_blank_keeps_flag (s : Widget) :
    hasSignatureData (resizeCanvas s) ≠ some true ∧
    (resizeCanvas s).hasSignature = s.hasSignature := by
  refine ⟨?_, rfl⟩
  unfold hasSignatureData resizeCanvas
  cases s.canvas with
  | none => simp
  | some cv =>
    simp only [Option.map_some', Canvas.ctxScale, Canvas.setHeight, Canvas.setWidth]
    split
    · simp
    · rw [scanAlpha_blankData]
      simp

/-! ## Where the code departs from the claims: evaluations at concrete inputs -/

/-- C1, at a failing input: the box is unchecked and the user presses the mouse on the
canvas.  `draw` runs `updateSignatureButtons`, which enables `#submit-signature` from the
`hasSignature` flag alone: the control is enabled although the box is unchecked (and the
bitmap is still blank).  The next poll disables it again. -/
theorem C1_press_enables_submit_without_agreement :
    (sampleWidget 8 4 1 false (some "token")).submitBtn.map Button.disabled = some true ∧
    (run (sampleWidget 8 4 1 false (some "token")) [Event.mousedown 1 1]).agreeTerms
      = some false ∧
    hasSignatureData (run (sampleWidget 8 4 1 false (some "token")) [Event.mousedown 1 1])
      = some false ∧
    (run (sampleWidget 8 4 1 false (some "token"))
      [Event.mousedown 1 1]).submitBtn.map Button.disabled = some false ∧
    (run (sampleWidget 8 4 1 false (some "token"))
      [Event.mousedown 1 1, Event.tick]).submitBtn.map Button.disabled = some true := by
  decide!

/-- C2, at a failing input: box checked, one stroke drawn, submit clicked, and a poll tick
arrives before the response.  `updateSubmitButton` re-enables the button while the request
is in flight, and a second click then starts a second request next to the first. -/
theorem C2_poll_enables_submit_during_flight :
    (run (sampleWidget 8 4 1 true (some "token"))
      (shortStroke ++ [Event.submitClick "t1"])).submitBtn.map Button.disabled = some true ∧
    (run (sampleWidget 8 4 1 true (some "token"))
      (shortStroke ++ [Event.submitClick "t1", Event.tick])).pending.length = 1 ∧
    (run (sampleWidget 8 4 1 true (some "token"))
      (shortStroke ++ [Event.submitClick "t1", Event.tick])).submitBtn.map Button.disabled
      = some false ∧
    (run (sampleWidget 8 4 1 true (some "token"))
      (shortStroke ++ [Event.submitClick "t1", Event.tick,
        Event.submitClick "t2"])).pending.length = 2 ∧
    (run (sampleWidget 8 4 1 true (some "token"))
      (shortStroke ++ [Event.submitClick "t1", Event.tick,
        Event.submitClick "t2"])).sent.length = 2 := by
  decide!

/-- C3, at two failing inputs.  First, a page without the `csrfmiddlewaretoken` field:
`getCsrfToken` throws after the button was disabled and relabelled and before `fetch` is
called, so no continuation exists that would restore it; a later poll enables the button,
the label stays "Submitting...".  Second, a complete page on which a poll tick lets the
user submit twice: the second call captures "Submitting..." as the original label, and
once both requests have settled that is the label left on the button. -/
theorem C3_submit_label_not_restored :
    (run (sampleWidget 8 4 1 true none)
      (shortStroke ++ [Event.submitClick "t1"])).submitBtn
      = some { disabled := true, textContent := "Submitting..." } ∧
    (run (sampleWidget 8 4 1 true none)
      (shortStroke ++ [Event.submitClick "t1"])).pending = [] ∧
    (run (sampleWidget 8 4 1 true none)
      (shortStroke ++ [Event.submitClick "t1"])).sent = [] ∧
    (run (sampleWidget 8 4 1 true none)
      (shortStroke ++ [Event.submitClick "t1", Event.tick])).submitBtn
      = some { disabled := false, textContent := "Submitting..." } ∧
    (run (sampleWidget 8 4 1 true (some "token"))
      (shortStroke ++ [Event.submitClick "t1", Event.tick, Event.submitClick "t2",
        Event.response 0 (FetchOutcome.json false none none),
        Event.response 0 (FetchOutcome.json false none none)])).submitBtn
      = some { disabled := false, textContent := "Submitting..." } ∧
    (run (sampleWidget 8 4 1 true (some "token"))
      (shortStroke ++ [Event.submitClick "t1", Event.tick, Event.submitClick "t2",
        Event.response 0 (FetchOutcome.json false none none),
        Event.response 0 (FetchOutcome.json false none none)])).pending = [] := by
  decide!

/-- C7, at failing inputs: after a stroke, a window resize makes `resizeCanvas` reset the
bitmap while `hasSignature` stays true; and a mere press sets `hasSignature` although
nothing has been painted. -/
theorem C7_flag_true_on_blank_bitmap :
    hasSignatureData (run (sampleWidget 8 4 1 false (some "token")) shortStroke)
      = some true ∧
    (run (sampleWidget 8 4 1 false (some "token"))
      (shortStroke ++ [Event.windowResize ⟨0, 0, 8, 4⟩ 1])).hasSignature = true ∧
    hasSignatureData (run (sampleWidget 8 4 1 false (some "token"))
      (shortStroke ++ [Event.windowResize ⟨0, 0, 8, 4⟩ 1])) = some false ∧
    (run (sampleWidget 8 4 1 false (some "token")) [Event.mousedown 1 1]).hasSignature
      = true ∧
    hasSignatureData (run (sampleWidget 8 4 1 false (some "token")) [Event.mousedown 1 1])
      = some false := by
  decide!

/-- C8, at a failing input: pixel ratio 2, canvas box 4 by 2 (bitmap 8 by 4).  `draw`
multiplies the pointer offset by `canvas.width / rect.width = 2` and the context scales
by 2 once more, so a segment from (3, 1) to (3, 0) inside the box is stroked from
(12, 4) to (12, 0), outside the bitmap: the scan finds no ink. -/
theorem C8_segment_inside_box_leaves_no_ink :
    (run (sampleWidget 4 2 2 false (some "token"))
      [Event.mousedown 3 1, Event.mousemove 3 0]).isDrawing = true ∧
    (run (sampleWidget 4 2 2 false (some "token"))
      [Event.mousedown 3 1, Event.mousemove 3 0]).canvas.map Canvas.width = some 8 ∧
    (run (sampleWidget 4 2 2 false (some "token"))
      [Event.mousedown 3 1]).canvas.map Canvas.path = some [[⟨12, 4⟩]] ∧
    (run (sampleWidget 4 2 2 false (some "token"))
      [Event.mousedown 3 1, Event.mousemove 3 0]).canvas.map Canvas.path
      = some [[⟨12, 0⟩]] ∧
    (run (sampleWidget 4 2 2 false (some "token"))
      [Event.mousedown 3 1, Event.mousemove 3 0]).hasSignature = true ∧
    hasSignatureData (run (sampleWidget 4 2 2 false (some "token"))
      [Event.mousedown 3 1, Event.mousemove 3 0]) = some false := by
  decide!

/-- C9, at a failing input: pixel ratio 3/4, canvas box 4 by 4 (bitmap 3 by 3, context
scaled by 3/4).  `clearRect(0, 0, canvas.width, canvas.height)` goes through that scaling
and reaches only up to 9/4 in each direction, while a stroke along the right edge of the
box has painted the pixel in column 2: after one call of `clearSignature`, and after two,
the bitmap still has ink. -/
theorem C9_clearSignature_leaves_ink :
    (run (sampleWidget 4 4 (3 / 4) false (some "token")) edgeStroke).canvas.map
      Canvas.width = some 3 ∧
    hasSignatureData
      (clearSignature (run (sampleWidget 4 4 (3 / 4) false (some "token")) edgeStroke))
      = some true ∧
    hasSignatureData
      (clearSignature (clearSignature
        (run (sampleWidget 4 4 (3 / 4) false (some "token")) edgeStroke))) = some true ∧
    (clearSignature (run (sampleWidget 4 4 (3 / 4) false (some "token"))
      edgeStroke)).hasSignature = false := by
  decide!

/-- C10, at a failing input: on the page of C9 with the box checked, the clear click
disables both controls, and the next poll tick, with no drawing in between, finds the ink
that `clearRect` left behind and enables the submit control. -/
theorem C10_submit_enabled_after_clear_without_new_ink :
    (run (sampleWidget 4 4 (3 / 4) true (some "token"))
      (edgeStroke ++ [Event.clearClick])).clearBtn.map Button.disabled = some true ∧
    (run (sampleWidget 4 4 (3 / 4) true (some "token"))
      (edgeStroke ++ [Event.clearClick])).submitBtn.map Button.disabled = some true ∧
    (run (sampleWidget 4 4 (3 / 4) true (some "token"))
      (edgeStroke ++ [Event.clearClick])).hasSignature = false ∧
    (run (sampleWidget 4 4 (3 / 4) true (some "token"))
      (edgeStroke ++ [Event.clearClick, Event.tick])).submitBtn.map Button.disabled
      = some false := by
  decide!

/-! ## Coordinates and sizes -/

/-- While stroking on a canvas with a non-empty box, `draw` leaves the pen at the pointer
offset multiplied by `canvas.width / rect.width` (by `draw`) and then by the scale of the
context (by `lineTo` and `moveTo`). -/
theorem draw_pen_position (cv : Canvas) (x y : ℚ)
    (hw : cv.rect.width ≠ 0) (hh : cv.rect.height ≠ 0) :
    (drawOnCanvas cv x y).path =
      [[⟨(x - cv.rect.left) * ((cv.width : ℚ) / cv.rect.width) * cv.scale,
         (y - cv.rect.top) * ((cv.height : ℚ) / cv.rect.height) * cv.scale⟩]] := by
  simp only [drawOnCanvas, drawPoint, hw, hh, or_self, if_false]
  cases hp : cv.path <;>
    simp [Canvas.lineTo, Canvas.stroke, Canvas.beginPath, Canvas.moveTo, Canvas.toDevice, hp]

/-- The canvas that `resizeCanvas` leaves depends on the box and the pixel ratio only. -/
theorem resizeCanvas_canvas (s : Widget) (cv : Canvas) (hcv : s.canvas = some cv) :
    (resizeCanvas s).canvas = some
      { rect := cv.rect
        width := toUnsignedLong (toDouble (cv.rect.width * s.devicePixelRatio))
        height := toUnsignedLong (toDouble (cv.rect.height * s.devicePixelRatio))
        data := blankData (toUnsignedLong (toDouble (cv.rect.width * s.devicePixelRatio)))
          (toUnsignedLong (toDouble (cv.rect.height * s.devicePixelRatio)))
        scale := s.devicePixelRatio
        path := []
        lineWidth := 1
        lineCap := LineCap.butt
        strokeStyle := [0, 0, 0, 255] } := by
  simp [resizeCanvas, hcv, Canvas.setWidth, Canvas.setHeight, Canvas.ctxScale]

/-- Resizing twice is resizing once. -/
theorem resizeCanvas_idem (s : Widget) : resizeCanvas (resizeCanvas s) = resizeCanvas s := by
  cases hcv : s.canvas with
  | none => simp [resizeCanvas, hcv]
  | some cv =>
    have h1 := resizeCanvas_canvas s cv hcv
    have h2 := resizeCanvas_canvas (resizeCanvas s) _ h1
    have hd : (resizeCanvas s).devicePixelRatio = s.devicePixelRatio := rfl
    rw [hd] at h2
    simp only [] at h2
    have h3 : (resizeCanvas (resizeCanvas s)).canvas = (resizeCanvas s).canvas := by
      rw [h2, h1]
    calc resizeCanvas (resizeCanvas s)
        = { resizeCanvas s with canvas := (resizeCanvas (resizeCanvas s)).canvas } := rfl
      _ = { resizeCanvas s with canvas := (resizeCanvas s).canvas } := by rw [h3]

/-- Any positive number of calls of `resizeCanvas` is one call. -/
theorem resizeCanvas_iterate (s : Widget) (n : Nat) (hn : 1 ≤ n) :
    resizeCanvas^[n] s = resizeCanvas s := by
  induction n with
  | zero => exact absurd hn (by decide)
  | succ k ih =>
    rcases Nat.eq_zero_or_pos k with h0 | hpos
    · subst h0; rfl
    · rw [Function.iterate_succ_apply', ih hpos, resizeCanvas_idem]

/-- Halving `n` until it falls below 2 takes at most `m` steps when `n < 2^(m+1)`. -/
theorem log2Fuel_le (fuel n m : Nat) (h : n < 2 ^ (m + 1)) : log2Fuel fuel n ≤ m := by
  induction fuel generalizing n m with
  | zero => exact Nat.zero_le _
  | succ f ih =>
    unfold log2Fuel
    by_cases hn : n < 2
    · rw [if_pos hn]; exact Nat.zero_le _
    · rw [if_neg hn]
      cases m with
      | zero => exact absurd h (by omega)
      | succ k =>
        have h2 : n / 2 < 2 ^ (k + 1) := by
          rw [Nat.div_lt_iff_lt_mul (by decide)]
          calc n < 2 ^ (k + 1 + 1) := h
            _ = 2 ^ (k + 1) * 2 := by ring
        exact Nat.succ_le_succ (ih (n / 2) k h2)

theorem pow2_of_nonpos (e : Int) (h : e ≤ 0) :
    pow2 e = 1 / (((2 : Nat) ^ (-e).toNat : Nat) : ℚ) := by
  unfold pow2
  by_cases h0 : 0 ≤ e
  · have : e = 0 := le_antisymm h h0
    subst this
    simp
  · rw [if_neg h0]

theorem roundHalfEven_natCast (m : Nat) : roundHalfEven (m : ℚ) = m := by
  unfold roundHalfEven
  have hf : ⌊(m : ℚ)⌋ = (m : Int) := Int.floor_natCast m
  rw [hf]
  have h0 : ((m : ℚ) - ((m : Int) : ℚ)) = 0 := by simp
  rw [h0]
  norm_num

theorem binaryExponent_natCast_le (k : Nat) (hk : k < 2 ^ 53) :
    binaryExponent (k : ℚ) ≤ 52 := by
  unfold binaryExponent
  have hnum : ((k : ℚ)).num.natAbs = k := by simp
  have hden : ((k : ℚ)).den = 1 := by simp
  have h1 : floorLog2 1 = 0 := by decide
  have h2 : floorLog2 k ≤ 52 := log2Fuel_le k k 52 hk
  simp only [hnum, hden, h1]
  split <;> omega

/-- A whole number below 2^53 is a double: rounding leaves it as it is. -/
theorem toDouble_natCast (k : Nat) (hk : k < 2 ^ 53) : toDouble (k : ℚ) = some (k : ℚ) := by
  unfold toDouble
  by_cases h0 : (k : ℚ) = 0
  · rw [if_pos h0, h0]
  · rw [if_neg h0]
    have hE : max (binaryExponent (k : ℚ)) (-1022) - 52 ≤ 0 := by
      have := binaryExponent_natCast_le k hk
      omega
    simp only [pow2_of_nonpos _ hE]
    generalize (-(max (binaryExponent (k : ℚ)) (-1022) - 52)).toNat = j
    have hpos : (0 : ℚ) < ((2 ^ j : Nat) : ℚ) := by positivity
    have hdiv : (k : ℚ) / (1 / ((2 ^ j : Nat) : ℚ)) = ((k * 2 ^ j : Nat) : ℚ) := by
      push_cast
      field_simp
    rw [hdiv, roundHalfEven_natCast]
    have hr : (((k * 2 ^ j : Nat) : Int) : ℚ) * (1 / ((2 ^ j : Nat) : ℚ)) = (k : ℚ) := by
      push_cast
      field_simp
    rw [hr]
    have hbig : (k : ℚ) < pow2 1024 := by
      unfold pow2
      rw [if_pos (by decide)]
      exact Nat.cast_lt.mpr
        (lt_of_lt_of_le hk (Nat.pow_le_pow_right (by decide) (by decide)))
    have hneg : -pow2 1024 < (k : ℚ) := by
      have hk0 : (0 : ℚ) ≤ k := Nat.cast_nonneg k
      have hp : (0 : ℚ) < pow2 1024 := lt_of_le_of_lt hk0 hbig
      linarith
    rw [if_pos ⟨hbig, hneg⟩]

/-- The conversion to `unsigned long` keeps a whole number below 2^32. -/
theorem toUnsignedLong_natCast (k : Nat) (hk : k < 4294967296) :
    toUnsignedLong (toDouble (k : ℚ)) = k := by
  rw [toDouble_natCast k (lt_trans hk (by decide))]
  unfold toUnsignedLong
  simp only [Rat.num_natCast, Rat.den_natCast, Nat.cast_one, Int.tdiv_one]
  omega

/-- C12 (amended): after any number `n ≥ 1` of consecutive `resizeCanvas` calls at pixel
ratio `r` on an element with a `w` by `h` box, the scale of the context is exactly `r`
(not `r ^ n`), the bitmap is blank, and its width and height are the products `w * r` and
`h * r`, as the engine computes them in doubles, converted to `unsigned long`; hence
`w * r` and `h * r` themselves when these are whole numbers below 2^32. -/
theorem C12_resize_n_times_scale_r (s : Widget) (cv : Canvas) (n : Nat)
    (hcv : s.canvas = some cv) (hn : 1 ≤ n) :
    ∃ cv1, (resizeCanvas^[n] s).canvas = some cv1 ∧
      cv1.scale = s.devicePixelRatio ∧
      cv1.width = toUnsignedLong (toDouble (cv.rect.width * s.devicePixelRatio)) ∧
      cv1.height = toUnsignedLong (toDouble (cv.rect.height * s.devicePixelRatio)) ∧
      cv1.rect = cv.rect ∧
      cv1.data = blankData cv1.width cv1.height ∧
      (∀ W : Nat, W < 4294967296 → cv.rect.width * s.devicePixelRatio = W → cv1.width = W) ∧
      (∀ H : Nat, H < 4294967296 → cv.rect.height * s.devicePixelRatio = H → cv1.height = H) := by
  rw [resizeCanvas_iterate s n hn, resizeCanvas_canvas s cv hcv]
  refine ⟨_, rfl, rfl, rfl, rfl, rfl, rfl, ?_, ?_⟩
  · intro W hW h
    simp only [h]
    exact toUnsignedLong_natCast W hW
  · intro H hH h
    simp only [h]
    exact toUnsignedLong_natCast H hH

/-- C12, witness: three resizes of the 300 by 150 box at pixel ratio 2 give a 600 by 300
bitmap in a context scaled by 2; and at the pixel ratio 1.2, which as a double is
5404319552844595 / 2^52, a little less than 6/5, the products round to the doubles 360
and 180, and the bitmap is 360 by 180. -/
theorem C12_witness_three_resizes :
    (∃ cv1, (resizeCanvas^[3] (samplePage 300 150 2 false none)).canvas = some cv1 ∧
      cv1.scale = 2 ∧ cv1.width = 600 ∧ cv1.height = 300) ∧
    (resizeCanvas^[3]
      (samplePage 300 150 (5404319552844595 / 4503599627370496) false none)).canvas.map
      (fun cv => (cv.width, cv.height)) = some (360, 180) := by
  constructor
  · obtain ⟨cv1, h1, h2, _, _, _, _, h7, h8⟩ :=
      C12_resize_n_times_scale_r (samplePage 300 150 2 false none)
        { rect := ⟨0, 0, 300, 150⟩, width := 300, height := 150, data := blankData 300 150,
          scale := 1, path := [], lineWidth := 1, lineCap := LineCap.butt,
          strokeStyle := [0, 0, 0, 255] } 3 rfl (by decide)
    refine ⟨cv1, h1, h2, h7 600 (by decide) ?_, h8 300 (by decide) ?_⟩
    · show (300 : ℚ) * 2 = ((600 : Nat) : ℚ)
      norm_num
    · show (150 : ℚ) * 2 = ((300 : Nat) : ℚ)
      norm_num
  · decide!

/-- C12, counterexample to the claim as stated: on a 301 by 150 box at pixel ratio 3/2
the product 301 * 3/2 = 903/2 is not a whole number; one `resizeCanvas` leaves a bitmap
451 pixels wide, not 451.5. -/
theorem C12_counterexample_fractional_size :
    (301 : ℚ) * (3 / 2) = 903 / 2 ∧
    (resizeCanvas^[1] (samplePage 301 150 (3 / 2) false none)).canvas.map
      (fun cv => (cv.width, cv.height, cv.scale)) = some (451, 225, 3 / 2) ∧
    (resizeCanvas^[1] (samplePage 301 150 (3 / 2) false none)).canvas.map
      (fun cv => decide ((cv.width : ℚ) = cv.rect.width * (3 / 2))) = some false := by
  refine ⟨by norm_num, by decide!, by decide!⟩

/-- C11, at the failing input of the scenario: box 300 by 150, pixel ratio 2 (bitmap 600
by 300, context scaled by 2).  For the press at (10, 10) `draw` passes (20, 20) to
`lineTo`, which the scaled context places at bitmap (40, 40); the move to (20, 20) is
stroked as the segment from (40, 40) to (80, 80), not from (20, 20) to (40, 40).  A press
at the visual centre (150, 75) lands on (600, 300), the corner of the bitmap. -/
theorem C11_stroke_drawn_at_square_of_ratio :
    (run (sampleWidget 300 150 2 false (some "token"))
      [Event.mousedown 10 10]).canvas.map (fun cv => (cv.width, cv.height, cv.scale))
      = some (600, 300, 2) ∧
    (run (sampleWidget 300 150 2 false (some "token"))
      [Event.mousedown 10 10]).canvas.map Canvas.path = some [[⟨40, 40⟩]] ∧
    (run (sampleWidget 300 150 2 false (some "token"))
      [Event.mousedown 10 10]).canvas.bind (fun cv => drawPoint cv 20 20)
      = some ⟨40, 40⟩ ∧
    (run (sampleWidget 300 150 2 false (some "token"))
      [Event.mousedown 10 10]).canvas.map
        (fun cv => pathSegments (cv.lineTo ⟨40, 40⟩).path)
      = some [(⟨40, 40⟩, ⟨80, 80⟩)] ∧
    (run (sampleWidget 300 150 2 false (some "token"))
      [Event.mousedown 10 10, Event.mousemove 20 20]).canvas.map Canvas.path
      = some [[⟨80, 80⟩]] ∧
    (run (sampleWidget 300 150 2 false (some "token"))
      [Event.mousedown 150 75]).canvas.map Canvas.path = some [[⟨600, 300⟩]] := by
  decide!

/-! ## The submitter -/

/-- C13 (amended): when the response has `success` false, the continuation of `submitSignature`
shows exactly one notification, of type error: the server's `error` string as it is when
there is one (JavaScript `||`: a non-empty string), and "Failed to submit signature" when
there is none or it is empty; when the request is rejected, the body is not JSON or the
value has no properties to read, it shows exactly one error notification,
"An error occurred. Please try again.". -/
theorem C13_failure_notifications (s : Widget) (p : Pending) (redirect_url : Option String) :
    (∀ e : String, e ≠ "" →
      (settle s p (FetchOutcome.json false redirect_url (some e))).notifications =
        s.notifications ++ [(e, "error")]) ∧
    (settle s p (FetchOutcome.json false redirect_url none)).notifications =
      s.notifications ++ [("Failed to submit signature", "error")] ∧
    (settle s p (FetchOutcome.json false redirect_url (some ""))).notifications =
      s.notifications ++ [("Failed to submit signature", "error")] ∧
    (settle s p FetchOutcome.rejected).notifications =
      s.notifications ++ [("An error occurred. Please try again.", "error")] ∧
    (settle s p FetchOutcome.jsonNull).notifications =
      s.notifications ++ [("An error occurred. Please try again.", "error")] := by
  refine ⟨?_, ?_, ?_, ?_, ?_⟩
  · intro e he
    simp [settle, onFinally, onResult, showNotification, truthy, he]
  · simp [settle, onFinally, onResult, showNotification, truthy]
  · simp [settle, onFinally, onResult, showNotification, truthy]
  · simp [settle, onFinally, onResult, showNotification]
  · simp [settle, onFinally, onResult, showNotification]

/-- C14 (amended): when the response has `success` true, the continuation of `submitSignature` shows
the success notification and no other, hides the contract modal, and schedules the
navigation to `redirect_url` after 1500 ms exactly when a (non-empty) `redirect_url` came
with the response; without one no timer is added.  In the scenario of a checked box, a
stroke and the response `{success: true, redirect_url: "/done"}` the timer then takes the
page to "/done". -/
theorem C14_success_outcome (s : Widget) (p : Pending) (error : Option String) :
    (∀ u : Option String,
      (settle s p (FetchOutcome.json true u error)).notifications =
        s.notifications ++ [("Contract signed successfully!", "success")] ∧
      (settle s p (FetchOutcome.json true u error)).modalDisplay =
        s.modalDisplay.map (fun _ => "none")) ∧
    (∀ u : String, u ≠ "" →
      (settle s p (FetchOutcome.json true (some u) error)).timeouts =
        s.timeouts ++ [(1500, u)]) ∧
    (settle s p (FetchOutcome.json true none error)).timeouts = s.timeouts ∧
    (settle s p (FetchOutcome.json true (some "") error)).timeouts = s.timeouts ∧
    (run (sampleWidget 8 4 1 true (some "token"))
      (shortStroke ++ [Event.submitClick "t1",
        Event.response 0 (FetchOutcome.json true (some "/done") none)])).timeouts
      = [(1500, "/done")] ∧
    (run (sampleWidget 8 4 1 true (some "token"))
      (shortStroke ++ [Event.submitClick "t1",
        Event.response 0 (FetchOutcome.json true (some "/done") none)])).modalDisplay
      = some "none" ∧
    (run (sampleWidget 8 4 1 true (some "token"))
      (shortStroke ++ [Event.submitClick "t1",
        Event.response 0 (FetchOutcome.json true (some "/done") none),
        Event.timeout 0])).location = some "/done" := by
  refine ⟨?_, ?_, ?_, ?_, by decide!, by decide!, by decide!⟩
  · intro u
    constructor
    · by_cases hu : truthy u = true <;>
        simp [settle, onFinally, onResult, showNotification, hideContractModal, hu] <;>
        cases s.modalDisplay <;> rfl
    · by_cases hu : truthy u = true <;>
        simp [settle, onFinally, onResult, showNotification, hideContractModal, hu] <;>
        cases s.modalDisplay <;> rfl
  · intro u hu
    simp [settle, onFinally, onResult, showNotification, hideContractModal, truthy, hu]
    cases s.modalDisplay <;> rfl
  · simp [settle, onFinally, onResult, showNotification, hideContractModal, truthy]
    cases s.modalDisplay <;> rfl
  · simp [settle, onFinally, onResult, showNotification, hideContractModal, truthy]
    cases s.modalDisplay <;> rfl


/-- C13, counterexample to the claim as stated: the response `{success: false, error: ""}`
carries an error string, the empty one; the notification shown is "Failed to submit
signature", not that string. -/
theorem C13_counterexample_empty_error :
    (settle (sampleWidget 8 4 1 true (some "token")) samplePending
      (FetchOutcome.json false none (some ""))).notifications
      = [("Failed to submit signature", "error")] ∧
    (settle (sampleWidget 8 4 1 true (some "token")) samplePending
      (FetchOutcome.json false none (some ""))).notifications ≠ [("", "error")] := by
  decide!

/-- C14, counterexample to the claim as stated: the response
`{success: true, redirect_url: ""}` carries a `redirect_url`, the empty one; no navigation
is scheduled. -/
theorem C14_counterexample_empty_redirect :
    (settle (sampleWidget 8 4 1 true (some "token")) samplePending
      (FetchOutcome.json true (some "") none)).timeouts = [] ∧
    (settle (sampleWidget 8 4 1 true (some "token")) samplePending
      (FetchOutcome.json true (some "") none)).notifications
      = [("Contract signed successfully!", "success")] := by
  decide!

/-- Every continuation adds exactly one notification, of type error unless the response
has `success` true, and sends nothing. -/
theorem settle_notifies_once (w : Widget) (p : Pending) (o : FetchOutcome) :
    (∃ m, (settle w p o).notifications = w.notifications ++ [(m, "error")] ∨
      ((∃ u e, o = FetchOutcome.json true u e) ∧
        (settle w p o).notifications = w.notifications ++ [(m, "success")])) ∧
    (settle w p o).sent = w.sent ∧ (settle w p o).pending = w.pending := by
  cases o with
  | rejected =>
    exact ⟨⟨"An error occurred. Please try again.",
      Or.inl (by simp [settle, onFinally, onResult, showNotification])⟩, rfl, rfl⟩
  | jsonNull =>
    exact ⟨⟨"An error occurred. Please try again.",
      Or.inl (by simp [settle, onFinally, onResult, showNotification])⟩, rfl, rfl⟩
  | json success u e =>
    cases success with
    | false =>
      exact ⟨⟨if truthy e then e.getD "" else "Failed to submit signature",
        Or.inl (by simp [settle, onFinally, onResult, showNotification])⟩, rfl, rfl⟩
    | true =>
      refine ⟨⟨"Contract signed successfully!", Or.inr ⟨⟨u, e, rfl⟩, ?_⟩⟩, ?_, ?_⟩
      · by_cases hu : truthy u = true <;>
          simp [settle, onFinally, onResult, showNotification, hideContractModal, hu] <;>
          cases w.modalDisplay <;> rfl
      · by_cases hu : truthy u = true <;>
          simp [settle, onFinally, onResult, showNotification, hideContractModal, hu] <;>
          cases w.modalDisplay <;> rfl
      · by_cases hu : truthy u = true <;>
          simp [settle, onFinally, onResult, showNotification, hideContractModal, hu] <;>
          cases w.modalDisplay <;> rfl

/-- C16: with canvas, checked box, ink, submit button and anti-forgery field in place, one
call of `submitSignature` hands exactly one request to `fetch`: a POST to
"/api/contract/sign/" whose body carries the data URI of the canvas as it is at the call,
`agree_terms` true and the timestamp of the call, and whose `X-CSRFToken` header is the
value of the field; the request is in flight with the label of the button captured, and
no continuation sends anything more. -/
theorem C16_submitSignature_sends_one_post (s : Widget) (now : String) (cv : Canvas)
    (btn : Button) (token : String)
    (hcv : s.canvas = some cv) (hbox : s.agreeTerms = some true)
    (hink : hasSignatureData s = some true) (hbtn : s.submitBtn = some btn)
    (htok : s.csrfToken = some token) :
    (submitSignature s now).sent = s.sent ++
      [{ url := "/api/contract/sign/", method := "POST", contentType := "application/json",
         csrfHeader := token, signature := cv.toDataURL, agree_terms := true,
         timestamp := now }] ∧
    (submitSignature s now).pending = s.pending ++
      [{ request :=
          { url := "/api/contract/sign/", method := "POST",
            contentType := "application/json", csrfHeader := token,
            signature := cv.toDataURL, agree_terms := true, timestamp := now },
         originalText := btn.textContent }] ∧
    (submitSignature s now).notifications = s.notifications ∧
    (∀ (w : Widget) (p : Pending) (o : FetchOutcome), (settle w p o).sent = w.sent) := by
  refine ⟨?_, ?_, ?_, fun w p o => (settle_notifies_once w p o).2.1⟩ <;>
    simp [submitSignature, hcv, hbox, hink, hbtn, htok]

/-- C16, witness: the sample widget with a checked box and one stroke sends one request
carrying the token of the page. -/
theorem C16_witness_one_request :
    ((submitSignature (run (sampleWidget 8 4 1 true (some "token")) shortStroke)
      "2024-05-01T10:00:00.000Z").sent.map fun r => (r.url, r.method, r.csrfHeader,
        r.agree_terms, r.timestamp))
      = [("/api/contract/sign/", "POST", "token", true, "2024-05-01T10:00:00.000Z")] := by
  have h := (C16_submitSignature_sends_one_post
    (run (sampleWidget 8 4 1 true (some "token")) shortStroke) "2024-05-01T10:00:00.000Z"
    ((run (sampleWidget 8 4 1 true (some "token")) shortStroke).canvas.get (by decide!))
    ((run (sampleWidget 8 4 1 true (some "token")) shortStroke).submitBtn.get (by decide!))
    "token" (Option.some_get _).symm (by decide!) (by decide!) (Option.some_get _).symm
    (by decide!)).1
  rw [h]
  have h0 : (run (sampleWidget 8 4 1 true (some "token")) shortStroke).sent = [] := by
    decide!
  rw [h0]
  rfl

/-- C15 (amended): on a page with canvas, checkbox, submit button and anti-forgery field,
the bitmap of the canvas having pixels, a call of `submitSignature` either shows one
precondition message (an error notification) and sends nothing, or sends one request and
shows nothing itself, and then whichever way the request settles the continuation shows
exactly one notification, an error one unless the response has `success` true.  When the
canvas or the checkbox is missing the call changes nothing and shows nothing. -/
theorem C15_every_attempt_on_complete_page_notifies (s : Widget) (now : String)
    (cv : Canvas) (checked : Bool) (btn : Button) (token : String)
    (hcv : s.canvas = some cv) (hbox : s.agreeTerms = some checked)
    (hbtn : s.submitBtn = some btn) (htok : s.csrfToken = some token)
    (hw : cv.width ≠ 0) (hh : cv.height ≠ 0) :
    (((∃ m, (submitSignature s now).notifications = s.notifications ++ [(m, "error")]) ∧
        (submitSignature s now).sent = s.sent ∧
        (submitSignature s now).pending = s.pending) ∨
      ((submitSignature s now).notifications = s.notifications ∧
        ∃ p, (submitSignature s now).pending = s.pending ++ [p] ∧
          ∀ (w : Widget) (o : FetchOutcome),
            ∃ m, (settle w p o).notifications = w.notifications ++ [(m, "error")] ∨
              ((∃ u e, o = FetchOutcome.json true u e) ∧
                (settle w p o).notifications = w.notifications ++ [(m, "success")]))) ∧
    (∀ (t : Widget) (now1 : String), (t.canvas = none ∨ t.agreeTerms = none) →
      submitSignature t now1 = t) := by
  constructor
  · cases checked with
    | false =>
      left
      refine ⟨⟨"Please agree to the terms and conditions", ?_⟩, ?_, ?_⟩ <;>
        simp [submitSignature, hcv, hbox, showNotification]
    | true =>
      have hscan := hasSignatureData_of_pixels s cv hcv hw hh
      cases hink : scanAlpha cv.data with
      | true =>
        rw [hink] at hscan
        right
        refine ⟨by simp [submitSignature, hcv, hbox, hscan, hbtn, htok], _,
          by simp [submitSignature, hcv, hbox, hscan, hbtn, htok]; rfl,
          fun w o => (settle_notifies_once w _ o).1⟩
      | false =>
        rw [hink] at hscan
        left
        refine ⟨⟨"Please provide your signature", ?_⟩, ?_, ?_⟩ <;>
          simp [submitSignature, hcv, hbox, hscan, showNotification]
  · intro t now1 h
    rcases h with h | h
    · simp [submitSignature, h]
    · cases hc : t.canvas <;> simp [submitSignature, h, hc]


/-- C15, witness: the sample page has all four elements and a bitmap with pixels, and on
the same page without checkbox the call returns the state unchanged. -/
theorem C15_witness_missing_checkbox_is_silent :
    submitSignature { samplePage 8 4 1 false (some "token") with agreeTerms := none } "t1"
      = { samplePage 8 4 1 false (some "token") with agreeTerms := none } :=
  (C15_every_attempt_on_complete_page_notifies (samplePage 8 4 1 false (some "token")) "t1"
    { rect := ⟨0, 0, 8, 4⟩, width := 300, height := 150, data := blankData 300 150,
      scale := 1, path := [], lineWidth := 1, lineCap := LineCap.butt,
      strokeStyle := [0, 0, 0, 255] }
    false { disabled := false, textContent := "Sign Contract" } "token" rfl rfl rfl rfl
    (by decide) (by decide)).2
    { samplePage 8 4 1 false (some "token") with agreeTerms := none } "t1" (Or.inr rfl)

/-- C15, counterexample to the claim as stated: on a page without `#agree-terms`, after a
stroke the submit control is enabled and has its click listener; the click runs
`submitSignature`, which returns at its first guard: nothing is sent and no notification
is shown.  On a complete page without the anti-forgery field the call stops at
`getCsrfToken` with an uncaught `TypeError`: nothing sent, no notification either.  And
on a complete page whose bitmap has no pixels, the box checked, the call stops in
`hasSignatureData` with an uncaught `IndexSizeError`, as silently. -/
theorem C15_counterexample_silent_failures :
    clickable (run (initWidget { samplePage 8 4 1 false (some "token") with agreeTerms := none })
      shortStroke).submitBtn = true ∧
    listening (run (initWidget { samplePage 8 4 1 false (some "token") with agreeTerms := none })
      shortStroke) "submit-signature" "click" = true ∧
    (run (initWidget { samplePage 8 4 1 false (some "token") with agreeTerms := none })
      (shortStroke ++ [Event.submitClick "t1"])).notifications = [] ∧
    (run (initWidget { samplePage 8 4 1 false (some "token") with agreeTerms := none })
      (shortStroke ++ [Event.submitClick "t1"])).sent = [] ∧
    (run (sampleWidget 8 4 1 true none)
      (shortStroke ++ [Event.submitClick "t1"])).notifications = [] ∧
    (run (sampleWidget 8 4 1 true none)
      (shortStroke ++ [Event.submitClick "t1"])).uncaught = ["TypeError"] ∧
    (submitSignature (sampleWidget 0 0 1 true (some "token")) "t1").notifications = [] ∧
    (submitSignature (sampleWidget 0 0 1 true (some "token")) "t1").sent = [] ∧
    (submitSignature (sampleWidget 0 0 1 true (some "token")) "t1").uncaught
      = ["IndexSizeError"] := by
  decide!

/-! ## The stroke tracker -/

/-- `submitSignature` leaves the listeners and the stroking state alone. -/
theorem submitSignature_frame (s : Widget) (now : String) :
    (submitSignature s now).listeners = s.listeners ∧
    (submitSignature s now).isDrawing = s.isDrawing := by
  unfold submitSignature
  cases s.canvas with
  | none => exact ⟨rfl, rfl⟩
  | some cv =>
    cases s.agreeTerms with
    | none => exact ⟨rfl, rfl⟩
    | some checked =>
      cases checked with
      | false => exact ⟨rfl, rfl⟩
      | true =>
        cases hasSignatureData s with
        | none => exact ⟨rfl, rfl⟩
        | some ink =>
          cases ink with
          | false => exact ⟨rfl, rfl⟩
          | true =>
            cases s.submitBtn with
            | none => exact ⟨rfl, rfl⟩
            | some btn =>
              cases s.csrfToken with
              | none => exact ⟨rfl, rfl⟩
              | some token => exact ⟨rfl, rfl⟩

/-- A continuation leaves the listeners and the stroking state alone. -/
theorem settle_frame (s : Widget) (p : Pending) (o : FetchOutcome) :
    (settle s p o).listeners = s.listeners ∧ (settle s p o).isDrawing = s.isDrawing := by
  cases o with
  | rejected => exact ⟨rfl, rfl⟩
  | jsonNull => exact ⟨rfl, rfl⟩
  | json success u e =>
    cases success with
    | false => exact ⟨rfl, rfl⟩
    | true =>
      by_cases hu : truthy u = true <;>
        simp [settle, onFinally, onResult, showNotification, hideContractModal, hu] <;>
        cases s.modalDisplay <;> exact ⟨rfl, rfl⟩

/-- No event adds or removes a listener. -/
theorem step_listeners (s : Widget) (e : Event) : (step s e).listeners = s.listeners := by
  cases e with
  | mousedown x y => simp only [step, startDrawing, draw]; split <;> rfl
  | mousemove x y =>
    simp only [step, draw]
    split
    · split <;> rfl
    · rfl
  | mouseup => simp only [step, stopDrawing]; split <;> [split <;> rfl; rfl]
  | mouseout => simp only [step, stopDrawing]; split <;> [split <;> rfl; rfl]
  | touchstart x y => simp only [step, startDrawing, draw]; split <;> rfl
  | touchmove x y =>
    simp only [step, draw]
    split
    · split <;> rfl
    · rfl
  | touchend => simp only [step, stopDrawing]; split <;> [split <;> rfl; rfl]
  | clearClick => simp only [step]; split <;> rfl
  | submitClick now =>
    simp only [step]
    split
    · exact (submitSignature_frame s now).1
    · rfl
  | toggleAgree =>
    simp only [step]
    split
    · exact (updateSubmitButton_frame _).2.2.2.1
    · rfl
  | tick =>
    simp only [step]
    split
    · exact (updateSubmitButton_frame _).2.2.2.1
    · rfl
  | windowResize r d => simp only [step]; split <;> rfl
  | response k o =>
    simp only [step]
    split
    · exact (settle_frame _ _ o).1
    · rfl
  | timeout k => simp only [step]; split <;> rfl

/-- The listeners after any run are those before it. -/
theorem run_listeners (es : List Event) (s : Widget) : (run s es).listeners = s.listeners := by
  induction es generalizing s with
  | nil => rfl
  | cons e rest ih =>
    simp only [run, List.foldl_cons]
    exact (ih (step s e)).trans (step_listeners s e)

/-- With the canvas listeners registered, one event moves the tracker as the two-state
machine says: a down starts stroking, a release stops it, anything else leaves it. -/
theorem step_isDrawing (s : Widget) (e : Event) (h : padListening s = true) :
    (step s e).isDrawing =
      if e.isDown then true else if e.isRelease then false else s.isDrawing := by
  simp only [padListening, Bool.and_eq_true] at h
  obtain ⟨⟨⟨⟨⟨⟨h1, h2⟩, h3⟩, h4⟩, h5⟩, h6⟩, h7⟩ := h
  cases e with
  | mousedown x y => simp [step, h1, startDrawing, draw, updateSignatureButtons, Event.isDown]
  | mousemove x y =>
    simp only [step, h2, draw, Event.isDown, Event.isRelease, if_true]
    split <;> rfl
  | mouseup =>
    simp only [step, h3, stopDrawing, Event.isDown, Event.isRelease, if_true]
    cases hd : s.isDrawing <;> simp [hd]
  | mouseout =>
    simp only [step, h4, stopDrawing, Event.isDown, Event.isRelease, if_true]
    cases hd : s.isDrawing <;> simp [hd]
  | touchstart x y => simp [step, h5, startDrawing, draw, updateSignatureButtons, Event.isDown]
  | touchmove x y =>
    simp only [step, h6, draw, Event.isDown, Event.isRelease, if_true]
    split <;> rfl
  | touchend =>
    simp only [step, h7, stopDrawing, Event.isDown, Event.isRelease, if_true]
    cases hd : s.isDrawing <;> simp [hd]
  | clearClick => simp only [step, Event.isDown, Event.isRelease]; split <;> rfl
  | submitClick now =>
    simp only [step, Event.isDown, Event.isRelease]
    split
    · exact (submitSignature_frame s now).2
    · rfl
  | toggleAgree =>
    simp only [step, Event.isDown, Event.isRelease]
    split
    · exact (updateSubmitButton_frame _).2.1
    · rfl
  | tick =>
    simp only [step, Event.isDown, Event.isRelease]
    split
    · exact (updateSubmitButton_frame _).2.1
    · rfl
  | windowResize r d => simp only [step, Event.isDown, Event.isRelease]; split <;> rfl
  | response k o =>
    simp only [step, Event.isDown, Event.isRelease]
    split
    · exact (settle_frame _ _ o).2
    · rfl
  | timeout k => simp only [step, Event.isDown, Event.isRelease]; split <;> rfl

/-- C17: with the canvas listeners registered and the tracker idle at the start, after any
sequence of events `isDrawing` is true exactly when the most recent down, up, mouseout or
touchend event was a down; and `draw` called while idle returns the state as it got it:
bitmap, path, `hasSignature` and both controls are untouched. -/
theorem C17_tracker_two_state_machine (s : Widget) (es : List Event)
    (hl : padListening s = true) (h0 : s.isDrawing = false) :
    (run s es).isDrawing = lastStrokeEventIsDown es ∧
    (∀ (t : Widget) (x y : ℚ), t.isDrawing = false → draw t x y = t) := by
  constructor
  · induction es using List.reverseRecOn with
    | nil => simpa [run, lastStrokeEventIsDown] using h0
    | append_singleton rest e ih =>
      have hrun : run s (rest ++ [e]) = step (run s rest) e := by
        simp [run, List.foldl_append]
      have hl1 : padListening (run s rest) = true := by
        simp only [padListening, listening, run_listeners] at hl ⊢
        exact hl
      rw [hrun, step_isDrawing _ _ hl1, ih]
      unfold lastStrokeEventIsDown
      rw [List.filter_append]
      cases hd : e.isDown with
      | true => simp [List.filter, hd]
      | false =>
        cases hr : e.isRelease with
        | true => simp [List.filter, hd, hr]
        | false => simp [List.filter, hd, hr]
  · intro t x y ht
    simp [draw, ht]

/-- C17, witness: on the sample widget, after a stroke and a new touch the most recent
tracker event is a down and the tracker is stroking; after the release it is idle. -/
theorem C17_witness_stroke_then_touch :
    (run (sampleWidget 8 4 1 false (some "token"))
      (shortStroke ++ [Event.tick, Event.touchstart 3 3, Event.touchmove 4 3])).isDrawing
      = true ∧
    (run (sampleWidget 8 4 1 false (some "token"))
      (shortStroke ++ [Event.mousemove 3 3])).isDrawing = false :=
  ⟨(C17_tracker_two_state_machine (sampleWidget 8 4 1 false (some "token"))
      (shortStroke ++ [Event.tick, Event.touchstart 3 3, Event.touchmove 4 3])
      (by decide!) (by decide!)).1.trans (by decide!),
    (C17_tracker_two_state_machine (sampleWidget 8 4 1 false (some "token"))
      (shortStroke ++ [Event.mousemove 3 3]) (by decide!) (by decide!)).1.trans (by decide!)⟩

/-! ## A press on an empty path -/

/-- A stroke that hits no pixel leaves the bitmap as it is. -/
theorem Canvas.stroke_data_of_no_segment (cv : Canvas) (h : pathSegments cv.path = []) :
    cv.stroke.data = cv.data := by
  unfold Canvas.stroke
  simp only [Canvas.strokeHits, h, List.any_nil]
  apply List.ext_getElem?
  intro i
  simp only [List.getElem?_mapIdx]
  cases cv.data[i]? <;> simp

/-- On an empty path `lineTo` only places the pen. -/
theorem Canvas.lineTo_of_empty_path (cv : Canvas) (p : Point) (h : cv.path = []) :
    (cv.lineTo p).path = [[cv.toDevice p]] ∧ (cv.lineTo p).data = cv.data := by
  simp [Canvas.lineTo, h]

/-- On a canvas whose path is empty, the calls made by `draw` paint nothing: `lineTo` only
places the pen, so `stroke` has no line to draw. -/
theorem drawOnCanvas_data_of_empty_path (cv : Canvas) (x y : ℚ) (h : cv.path = []) :
    (drawOnCanvas cv x y).data = cv.data := by
  unfold drawOnCanvas
  cases drawPoint cv x y with
  | none =>
    simp only [Canvas.beginPath]
    exact Canvas.stroke_data_of_no_segment _ (by simp [h, pathSegments])
  | some p =>
    simp only [Canvas.beginPath, Canvas.moveTo]
    have hs := Canvas.lineTo_of_empty_path
      { cv with lineWidth := 2, lineCap := LineCap.round, strokeStyle := [27, 54, 93, 255] }
      p h
    refine (Canvas.stroke_data_of_no_segment _ ?_).trans hs.2
    rw [hs.1]; rfl

/-- A press followed by a release on a canvas with an empty path leaves the bitmap as it
was and the flag set. -/
theorem tap_paints_nothing (s : Widget) (cv : Canvas) (x y : ℚ)
    (hcv : s.canvas = some cv) (hp : cv.path = []) :
    (stopDrawing (startDrawing s x y)).canvas.map Canvas.data = some cv.data ∧
    (stopDrawing (startDrawing s x y)).hasSignature = true := by
  simp [stopDrawing, startDrawing, draw, updateSignatureButtons, hcv, Canvas.beginPath,
    drawOnCanvas_data_of_empty_path cv x y hp]


/-- C18, at a failing input: on the freshly initialised widget (blank bitmap, empty path)
a press at (1, 1) followed by a release, by mouse or by touch, leaves the bitmap without
any ink: `startDrawing` calls `draw`, whose `lineTo` on the empty path only places the
pen, so `stroke` paints nothing; `hasSignature` is set all the same. -/
theorem C18_tap_stamps_no_dot :
    hasSignatureData (sampleWidget 8 4 1 false (some "token")) = some false ∧
    (sampleWidget 8 4 1 false (some "token")).canvas.map Canvas.path = some [] ∧
    hasSignatureData (run (sampleWidget 8 4 1 false (some "token"))
      [Event.mousedown 1 1, Event.mouseup]) = some false ∧
    hasSignatureData (run (sampleWidget 8 4 1 false (some "token"))
      [Event.touchstart 1 1, Event.touchend]) = some false ∧
    (run (sampleWidget 8 4 1 false (some "token"))
      [Event.mousedown 1 1, Event.mouseup]).hasSignature = true := by
  decide!

/-! ## The gate and a page without canvas -/

/-- The scan on a page without canvas finds nothing. -/
theorem hasSignatureData_of_no_canvas (s : Widget) (h : s.canvas = none) :
    hasSignatureData s = some false := by
  simp [hasSignatureData, h]

/-- C20, with its failing input: when `hasSignatureData()` returns (or is not called,
there being no canvas), `updateSubmitButton` sets the `disabled` flag of the submit
control to `!(checked && hasSignatureData())`, a missing checkbox counting as unchecked,
and changes nothing else; it is what a poll tick runs once `initializeContractReview` has
set the interval up, and what a change of the checkbox runs when checkbox and submit
control exist.  But on a canvas whose bitmap has no pixels `hasSignatureData()` throws
and the flag is not assigned.  After a stroke with the box unchecked the submit control
is enabled; a window resize while the box of the canvas is 0 by 0 (the modal is not
displayed) leaves a bitmap without pixels, and the next poll tick ends in an uncaught
`IndexSizeError` with the control still enabled, the box unchecked and no ink. -/
theorem C20_updateSubmitButton_throws_on_empty_raster :
    (∀ (s : Widget) (ink : Bool),
      (if s.canvas.isSome then hasSignatureData s else some false) = some ink →
      updateSubmitButton s =
        { s with submitBtn := s.submitBtn.map fun b =>
            { b with disabled := !(s.agreeTerms.getD false && ink) } }) ∧
    (∀ s : Widget, s.canvas.isSome = true → hasSignatureData s = none →
      updateSubmitButton s = { s with uncaught := s.uncaught ++ ["IndexSizeError"] }) ∧
    (∀ s : Widget, step (initializeContractReview s) Event.tick =
      updateSubmitButton (initializeContractReview s)) ∧
    (∀ s : Widget, (s.agreeTerms.isSome && s.submitBtn.isSome) = true →
      step (initializeContractReview s) Event.toggleAgree =
        updateSubmitButton
          { initializeContractReview s with agreeTerms := s.agreeTerms.map fun c => !c }) ∧
    (run (sampleWidget 8 4 1 false (some "token"))
      (shortStroke ++ [Event.windowResize ⟨0, 0, 0, 0⟩ 1])).canvas.map
      (fun cv => (cv.width, cv.height)) = some (0, 0) ∧
    (run (sampleWidget 8 4 1 false (some "token"))
      (shortStroke ++ [Event.windowResize ⟨0, 0, 0, 0⟩ 1, Event.tick])).agreeTerms
      = some false ∧
    (run (sampleWidget 8 4 1 false (some "token"))
      (shortStroke ++ [Event.windowResize ⟨0, 0, 0, 0⟩ 1, Event.tick])).submitBtn.map
      Button.disabled = some false ∧
    (run (sampleWidget 8 4 1 false (some "token"))
      (shortStroke ++ [Event.windowResize ⟨0, 0, 0, 0⟩ 1, Event.tick])).uncaught
      = ["IndexSizeError"] ∧
    (run (sampleWidget 0 0 1 true (some "token")) [Event.tick, Event.tick]).uncaught
      = ["IndexSizeError", "IndexSizeError"] := by
  refine ⟨?_, ?_, ?_, ?_, by decide!, by decide!, by decide!, by decide!, by decide!⟩
  · intro s ink h
    unfold updateSubmitButton
    simp only [h, Bool.not_and]
  · intro s hc h
    unfold updateSubmitButton
    simp only [hc, if_true, h]
  · intro s
    simp [step, initializeContractReview]
  · intro s h
    simp [step, initializeContractReview, h, listening, addEventListener]

/-- C19 (amended): on a page without `#signature-canvas`, `initializeSignaturePad` changes
nothing and registers nothing, and `submitSignature` changes nothing: no notification, no
request.  `initializeContractReview` leaves every control as it is but registers the
one-second interval, and the change listener of the checkbox when checkbox and submit
control exist; each run of `updateSubmitButton` then sets the submit control disabled. -/
theorem C19_page_without_canvas (s : Widget) (h : s.canvas = none) :
    initializeSignaturePad s = s ∧
    (initWidget s).intervals = s.intervals ++ [1000] ∧
    (initWidget s).listeners = s.listeners ++
      (if (s.agreeTerms.isSome && s.submitBtn.isSome) = true then [("agree-terms", "change")]
       else []) ∧
    initWidget s =
      { s with intervals := (initWidget s).intervals, listeners := (initWidget s).listeners } ∧
    (∀ (t : Widget) (now : String), t.canvas = none → submitSignature t now = t) ∧
    (∀ t : Widget, t.canvas = none →
      updateSubmitButton t =
        { t with submitBtn := t.submitBtn.map fun b => { b with disabled := true } }) := by
  have h1 : initializeSignaturePad s = s := by simp [initializeSignaturePad, h]
  refine ⟨h1, ?_, ?_, ?_, ?_, ?_⟩
  · simp only [initWidget, h1, initializeContractReview]
    split <;> rfl
  · simp only [initWidget, h1, initializeContractReview]
    split <;> simp [addEventListener]
  · simp only [initWidget, h1, initializeContractReview]
    split <;> rfl
  · intro t now ht
    simp [submitSignature, ht]
  · intro t ht
    simp [updateSubmitButton, ht]

/-- C19, witness: the sample page with its canvas removed. -/
theorem C19_witness_sample_without_canvas :
    initializeSignaturePad { samplePage 8 4 1 true (some "token") with canvas := none }
      = { samplePage 8 4 1 true (some "token") with canvas := none } ∧
    (initWidget { samplePage 8 4 1 true (some "token") with canvas := none }).intervals
      = [] ++ [1000] :=
  ⟨(C19_page_without_canvas
      { samplePage 8 4 1 true (some "token") with canvas := none } rfl).1,
    (C19_page_without_canvas
      { samplePage 8 4 1 true (some "token") with canvas := none } rfl).2.1⟩

/-- C19, counterexample to the claim as stated: on the sample page without canvas,
initialisation registers the one-second interval and the change listener of the checkbox,
and the first poll tick disables the submit control, which the page had enabled. -/
theorem C19_counterexample_timer_without_canvas :
    (initWidget { samplePage 8 4 1 true (some "token") with canvas := none }).intervals
      = [1000] ∧
    (initWidget { samplePage 8 4 1 true (some "token") with canvas := none }).listeners
      = [("agree-terms", "change")] ∧
    (initWidget { samplePage 8 4 1 true (some "token") with canvas := none }).submitBtn.map
      Button.disabled = some false ∧
    (run (initWidget { samplePage 8 4 1 true (some "token") with canvas := none })
      [Event.tick]).submitBtn.map Button.disabled = some true := by
  decide!

/-! ## The booking form -/

/-- What the pick-up handler leaves in the drop-off field, for any page with both inputs
and a pick-up value: `min` is the UTC reading of pick-up plus one hour, and a drop-off
value not later than that instant is replaced by the UTC reading of pick-up plus 24
hours. -/
theorem pickupChanged_dropoff (p : BookingPage) (pk dr : DateInput) (v : Int)
    (hpk : p.pickupDate = some pk) (hdr : p.dropoffDate = some dr) (hv : pk.value = some v) :
    (pickupChanged p).dropoffDate = some
      { min := some (isoSlice16 (v - p.tzOffset + 3600000))
        value :=
          match dr.value with
          | some d =>
            if d ≤ v + 3600000 then some (isoSlice16 (v - p.tzOffset + 86400000))
            else some d
          | none => none } := by
  have hframe : ∀ q : BookingPage, (updatePricingDisplay q).dropoffDate = q.dropoffDate := by
    intro q
    unfold updatePricingDisplay
    split
    · split
      · simp only []
        split <;> rfl
      · rfl
    · rfl
  unfold pickupChanged
  simp only [hpk, hdr, hv, hframe, parseLocal]
  cases hd : dr.value with
  | none => rfl
  | some d =>
    simp only []
    by_cases hle : d ≤ v + 3600000
    · have h1 : d - p.tzOffset ≤ v - p.tzOffset + 3600000 := by omega
      have h2 : v - p.tzOffset + 3600000 + 23 * 3600000 = v - p.tzOffset + 86400000 := by
        omega
      simp only [h1, hle, if_true, h2]
    · have h1 : ¬ d - p.tzOffset ≤ v - p.tzOffset + 3600000 := by omega
      simp only [h1, hle, if_false, hd]

/-- Whole minutes survive the cut to the minute. -/
theorem isoSlice16_of_minutes (m : Int) : isoSlice16 (m * 60000) = m * 60000 := by
  unfold isoSlice16
  rw [Int.mul_ediv_cancel m (by decide)]

/-- C21, at a failing input: local time ten hours ahead of UTC (offset 36000000 ms), the
pick-up field set to 2024-05-01T10:00 (wall-clock 1714557600000 ms).  The handler adds
the hour and then formats with `toISOString`, which reads the UTC clock: `min` becomes
the string for 2024-05-01T01:00 (1714525200000), nine hours before the pick-up, where
pick-up plus one hour is 2024-05-01T11:00 (1714561200000).  With offset 0 the two
agree. -/
theorem C21_dropoff_min_in_utc :
    ((pickupChanged (sampleBooking 36000000 1714557600000 none)).dropoffDate.bind
      DateInput.min) = some 1714525200000 ∧
    (1714557600000 : Int) + 3600000 = 1714561200000 ∧
    ((pickupChanged (sampleBooking 0 1714557600000 none)).dropoffDate.bind
      DateInput.min) = some 1714561200000 := by
  decide!

/-- C22, at a failing input: same clock and pick-up as for C21, the drop-off field
holding 2024-05-01T10:30 (1714559400000), which is not later than pick-up plus one hour.
The value is replaced, but by the UTC reading of pick-up plus 24 hours,
2024-05-02T00:00 (1714608000000), not by 2024-05-02T10:00 (1714644000000).  A drop-off
later than pick-up plus one hour, and an empty one, are left as they are. -/
theorem C22_dropoff_replaced_in_utc :
    ((pickupChanged (sampleBooking 36000000 1714557600000
      (some 1714559400000))).dropoffDate.bind DateInput.value) = some 1714608000000 ∧
    (1714557600000 : Int) + 86400000 = 1714644000000 ∧
    ((pickupChanged (sampleBooking 36000000 1714557600000
      (some 1714568400000))).dropoffDate.bind DateInput.value) = some 1714568400000 ∧
    ((pickupChanged (sampleBooking 36000000 1714557600000 none)).dropoffDate.bind
      DateInput.value) = none := by
  decide!

/-- The rounding up of a positive duration to days. -/
theorem ceil_days_bounds (timeDiff : Int) (h : 0 < timeDiff) :
    1 ≤ ⌈(timeDiff : ℚ) / (1000 * 3600 * 24)⌉ ∧
    (⌈(timeDiff : ℚ) / (1000 * 3600 * 24)⌉ - 1) * 86400000 < timeDiff ∧
    timeDiff ≤ ⌈(timeDiff : ℚ) / (1000 * 3600 * 24)⌉ * 86400000 := by
  have hq : (0 : ℚ) < (timeDiff : ℚ) / (1000 * 3600 * 24) := by
    apply div_pos
    · exact_mod_cast h
    · norm_num
  have h1 : 0 < ⌈(timeDiff : ℚ) / (1000 * 3600 * 24)⌉ := Int.ceil_pos.mpr hq
  have hlt := Int.ceil_lt_add_one ((timeDiff : ℚ) / (1000 * 3600 * 24))
  have hle := Int.le_ceil ((timeDiff : ℚ) / (1000 * 3600 * 24))
  refine ⟨h1, ?_, ?_⟩
  · have : ((⌈(timeDiff : ℚ) / (1000 * 3600 * 24)⌉ : ℤ) : ℚ) - 1
        < (timeDiff : ℚ) / (1000 * 3600 * 24) := by linarith
    rw [lt_div_iff₀ (by norm_num)] at this
    have h3 : (((⌈(timeDiff : ℚ) / (1000 * 3600 * 24)⌉ - 1) * 86400000 : ℤ) : ℚ)
        < (timeDiff : ℚ) := by
      push_cast
      linarith
    exact_mod_cast h3
  · rw [div_le_iff₀ (by norm_num)] at hle
    have h3 : (timeDiff : ℚ)
        ≤ ((⌈(timeDiff : ℚ) / (1000 * 3600 * 24)⌉ * 86400000 : ℤ) : ℚ) := by
      push_cast
      linarith
    exact_mod_cast h3

/-- C23: on a page with both date inputs filled and the display present, when the
drop-off is strictly later than the pick-up `updatePricingDisplay` shows `n day` or
`n days` for `n` the duration divided by 24 hours and rounded up: `n ≥ 1`,
`(n - 1) * 86400000 < duration ≤ n * 86400000`, with the `s` exactly when `n > 1`; when
the drop-off is not later than the pick-up the page is left as it is. -/
theorem C23_pricing_display_day_count (p : BookingPage) (pk dr : DateInput)
    (pickup dropoff : Int) (old : String)
    (hpk : p.pickupDate = some pk) (hdr : p.dropoffDate = some dr)
    (hdisp : p.pricingDisplay = some old)
    (hp : pk.value = some pickup) (hd : dr.value = some dropoff) :
    (pickup < dropoff →
      ∃ n : Int, (updatePricingDisplay p).pricingDisplay =
          some (toString n ++ " day" ++ (if n > 1 then "s" else "")) ∧
        n = ⌈((dropoff - pickup : Int) : ℚ) / 86400000⌉ ∧
        1 ≤ n ∧ (n - 1) * 86400000 < dropoff - pickup ∧ dropoff - pickup ≤ n * 86400000) ∧
    (dropoff ≤ pickup → updatePricingDisplay p = p) := by
  have hdiff : parseLocal p.tzOffset dropoff - parseLocal p.tzOffset pickup
      = dropoff - pickup := by
    unfold parseLocal; omega
  have hden : ((1000 : ℚ) * 3600 * 24) = 86400000 := by norm_num
  constructor
  · intro hlt
    have hb := ceil_days_bounds (dropoff - pickup) (by omega)
    refine ⟨⌈((dropoff - pickup : Int) : ℚ) / (1000 * 3600 * 24)⌉, ?_, ?_, hb.1, hb.2.1,
      hb.2.2⟩
    · have hpos : ⌈((dropoff - pickup : Int) : ℚ) / (1000 * 3600 * 24)⌉ > 0 := by
        have := hb.1; omega
      simp only [updatePricingDisplay, hpk, hdr, hdisp, hp, hd, hdiff, hpos, if_true,
        rentalPeriodText]
    · rw [hden]
  · intro hle
    have hq : ((dropoff - pickup : Int) : ℚ) / (1000 * 3600 * 24) ≤ 0 := by
      apply div_nonpos_of_nonpos_of_nonneg
      · exact_mod_cast (by omega : dropoff - pickup ≤ 0)
      · norm_num
    have hn : ¬ ⌈((dropoff - pickup : Int) : ℚ) / (1000 * 3600 * 24)⌉ > 0 := by
      have : ⌈((dropoff - pickup : Int) : ℚ) / (1000 * 3600 * 24)⌉ ≤ 0 :=
        Int.ceil_le.mpr (by simpa using hq)
      omega
    simp only [updatePricingDisplay, hpk, hdr, hdisp, hp, hd, hdiff, hn, if_false]

/-- C23, witness: from 2024-05-01T10:00 to 2024-05-03T10:01 is two days and a minute,
shown as "3 days"; the page with the drop-off before the pick-up is left alone. -/
theorem C23_witness_three_days :
    (∃ n : Int, (updatePricingDisplay
        (sampleBooking 36000000 1714557600000 (some 1714730460000))).pricingDisplay =
          some (toString n ++ " day" ++ (if n > 1 then "s" else "")) ∧
        n = ⌈((1714730460000 - 1714557600000 : Int) : ℚ) / 86400000⌉ ∧
        1 ≤ n ∧ (n - 1) * 86400000 < 1714730460000 - 1714557600000 ∧
        1714730460000 - 1714557600000 ≤ n * 86400000) ∧
    updatePricingDisplay (sampleBooking 36000000 1714557600000 (some 1714557000000))
      = sampleBooking 36000000 1714557600000 (some 1714557000000) :=
  ⟨(C23_pricing_display_day_count (sampleBooking 36000000 1714557600000 (some 1714730460000))
      { value := some 1714557600000, min := none }
      { value := some 1714730460000, min := none } 1714557600000 1714730460000 ""
      rfl rfl rfl rfl rfl).1 (by decide),
    (C23_pricing_display_day_count (sampleBooking 36000000 1714557600000 (some 1714557000000))
      { value := some 1714557600000, min := none }
      { value := some 1714557000000, min := none } 1714557600000 1714557000000 ""
      rfl rfl rfl rfl rfl).2 (by decide)⟩

/-! ## Sorting the search results -/

/-- Inserting with two relations that agree on the elements at hand gives the same list. -/
theorem orderedInsert_congr {r1 r2 : Card → Card → Prop} [DecidableRel r1] [DecidableRel r2]
    (a : Card) (l : List Card) (h : ∀ b ∈ l, (r1 a b ↔ r2 a b)) :
    l.orderedInsert r1 a = l.orderedInsert r2 a := by
  induction l with
  | nil => rfl
  | cons b rest ih =>
    simp only [List.orderedInsert]
    by_cases h1 : r1 a b
    · have h2 : r2 a b := (h b (List.mem_cons_self b rest)).mp h1
      simp [h1, h2]
    · have h2 : ¬ r2 a b := fun hh => h1 ((h b (List.mem_cons_self b rest)).mpr hh)
      simp only [h1, h2, if_false]
      rw [ih (fun c hc => h c (List.mem_cons_of_mem b hc))]

/-- Sorting with two relations that agree on the elements of the list gives the same
list. -/
theorem insertionSort_congr {r1 r2 : Card → Card → Prop} [DecidableRel r1] [DecidableRel r2]
    (l : List Card) (h : ∀ a ∈ l, ∀ b ∈ l, (r1 a b ↔ r2 a b)) :
    l.insertionSort r1 = l.insertionSort r2 := by
  induction l with
  | nil => rfl
  | cons a rest ih =>
    simp only [List.insertionSort]
    rw [ih (fun x hx y hy => h x (List.mem_cons_of_mem a hx) y (List.mem_cons_of_mem a hy))]
    apply orderedInsert_congr
    intro b hb
    exact h a (List.mem_cons_self a rest) b
      (List.mem_cons_of_mem a ((List.mem_insertionSort r2).mp hb))

/-- Re-appending the cards of a grid in the order of a rearrangement of them leaves the
grid in that order. -/
theorem foldl_appendChild_aux (todo : List Card) :
    ∀ (front done : List Card), front.Perm todo →
      todo.foldl appendChild (front ++ done) = done ++ todo := by
  induction todo with
  | nil =>
    intro front done hp
    have : front = [] := List.Perm.eq_nil hp
    simp [this]
  | cons c rest ih =>
    intro front done hp
    have hc : c ∈ front := hp.symm.subset (List.mem_cons_self c rest)
    have hstep : appendChild (front ++ done) c = front.erase c ++ (done ++ [c]) := by
      unfold appendChild
      rw [List.erase_append_left _ hc, List.append_assoc]
    have hp1 : (front.erase c).Perm rest := by
      have := hp.erase c
      simpa using this
    rw [List.foldl_cons, hstep, ih (front.erase c) (done ++ [c]) hp1]
    simp

/-- Re-appending all cards of the grid in sorted order leaves the grid in sorted order. -/
theorem foldl_appendChild (grid sorted : List Card) (hp : sorted.Perm grid) :
    sorted.foldl appendChild grid = sorted := by
  have h := foldl_appendChild_aux sorted grid [] hp.symm
  simpa using h

/-- The sorted array is a rearrangement of the array. -/
theorem arraySort_perm (comparator : Card → Card → Option ℚ) (cards : List Card) :
    (arraySort comparator cards).Perm cards :=
  List.perm_insertionSort _ _

/-- C24: for a grid whose cards all have a numeric price (`getVehiclePrice` is not `NaN`),
`sortSearchResults('price')` leaves the grid as a rearrangement of its cards, none lost
and none twice, with `getVehiclePrice` non-decreasing along it, and
`sortSearchResults('price-desc')` as a rearrangement with `getVehiclePrice`
non-increasing. -/
theorem C24_sort_by_price (parseFloat : String → Option ℚ)
    (localeCompare : String → String → ℚ) (grid : List Card)
    (hnum : ∀ c ∈ grid, (getVehiclePrice parseFloat c).isSome = true) :
    (∃ g1, sortSearchResults parseFloat localeCompare "price" (some grid) = some g1 ∧
      g1.Perm grid ∧
      g1.Sorted (fun a b =>
        (getVehiclePrice parseFloat a).getD 0 ≤ (getVehiclePrice parseFloat b).getD 0)) ∧
    (∃ g2, sortSearchResults parseFloat localeCompare "price-desc" (some grid) = some g2 ∧
      g2.Perm grid ∧
      g2.Sorted (fun a b =>
        (getVehiclePrice parseFloat b).getD 0 ≤ (getVehiclePrice parseFloat a).getD 0)) := by
  have hsub : ∀ a ∈ grid, ∀ b ∈ grid,
      (numSub (getVehiclePrice parseFloat a) (getVehiclePrice parseFloat b)).getD 0 ≤ 0 ↔
        (getVehiclePrice parseFloat a).getD 0 ≤ (getVehiclePrice parseFloat b).getD 0 := by
    intro a ha b hb
    have h1 := hnum a ha
    have h2 := hnum b hb
    cases hpa : getVehiclePrice parseFloat a with
    | none => rw [hpa] at h1; exact absurd h1 (by simp)
    | some x =>
      cases hpb : getVehiclePrice parseFloat b with
      | none => rw [hpb] at h2; exact absurd h2 (by simp)
      | some y => simp [numSub]
  constructor
  · refine ⟨_, rfl, ?_, ?_⟩
    · rw [foldl_appendChild _ _ (arraySort_perm _ _)]
      exact arraySort_perm _ _
    · rw [foldl_appendChild _ _ (arraySort_perm _ _)]
      have hc : arraySort (sortComparator parseFloat localeCompare "price") grid =
          grid.insertionSort (fun a b =>
            (getVehiclePrice parseFloat a).getD 0 ≤ (getVehiclePrice parseFloat b).getD 0) := by
        unfold arraySort
        apply insertionSort_congr
        intro a ha b hb
        simp only [sortComparator, if_true]
        exact hsub a ha b hb
      rw [hc]
      haveI : IsTotal Card (fun a b =>
          (getVehiclePrice parseFloat a).getD 0 ≤ (getVehiclePrice parseFloat b).getD 0) :=
        ⟨fun a b => le_total _ _⟩
      haveI : IsTrans Card (fun a b =>
          (getVehiclePrice parseFloat a).getD 0 ≤ (getVehiclePrice parseFloat b).getD 0) :=
        ⟨fun a b c h1 h2 => le_trans h1 h2⟩
      exact List.sorted_insertionSort _ _
  · refine ⟨_, rfl, ?_, ?_⟩
    · rw [foldl_appendChild _ _ (arraySort_perm _ _)]
      exact arraySort_perm _ _
    · rw [foldl_appendChild _ _ (arraySort_perm _ _)]
      have hc : arraySort (sortComparator parseFloat localeCompare "price-desc") grid =
          grid.insertionSort (fun a b =>
            (getVehiclePrice parseFloat b).getD 0 ≤ (getVehiclePrice parseFloat a).getD 0) := by
        unfold arraySort
        apply insertionSort_congr
        intro a ha b hb
        have hne : ¬ ("price-desc" = "price") := by decide
        simp only [sortComparator, hne, if_false, if_true]
        exact hsub b hb a ha
      rw [hc]
      haveI : IsTotal Card (fun a b =>
          (getVehiclePrice parseFloat b).getD 0 ≤ (getVehiclePrice parseFloat a).getD 0) :=
        ⟨fun a b => le_total _ _⟩
      haveI : IsTrans Card (fun a b =>
          (getVehiclePrice parseFloat b).getD 0 ≤ (getVehiclePrice parseFloat a).getD 0) :=
        ⟨fun a b c h1 h2 => le_trans h2 h1⟩
      exact List.sorted_insertionSort _ _

/-- C24, witness: the three sample cards, priced 89, 45 and 120, come out in the order
45, 89, 120. -/
theorem C24_witness_three_cards :
    ∃ g1, sortSearchResults sampleParseFloat (fun _ _ => 0) "price" (some sampleCards)
        = some g1 ∧
      g1.Perm sampleCards ∧
      g1.Sorted (fun a b =>
        (getVehiclePrice sampleParseFloat a).getD 0 ≤
          (getVehiclePrice sampleParseFloat b).getD 0) :=
  (C24_sort_by_price sampleParseFloat (fun _ _ => 0) sampleCards (by decide!)).1

/-! ## Regular expressions -/

theorem Regex.matches_nothing (s : List Char) : ¬ Regex.Matches Regex.nothing s := by
  intro h; cases h

theorem Regex.matches_empty_iff (s : List Char) : Regex.Matches Regex.empty s ↔ s = [] := by
  constructor
  · intro h; cases h; rfl
  · intro h; subst h; exact Regex.Matches.empty

theorem Regex.matches_set_iff (p : Char → Bool) (s : List Char) :
    Regex.Matches (Regex.set p) s ↔ ∃ c, s = [c] ∧ p c = true := by
  constructor
  · intro h; cases h with
    | set _ c hc => exact ⟨c, rfl, hc⟩
  · rintro ⟨c, rfl, hc⟩; exact Regex.Matches.set p c hc

theorem Regex.matches_seq_iff (a b : Regex) (s : List Char) :
    Regex.Matches (Regex.seq a b) s ↔
      ∃ x y, s = x ++ y ∧ Regex.Matches a x ∧ Regex.Matches b y := by
  constructor
  · intro h; cases h with
    | seq _ _ x y hx hy => exact ⟨x, y, rfl, hx, hy⟩
  · rintro ⟨x, y, rfl, hx, hy⟩; exact Regex.Matches.seq a b x y hx hy

theorem Regex.matches_alt_iff (a b : Regex) (s : List Char) :
    Regex.Matches (Regex.alt a b) s ↔ Regex.Matches a s ∨ Regex.Matches b s := by
  constructor
  · intro h; cases h with
    | altLeft _ _ _ h1 => exact Or.inl h1
    | altRight _ _ _ h1 => exact Or.inr h1
  · rintro (h | h)
    · exact Regex.Matches.altLeft a b s h
    · exact Regex.Matches.altRight a b s h

/-- A non-empty match of a star starts with a non-empty match of its body. -/
theorem Regex.matches_star_cons (a : Regex) (c : Char) (s : List Char)
    (h : Regex.Matches (Regex.star a) (c :: s)) :
    ∃ x y, s = x ++ y ∧ Regex.Matches a (c :: x) ∧ Regex.Matches (Regex.star a) y := by
  generalize hr : Regex.star a = r at h
  generalize hs : c :: s = t at h
  induction h generalizing s with
  | empty => cases hr
  | set _ _ _ => cases hr
  | seq _ _ _ _ _ _ _ _ => cases hr
  | altLeft _ _ _ _ _ => cases hr
  | altRight _ _ _ _ _ => cases hr
  | starNil _ => cases hs
  | starCons a1 x y hx hy _ ih2 =>
    cases hr
    cases x with
    | nil => exact ih2 s rfl hs
    | cons d x1 =>
      simp only [List.cons_append, List.cons.injEq] at hs
      obtain ⟨hd, hrest⟩ := hs
      subst hd
      exact ⟨x1, y, hrest, hx, hy⟩

theorem Regex.nullable_iff (r : Regex) : r.nullable = true ↔ Regex.Matches r [] := by
  induction r with
  | nothing => simp [Regex.nullable, Regex.matches_nothing]
  | empty => simp [Regex.nullable, Regex.matches_empty_iff]
  | set p => simp [Regex.nullable, Regex.matches_set_iff]
  | seq a b iha ihb =>
    simp only [Regex.nullable, Bool.and_eq_true, iha, ihb, Regex.matches_seq_iff]
    constructor
    · rintro ⟨h1, h2⟩; exact ⟨[], [], rfl, h1, h2⟩
    · rintro ⟨x, y, hxy, h1, h2⟩
      have hx : x = [] := by
        cases x with
        | nil => rfl
        | cons _ _ => simp at hxy
      subst hx
      have hy : y = [] := by simpa using hxy.symm
      subst hy
      exact ⟨h1, h2⟩
  | alt a b iha ihb => simp [Regex.nullable, iha, ihb, Regex.matches_alt_iff]
  | star a _ => simp [Regex.nullable, Regex.Matches.starNil]

theorem Regex.deriv_iff (r : Regex) (c : Char) (s : List Char) :
    Regex.Matches (r.deriv c) s ↔ Regex.Matches r (c :: s) := by
  induction r generalizing s with
  | nothing => simp [Regex.deriv, Regex.matches_nothing]
  | empty => simp [Regex.deriv, Regex.matches_nothing, Regex.matches_empty_iff]
  | set p =>
    simp only [Regex.deriv]
    by_cases hp : p c = true
    · rw [if_pos hp, Regex.matches_empty_iff, Regex.matches_set_iff]
      constructor
      · intro h; subst h; exact ⟨c, rfl, hp⟩
      · rintro ⟨d, hd, _⟩
        simp only [List.cons.injEq] at hd
        exact hd.2
    · rw [if_neg hp, Regex.matches_set_iff]
      constructor
      · intro h; exact absurd h (Regex.matches_nothing s)
      · rintro ⟨d, hd, hpd⟩
        simp only [List.cons.injEq] at hd
        rw [← hd.1] at hpd
        exact absurd hpd hp
  | seq a b iha ihb =>
    have key : Regex.Matches (Regex.seq a b) (c :: s) ↔
        (∃ x y, s = x ++ y ∧ Regex.Matches a (c :: x) ∧ Regex.Matches b y) ∨
          (Regex.Matches a [] ∧ Regex.Matches b (c :: s)) := by
      rw [Regex.matches_seq_iff]
      constructor
      · rintro ⟨x, y, hxy, hx, hy⟩
        cases x with
        | nil =>
          right
          simp only [List.nil_append] at hxy
          rw [hxy]
          exact ⟨hx, hy⟩
        | cons d x1 =>
          left
          simp only [List.cons_append, List.cons.injEq] at hxy
          obtain ⟨hd, hrest⟩ := hxy
          subst hd
          exact ⟨x1, y, hrest, hx, hy⟩
      · rintro (⟨x, y, hxy, hx, hy⟩ | ⟨hx, hy⟩)
        · exact ⟨c :: x, y, by simp [hxy], hx, hy⟩
        · exact ⟨[], c :: s, rfl, hx, hy⟩
    rw [key]
    simp only [Regex.deriv]
    by_cases hn : a.nullable = true
    · rw [if_pos hn]
      simp only [Regex.matches_alt_iff, Regex.matches_seq_iff, iha, ihb]
      have hnil := (Regex.nullable_iff a).mp hn
      constructor
      · rintro (h | h)
        · exact Or.inl h
        · exact Or.inr ⟨hnil, h⟩
      · rintro (h | h)
        · exact Or.inl h
        · exact Or.inr h.2
    · rw [if_neg hn]
      simp only [Regex.matches_seq_iff, iha]
      constructor
      · intro h; exact Or.inl h
      · rintro (h | h)
        · exact h
        · exact absurd ((Regex.nullable_iff a).mpr h.1) hn
  | alt a b iha ihb => simp [Regex.deriv, Regex.matches_alt_iff, iha, ihb]
  | star a iha =>
    simp only [Regex.deriv, Regex.matches_seq_iff, iha]
    constructor
    · rintro ⟨x, y, hxy, hx, hy⟩
      rw [hxy]
      exact Regex.Matches.starCons a (c :: x) y hx hy
    · intro h
      exact Regex.matches_star_cons a c s h

/-- The test by derivatives decides the match. -/
theorem Regex.test_iff (r : Regex) (s : List Char) : r.test s = true ↔ Regex.Matches r s := by
  induction s generalizing r with
  | nil => exact Regex.nullable_iff r
  | cons c rest ih =>
    have h := ih (r.deriv c)
    simp only [Regex.test, List.foldl_cons] at h ⊢
    rw [h, Regex.deriv_iff]

theorem Regex.matches_star_set_iff (p : Char → Bool) (s : List Char) :
    Regex.Matches (Regex.star (Regex.set p)) s ↔ ∀ c ∈ s, p c = true := by
  induction s with
  | nil => simp [Regex.Matches.starNil]
  | cons c rest ih =>
    constructor
    · intro h
      obtain ⟨x, y, hxy, hx, hy⟩ := Regex.matches_star_cons _ c rest h
      obtain ⟨d, hd, hpd⟩ := (Regex.matches_set_iff p _).mp hx
      simp only [List.cons.injEq] at hd
      obtain ⟨hcd, hxnil⟩ := hd
      subst hxnil
      subst hcd
      simp only [List.nil_append] at hxy
      subst hxy
      intro e he
      rcases List.mem_cons.mp he with h1 | h1
      · rw [h1]; exact hpd
      · exact ih.mp hy e h1
    · intro h
      have h1 : Regex.Matches (Regex.set p) [c] :=
        Regex.Matches.set p c (h c (List.mem_cons_self c rest))
      have h2 : Regex.Matches (Regex.star (Regex.set p)) rest :=
        ih.mpr fun e he => h e (List.mem_cons_of_mem c he)
      exact Regex.Matches.starCons (Regex.set p) [c] rest h1 h2

theorem Regex.matches_plus_set_iff (p : Char → Bool) (s : List Char) :
    Regex.Matches (Regex.plus (Regex.set p)) s ↔ s ≠ [] ∧ ∀ c ∈ s, p c = true := by
  simp only [Regex.plus, Regex.matches_seq_iff, Regex.matches_set_iff, Regex.matches_star_set_iff]
  constructor
  · rintro ⟨x, y, hxy, ⟨c, hx, hc⟩, hy⟩
    subst hx
    subst hxy
    refine ⟨by simp, ?_⟩
    intro e he
    rcases List.mem_cons.mp he with h1 | h1
    · rw [h1]; exact hc
    · exact hy e h1
  · rintro ⟨hne, hall⟩
    cases s with
    | nil => exact absurd rfl hne
    | cons c rest =>
      exact ⟨[c], rest, rfl, ⟨c, rfl, hall c (List.mem_cons_self c rest)⟩,
        fun e he => hall e (List.mem_cons_of_mem c he)⟩

theorem Regex.matches_chr_iff (c : Char) (s : List Char) :
    Regex.Matches (Regex.chr c) s ↔ s = [c] := by
  simp only [Regex.chr, Regex.matches_set_iff]
  constructor
  · rintro ⟨d, hd, hdc⟩
    rw [hd, beq_iff_eq.mp hdc]
  · intro h
    exact ⟨c, h, beq_self_eq_true c⟩

theorem notSpaceNorAt_iff (c : Char) :
    notSpaceNorAt c = true ↔ isJsSpace c = false ∧ c ≠ '@' := by
  simp [notSpaceNorAt]

/-- The strings the e-mail pattern matches: three non-empty runs free of white space and
`@`, joined by one `@` and one `.`. -/
theorem emailRegex_matches_iff (v : List Char) :
    Regex.Matches emailRegex v ↔
      ∃ a b c, v = a ++ '@' :: (b ++ '.' :: c) ∧
        (a ≠ [] ∧ ∀ e ∈ a, notSpaceNorAt e = true) ∧
        (b ≠ [] ∧ ∀ e ∈ b, notSpaceNorAt e = true) ∧
        (c ≠ [] ∧ ∀ e ∈ c, notSpaceNorAt e = true) := by
  simp only [emailRegex, Regex.matches_seq_iff, Regex.matches_plus_set_iff,
    Regex.matches_chr_iff]
  constructor
  · rintro ⟨a, r1, h1, ha, at1, r2, h2, hat, b, r3, h3, hb, dot, c, h4, hdot, hc⟩
    subst hat hdot
    subst h4
    subst h3
    subst h2
    subst h1
    exact ⟨a, b, c, by simp, ha, hb, hc⟩
  · rintro ⟨a, b, c, hv, ha, hb, hc⟩
    exact ⟨a, '@' :: (b ++ '.' :: c), hv, ha, ['@'], b ++ '.' :: c, rfl, rfl, b, '.' :: c,
      rfl, hb, ['.'], c, rfl, rfl, hc⟩

/-- The e-mail pattern accepts exactly the values of the shape the claim describes. -/
theorem emailRegex_test_iff_shape (v : List Char) :
    emailRegex.test v = true ↔ EmailShape v := by
  rw [Regex.test_iff, emailRegex_matches_iff]
  constructor
  · rintro ⟨a, b, c, hv, ⟨hane, ha⟩, ⟨hbne, hb⟩, ⟨hcne, hc⟩⟩
    have hdot : notSpaceNorAt '.' = true := by decide
    refine ⟨?_, a, b ++ '.' :: c, hv, ?_, ?_, hane, b, c, rfl, hbne, hcne⟩
    · intro e he
      rw [hv] at he
      simp only [List.mem_append, List.mem_cons] at he
      rcases he with h | h | h | h | h
      · exact ((notSpaceNorAt_iff e).mp (ha e h)).1
      · rw [h]; decide
      · exact ((notSpaceNorAt_iff e).mp (hb e h)).1
      · rw [h]; decide
      · exact ((notSpaceNorAt_iff e).mp (hc e h)).1
    · intro h
      exact ((notSpaceNorAt_iff _).mp (ha _ h)).2 rfl
    · intro h
      simp only [List.mem_append, List.mem_cons] at h
      rcases h with h | h | h
      · exact ((notSpaceNorAt_iff _).mp (hb _ h)).2 rfl
      · exact absurd h (by decide)
      · exact ((notSpaceNorAt_iff _).mp (hc _ h)).2 rfl
  · rintro ⟨hsp, a, d, hv, hat1, hat2, hane, b, c, hd, hbne, hcne⟩
    subst hd
    have hmem : ∀ e, e ∈ a ∨ e ∈ b ∨ e ∈ c → e ∈ v := by
      intro e he
      rw [hv]
      simp only [List.mem_append, List.mem_cons]
      tauto
    have hat2b : '@' ∉ b := fun h => hat2 (by simp [h])
    have hat2c : '@' ∉ c := fun h => hat2 (by simp [h])
    refine ⟨a, b, c, hv, ⟨hane, ?_⟩, ⟨hbne, ?_⟩, ⟨hcne, ?_⟩⟩
    · intro e he
      exact (notSpaceNorAt_iff e).mpr ⟨hsp e (hmem e (Or.inl he)), fun h => hat1 (h ▸ he)⟩
    · intro e he
      exact (notSpaceNorAt_iff e).mpr
        ⟨hsp e (hmem e (Or.inr (Or.inl he))), fun h => hat2b (h ▸ he)⟩
    · intro e he
      exact (notSpaceNorAt_iff e).mpr
        ⟨hsp e (hmem e (Or.inr (Or.inr he))), fun h => hat2c (h ▸ he)⟩

/-! ## Form validation: the tree of the form -/

theorem Dom.fields_removeFirstError (d : Dom) : d.removeFirstError.fields = d.fields := by
  induction d with
  | nil => rfl
  | input f next ih => simp [Dom.removeFirstError, Dom.fields, ih]
  | error t next _ => simp [Dom.removeFirstError, Dom.fields]
  | other c next ihc ihn =>
    simp only [Dom.removeFirstError]
    split <;> simp [Dom.fields, ihc, ihn]

theorem Dom.fields_setFirstError (m : String) (d : Dom) :
    (d.setFirstError m).fields = d.fields := by
  induction d with
  | nil => rfl
  | input f next ih => simp [Dom.setFirstError, Dom.fields, ih]
  | error t next _ => simp [Dom.setFirstError, Dom.fields]
  | other c next ihc ihn =>
    simp only [Dom.setFirstError]
    split <;> simp [Dom.fields, ihc, ihn]

theorem Dom.fields_appendError (m : String) (d : Dom) :
    (d.appendError m).fields = d.fields := by
  induction d with
  | nil => rfl
  | input f next ih => simp [Dom.appendError, Dom.fields, ih]
  | error t next ih => simp [Dom.appendError, Dom.fields, ih]
  | other c next _ ihn => simp [Dom.appendError, Dom.fields, ihn]

theorem fields_showMessage (m : String) (d : Dom) : (showMessage m d).fields = d.fields := by
  unfold showMessage
  split
  · exact Dom.fields_setFirstError m d
  · exact Dom.fields_appendError m d

theorem Dom.fields_setErrorClass (id : Nat) (b : Bool) (d : Dom) :
    (d.setErrorClass id b).fields =
      d.fields.map fun f => if f.fieldId = id then { f with hasErrorClass := b } else f := by
  induction d with
  | nil => rfl
  | input f next ih => simp [Dom.setErrorClass, Dom.fields, ih]
  | error t next ih => simp [Dom.setErrorClass, Dom.fields, ih]
  | other c next ihc ihn => simp [Dom.setErrorClass, Dom.fields, ihc, ihn]

theorem Dom.fields_atParentIn (id : Nat) (g : Dom → Dom) (hg : ∀ c, (g c).fields = c.fields)
    (d : Dom) : (d.atParentIn id g).fields = d.fields := by
  induction d with
  | nil => rfl
  | input f next ih => simp [Dom.atParentIn, Dom.fields, ih]
  | error t next ih => simp [Dom.atParentIn, Dom.fields, ih]
  | other c next ihc ihn =>
    simp only [Dom.atParentIn, Dom.fields, ihn]
    split
    · rw [hg]
    · rw [ihc]

theorem Dom.fields_atParent (id : Nat) (g : Dom → Dom) (hg : ∀ c, (g c).fields = c.fields)
    (d : Dom) : (d.atParent id g).fields = d.fields := by
  unfold Dom.atParent
  split
  · exact hg d
  · exact Dom.fields_atParentIn id g hg d

theorem validateField_fst (env : ValidationEnv) (dom : Dom) (field : Field) :
    (validateField env dom field).1 = (fieldVerdict env field).1 := by
  unfold validateField
  simp only []
  split
  · next h => rw [h]
  · next h => simp only [Bool.not_eq_true] at h; rw [h]

theorem validateField_fields (env : ValidationEnv) (dom : Dom) (field : Field) :
    (validateField env dom field).2.fields = dom.fields.map (markField env field) := by
  have hclear : (clearFieldError dom field).fields =
      dom.fields.map fun f =>
        if f.fieldId = field.fieldId then { f with hasErrorClass := false } else f := by
    unfold clearFieldError
    rw [Dom.fields_atParent _ _ Dom.fields_removeFirstError, Dom.fields_setErrorClass]
  unfold validateField
  simp only []
  split
  · next h =>
    rw [hclear]
    apply List.map_congr_left
    intro g _
    by_cases hg : g.fieldId = field.fieldId
    · simp [markField, hg, h]
    · simp [markField, hg]
  · next h =>
    simp only [Bool.not_eq_true] at h
    simp only []
    unfold showFieldError
    rw [Dom.fields_atParent _ _ (fields_showMessage _), Dom.fields_setErrorClass, hclear,
      List.map_map]
    apply List.map_congr_left
    intro g _
    simp only [Function.comp]
    by_cases hg : g.fieldId = field.fieldId
    · simp [markField, hg, h]
    · simp [markField, hg]

/-- The loop of `validateForm` from any starting point: the flag is the conjunction of
the verdicts, the form is the one left by running `validateField` on every field. -/
theorem validateForm_loop (env : ValidationEnv) (l : List Field) (b : Bool) (d : Dom) :
    l.foldl
      (fun acc input =>
        if (validateField env acc.2 input).1 then (acc.1, (validateField env acc.2 input).2)
        else (false, (validateField env acc.2 input).2))
      (b, d) =
    (b && l.all (fun f => (fieldVerdict env f).1),
      l.foldl (fun dom f => (validateField env dom f).2) d) := by
  induction l generalizing b d with
  | nil => simp
  | cons f rest ih =>
    have hstep : (if (validateField env d f).1 = true then (b, (validateField env d f).2)
        else (false, (validateField env d f).2)) =
        (b && (fieldVerdict env f).1, (validateField env d f).2) := by
      rw [validateField_fst]
      cases (fieldVerdict env f).1 <;> simp
    simp only [List.foldl_cons, List.all_cons]
    rw [hstep, ih, Bool.and_assoc]

theorem loop_fields (env : ValidationEnv) (l : List Field) (d : Dom) :
    (l.foldl (fun dom f => (validateField env dom f).2) d).fields =
      d.fields.map fun g => l.foldl (fun g f => markField env f g) g := by
  induction l generalizing d with
  | nil => simp
  | cons f rest ih =>
    simp only [List.foldl_cons]
    rw [ih, validateField_fields, List.map_map]
    rfl

theorem markField_id (env : ValidationEnv) (f g : Field) :
    (markField env f g).fieldId = g.fieldId := by
  unfold markField
  split <;> rfl

theorem fieldVerdict_class (env : ValidationEnv) (g : Field) (b : Bool) :
    fieldVerdict env { g with hasErrorClass := b } = fieldVerdict env g := rfl

/-- Marking with the fields of a list in which each identity names one field. -/
theorem markAll (env : ValidationEnv) (l : List Field) (g g1 : Field)
    (huniq : ∀ f ∈ l, f.fieldId = g.fieldId → f = g)
    (hg1 : g1 = g ∨ g1 = { g with hasErrorClass := !(fieldVerdict env g).1 }) :
    l.foldl (fun g f => markField env f g) g1 = g1 ∨
      l.foldl (fun g f => markField env f g) g1 =
        { g with hasErrorClass := !(fieldVerdict env g).1 } := by
  induction l generalizing g1 with
  | nil => left; rfl
  | cons f rest ih =>
    simp only [List.foldl_cons]
    have hid : g1.fieldId = g.fieldId := by
      rcases hg1 with h | h <;> rw [h]
    by_cases hf : f.fieldId = g.fieldId
    · have hfg : f = g := huniq f (List.mem_cons_self _ _) hf
      have hmark : markField env f g1 = { g with hasErrorClass := !(fieldVerdict env g).1 } := by
        unfold markField
        rw [if_pos (hid.trans hf.symm), hfg]
        rcases hg1 with h | h <;> rw [h]
      rw [hmark]
      rcases ih _ (fun x hx => huniq x (List.mem_cons_of_mem _ hx)) (Or.inr rfl) with h | h
      · right; exact h
      · right; exact h
    · have hmark : markField env f g1 = g1 := by
        unfold markField
        rw [if_neg (fun h => hf (h.symm.trans hid))]
      rw [hmark]
      exact ih _ (fun x hx => huniq x (List.mem_cons_of_mem _ hx)) hg1

theorem markAll_mem (env : ValidationEnv) (l : List Field) (g g1 : Field) (hmem : g ∈ l)
    (huniq : ∀ f ∈ l, f.fieldId = g.fieldId → f = g)
    (hg1 : g1 = g ∨ g1 = { g with hasErrorClass := !(fieldVerdict env g).1 }) :
    l.foldl (fun g f => markField env f g) g1 =
      { g with hasErrorClass := !(fieldVerdict env g).1 } := by
  induction l generalizing g1 with
  | nil => simp at hmem
  | cons f rest ih =>
    simp only [List.foldl_cons]
    have hid : g1.fieldId = g.fieldId := by
      rcases hg1 with h | h <;> rw [h]
    by_cases hf : f.fieldId = g.fieldId
    · have hfg : f = g := huniq f (List.mem_cons_self _ _) hf
      have hmark : markField env f g1 = { g with hasErrorClass := !(fieldVerdict env g).1 } := by
        unfold markField
        rw [if_pos (hid.trans hf.symm), hfg]
        rcases hg1 with h | h <;> rw [h]
      rw [hmark]
      rcases markAll env rest g _ (fun x hx => huniq x (List.mem_cons_of_mem _ hx))
        (Or.inr rfl) with h | h
      · exact h
      · exact h
    · have hne : f ≠ g := fun h => hf (h ▸ rfl)
      have hrest : g ∈ rest := by
        rcases List.mem_cons.mp hmem with h | h
        · exact absurd h.symm hne
        · exact h
      have hmark : markField env f g1 = g1 := by
        unfold markField
        rw [if_neg (fun h => hf (h.symm.trans hid))]
      rw [hmark]
      exact ih _ hrest (fun x hx => huniq x (List.mem_cons_of_mem _ hx)) hg1

/-! ## Form validation: where the message goes -/

theorem Dom.isChild_setErrorClass (id id1 : Nat) (b : Bool) (d : Dom) :
    (d.setErrorClass id1 b).isChild id = d.isChild id := by
  induction d with
  | nil => rfl
  | input f next ih =>
    simp only [Dom.setErrorClass, Dom.isChild, ih]
    split <;> rfl
  | error t next ih => simp [Dom.setErrorClass, Dom.isChild, ih]
  | other c next _ ihn => simp [Dom.setErrorClass, Dom.isChild, ihn]

theorem Dom.isChild_removeFirstError (id : Nat) (d : Dom) :
    d.removeFirstError.isChild id = d.isChild id := by
  induction d with
  | nil => rfl
  | input f next ih => simp [Dom.removeFirstError, Dom.isChild, ih]
  | error t next _ => simp [Dom.removeFirstError, Dom.isChild]
  | other c next _ ihn =>
    simp only [Dom.removeFirstError]
    split <;> simp [Dom.isChild, ihn]

theorem Dom.isChild_setFirstError (id : Nat) (m : String) (d : Dom) :
    (d.setFirstError m).isChild id = d.isChild id := by
  induction d with
  | nil => rfl
  | input f next ih => simp [Dom.setFirstError, Dom.isChild, ih]
  | error t next _ => simp [Dom.setFirstError, Dom.isChild]
  | other c next _ ihn =>
    simp only [Dom.setFirstError]
    split <;> simp [Dom.isChild, ihn]

theorem Dom.isChild_appendError (id : Nat) (m : String) (d : Dom) :
    (d.appendError m).isChild id = d.isChild id := by
  induction d with
  | nil => rfl
  | input f next ih => simp [Dom.appendError, Dom.isChild, ih]
  | error t next ih => simp [Dom.appendError, Dom.isChild, ih]
  | other c next _ ihn => simp [Dom.appendError, Dom.isChild, ihn]

theorem isChild_showMessage (id : Nat) (m : String) (d : Dom) :
    (showMessage m d).isChild id = d.isChild id := by
  unfold showMessage
  split
  · exact Dom.isChild_setFirstError id m d
  · exact Dom.isChild_appendError id m d

theorem Dom.isChild_atParentIn (id id1 : Nat) (g : Dom → Dom) (d : Dom) :
    (d.atParentIn id1 g).isChild id = d.isChild id := by
  induction d with
  | nil => rfl
  | input f next ih => simp [Dom.atParentIn, Dom.isChild, ih]
  | error t next ih => simp [Dom.atParentIn, Dom.isChild, ih]
  | other c next _ ihn => simp [Dom.atParentIn, Dom.isChild, ihn]

theorem Dom.parentIn_atParentIn (id : Nat) (g : Dom → Dom)
    (hg : ∀ c, (g c).isChild id = c.isChild id) (d : Dom) :
    (d.atParentIn id g).parentIn id = (d.parentIn id).map g := by
  induction d with
  | nil => rfl
  | input f next ih => simp [Dom.atParentIn, Dom.parentIn, ih]
  | error t next ih => simp [Dom.atParentIn, Dom.parentIn, ih]
  | other c next ihc ihn =>
    simp only [Dom.atParentIn, Dom.parentIn]
    by_cases hc : c.isChild id = true
    · simp [hc, hg]
    · simp only [hc, if_false, Dom.isChild_atParentIn, Bool.false_eq_true, ihc, ihn]
      cases c.parentIn id <;> simp

theorem Dom.parentOf_atParent (id : Nat) (g : Dom → Dom)
    (hg : ∀ c, (g c).isChild id = c.isChild id) (d : Dom) :
    (d.atParent id g).parentOf id = (d.parentOf id).map g := by
  unfold Dom.atParent Dom.parentOf
  by_cases hd : d.isChild id = true
  · simp [hd, hg]
  · simp [hd, Dom.isChild_atParentIn, Dom.parentIn_atParentIn id g hg]

theorem Dom.parentIn_setErrorClass (id id1 : Nat) (b : Bool) (d : Dom) :
    (d.setErrorClass id1 b).parentIn id = (d.parentIn id).map (Dom.setErrorClass id1 b) := by
  induction d with
  | nil => rfl
  | input f next ih => simp [Dom.setErrorClass, Dom.parentIn, ih]
  | error t next ih => simp [Dom.setErrorClass, Dom.parentIn, ih]
  | other c next ihc ihn =>
    simp only [Dom.setErrorClass, Dom.parentIn, Dom.isChild_setErrorClass, ihc, ihn]
    by_cases hc : c.isChild id = true
    · simp [hc]
    · simp only [hc, if_false, Bool.false_eq_true]
      cases c.parentIn id <;> simp

theorem Dom.parentOf_setErrorClass (id id1 : Nat) (b : Bool) (d : Dom) :
    (d.setErrorClass id1 b).parentOf id = (d.parentOf id).map (Dom.setErrorClass id1 b) := by
  unfold Dom.parentOf
  rw [Dom.isChild_setErrorClass, Dom.parentIn_setErrorClass]
  split <;> simp

theorem Dom.firstError_setErrorClass (id : Nat) (b : Bool) (d : Dom) :
    (d.setErrorClass id b).firstError = d.firstError := by
  induction d with
  | nil => rfl
  | input f next ih => simp [Dom.setErrorClass, Dom.firstError, ih]
  | error t next _ => simp [Dom.setErrorClass, Dom.firstError]
  | other c next ihc ihn => simp [Dom.setErrorClass, Dom.firstError, ihc, ihn]

theorem Dom.firstError_setFirstError (m : String) (d : Dom) (h : d.firstError.isSome = true) :
    (d.setFirstError m).firstError = some m := by
  induction d with
  | nil => simp [Dom.firstError] at h
  | input f next ih =>
    simp only [Dom.firstError] at h
    simp [Dom.setFirstError, Dom.firstError, ih h]
  | error t next _ => simp [Dom.setFirstError, Dom.firstError]
  | other c next ihc ihn =>
    simp only [Dom.setFirstError]
    by_cases hc : c.firstError.isSome = true
    · simp [hc, Dom.firstError, ihc hc]
    · have hnone : c.firstError = none := by simpa using hc
      simp only [Dom.firstError, hnone] at h
      simp [hc, Dom.firstError, hnone, ihn h]

theorem Dom.firstError_appendError (m : String) (d : Dom) (h : d.firstError = none) :
    (d.appendError m).firstError = some m := by
  induction d with
  | nil => rfl
  | input f next ih =>
    simp only [Dom.firstError] at h
    simp [Dom.appendError, Dom.firstError, ih h]
  | error t next _ => simp [Dom.firstError] at h
  | other c next _ ihn =>
    simp only [Dom.firstError] at h
    cases hc : c.firstError with
    | some t => rw [hc] at h; simp at h
    | none =>
      rw [hc] at h
      simp [Dom.appendError, Dom.firstError, hc, ihn h]

theorem firstError_showMessage (m : String) (d : Dom) :
    (showMessage m d).firstError = some m := by
  unfold showMessage
  by_cases h : d.firstError.isSome = true
  · rw [if_pos h]; exact Dom.firstError_setFirstError m d h
  · rw [if_neg h]; exact Dom.firstError_appendError m d (by simpa using h)

/-- After `showFieldError` the element found from the parent of the field reads the
message. -/
theorem showFieldError_shown (dom : Dom) (field : Field) (m : String)
    (h : (dom.parentOf field.fieldId).isSome = true) :
    (showFieldError dom field m).shownFor field.fieldId = some m := by
  unfold showFieldError Dom.shownFor
  rw [Dom.parentOf_atParent _ _ (fun c => isChild_showMessage _ m c),
    Dom.parentOf_setErrorClass]
  cases hp : dom.parentOf field.fieldId with
  | none => rw [hp] at h; simp at h
  | some p => simp [firstError_showMessage]

theorem clearFieldError_parentOf_isSome (dom : Dom) (field : Field) :
    ((clearFieldError dom field).parentOf field.fieldId).isSome =
      (dom.parentOf field.fieldId).isSome := by
  unfold clearFieldError
  rw [Dom.parentOf_atParent _ _ (fun c => Dom.isChild_removeFirstError _ c),
    Dom.parentOf_setErrorClass]
  cases dom.parentOf field.fieldId <;> rfl

/-- A field that fails, and sits in the form, ends with its message in the element found
from its parent. -/
theorem validateField_shows (env : ValidationEnv) (dom : Dom) (field : Field)
    (hbad : (fieldVerdict env field).1 = false)
    (h : (dom.parentOf field.fieldId).isSome = true) :
    (validateField env dom field).2.shownFor field.fieldId = some (fieldVerdict env field).2 := by
  unfold validateField
  simp only [hbad]
  exact showFieldError_shown _ field _ ((clearFieldError_parentOf_isSome dom field).trans h)

theorem Dom.isChild_mem (id : Nat) (d : Dom) (h : d.isChild id = true) : id ∈ d.ids := by
  induction d with
  | nil => simp [Dom.isChild] at h
  | input f next ih =>
    simp only [Dom.isChild, Bool.or_eq_true, beq_iff_eq] at h
    simp only [Dom.ids, Dom.fields, List.map_cons, List.mem_cons]
    rcases h with h | h
    · exact Or.inl h.symm
    · exact Or.inr (ih h)
  | error t next ih => exact ih h
  | other c next _ ihn =>
    simp only [Dom.isChild] at h
    simp only [Dom.ids, Dom.fields, List.map_append, List.mem_append]
    exact Or.inr (ihn h)

/-- A control is below the node exactly when it is a child or has its parent below. -/
theorem Dom.mem_ids_iff (id : Nat) (d : Dom) :
    id ∈ d.ids ↔ d.isChild id = true ∨ (d.parentIn id).isSome = true := by
  induction d with
  | nil => simp [Dom.ids, Dom.fields, Dom.isChild, Dom.parentIn]
  | input f next ih =>
    simp only [Dom.ids, Dom.fields, List.map_cons, List.mem_cons, Dom.isChild, Dom.parentIn,
      Bool.or_eq_true, beq_iff_eq]
    simp only [Dom.ids] at ih
    rw [ih]
    constructor
    · rintro (h | h | h)
      · exact Or.inl (Or.inl h.symm)
      · exact Or.inl (Or.inr h)
      · exact Or.inr h
    · rintro ((h | h) | h)
      · exact Or.inl h.symm
      · exact Or.inr (Or.inl h)
      · exact Or.inr (Or.inr h)
  | error t next ih => exact ih
  | other c next ihc ihn =>
    simp only [Dom.ids, Dom.fields, List.map_append, List.mem_append, Dom.isChild,
      Dom.parentIn]
    simp only [Dom.ids] at ihc ihn
    rw [ihc, ihn]
    by_cases hc : c.isChild id = true
    · simp [hc]
    · simp only [hc, if_false, Bool.false_eq_true, false_or]
      cases hp : c.parentIn id with
      | none => simp
      | some p => simp

theorem Dom.parentOf_isSome_iff (id : Nat) (d : Dom) :
    (d.parentOf id).isSome = true ↔ id ∈ d.ids := by
  rw [Dom.mem_ids_iff]
  unfold Dom.parentOf
  by_cases hd : d.isChild id = true
  · simp [hd]
  · simp [hd]

/-! ## Form validation: what validating another field leaves alone -/

theorem Dom.skeleton_removeFirstError (d : Dom) : d.removeFirstError.skeleton = d.skeleton := by
  induction d with
  | nil => rfl
  | input f next ih => simp [Dom.removeFirstError, Dom.skeleton, ih]
  | error t next _ => simp [Dom.removeFirstError, Dom.skeleton]
  | other c next ihc ihn =>
    simp only [Dom.removeFirstError]
    split <;> simp [Dom.skeleton, ihc, ihn]

theorem Dom.skeleton_setFirstError (m : String) (d : Dom) :
    (d.setFirstError m).skeleton = d.skeleton := by
  induction d with
  | nil => rfl
  | input f next ih => simp [Dom.setFirstError, Dom.skeleton, ih]
  | error t next _ => simp [Dom.setFirstError, Dom.skeleton]
  | other c next ihc ihn =>
    simp only [Dom.setFirstError]
    split <;> simp [Dom.skeleton, ihc, ihn]

theorem Dom.skeleton_appendError (m : String) (d : Dom) :
    (d.appendError m).skeleton = d.skeleton := by
  induction d with
  | nil => rfl
  | input f next ih => simp [Dom.appendError, Dom.skeleton, ih]
  | error t next ih => simp [Dom.appendError, Dom.skeleton, ih]
  | other c next _ ihn => simp [Dom.appendError, Dom.skeleton, ihn]

theorem skeleton_showMessage (m : String) (d : Dom) :
    (showMessage m d).skeleton = d.skeleton := by
  unfold showMessage
  split
  · exact Dom.skeleton_setFirstError m d
  · exact Dom.skeleton_appendError m d

theorem Dom.skeleton_setErrorClass (id : Nat) (b : Bool) (d : Dom) :
    (d.setErrorClass id b).skeleton = d.skeleton := by
  induction d with
  | nil => rfl
  | input f next ih =>
    simp only [Dom.setErrorClass, Dom.skeleton, ih]
    split <;> rfl
  | error t next ih => simp [Dom.setErrorClass, Dom.skeleton, ih]
  | other c next ihc ihn => simp [Dom.setErrorClass, Dom.skeleton, ihc, ihn]

theorem Dom.skeleton_atParentIn (id : Nat) (g : Dom → Dom)
    (hg : ∀ c, (g c).skeleton = c.skeleton) (d : Dom) :
    (d.atParentIn id g).skeleton = d.skeleton := by
  induction d with
  | nil => rfl
  | input f next ih => simp [Dom.atParentIn, Dom.skeleton, ih]
  | error t next ih => simp [Dom.atParentIn, Dom.skeleton, ih]
  | other c next ihc ihn =>
    simp only [Dom.atParentIn, Dom.skeleton, ihn]
    split
    · rw [hg]
    · rw [ihc]

theorem Dom.skeleton_atParent (id : Nat) (g : Dom → Dom)
    (hg : ∀ c, (g c).skeleton = c.skeleton) (d : Dom) :
    (d.atParent id g).skeleton = d.skeleton := by
  unfold Dom.atParent
  split
  · exact hg d
  · exact Dom.skeleton_atParentIn id g hg d

/-- Validation changes classes and error elements only. -/
theorem skeleton_validateField (env : ValidationEnv) (dom : Dom) (field : Field) :
    (validateField env dom field).2.skeleton = dom.skeleton := by
  have hclear : (clearFieldError dom field).skeleton = dom.skeleton := by
    unfold clearFieldError
    rw [Dom.skeleton_atParent _ _ Dom.skeleton_removeFirstError, Dom.skeleton_setErrorClass]
  unfold validateField
  simp only []
  split
  · exact hclear
  · simp only []
    unfold showFieldError
    rw [Dom.skeleton_atParent _ _ (skeleton_showMessage _), Dom.skeleton_setErrorClass, hclear]

theorem skeleton_loop (env : ValidationEnv) (l : List Field) (d : Dom) :
    (l.foldl (fun dom f => (validateField env dom f).2) d).skeleton = d.skeleton := by
  induction l generalizing d with
  | nil => rfl
  | cons f rest ih =>
    simp only [List.foldl_cons]
    rw [ih, skeleton_validateField]

theorem Dom.ids_skeleton (d : Dom) : d.skeleton.ids = d.ids := by
  induction d with
  | nil => rfl
  | input f next ih =>
    simp only [Dom.ids, Dom.fields, Dom.skeleton, List.map_cons] at ih ⊢
    rw [ih]
  | error t next ih => exact ih
  | other c next ihc ihn =>
    simp only [Dom.ids, Dom.fields, Dom.skeleton, List.map_append] at ihc ihn ⊢
    rw [ihc, ihn]

theorem Dom.isChild_skeleton (id : Nat) (d : Dom) : d.skeleton.isChild id = d.isChild id := by
  induction d with
  | nil => rfl
  | input f next ih => simp [Dom.skeleton, Dom.isChild, ih]
  | error t next ih => simp [Dom.skeleton, Dom.isChild, ih]
  | other c next _ ihn => simp [Dom.skeleton, Dom.isChild, ihn]

theorem Dom.parentIn_skeleton (id : Nat) (d : Dom) :
    d.skeleton.parentIn id = (d.parentIn id).map Dom.skeleton := by
  induction d with
  | nil => rfl
  | input f next ih => simp [Dom.skeleton, Dom.parentIn, ih]
  | error t next ih => simp [Dom.skeleton, Dom.parentIn, ih]
  | other c next ihc ihn =>
    simp only [Dom.skeleton, Dom.parentIn, Dom.isChild_skeleton, ihc, ihn]
    by_cases hc : c.isChild id = true
    · simp [hc]
    · simp only [hc, if_false, Bool.false_eq_true]
      cases c.parentIn id <;> simp

theorem Dom.under_skeleton (id : Nat) (d : Dom) : d.skeleton.under id = d.under id := by
  unfold Dom.under Dom.parentOf
  rw [Dom.isChild_skeleton, Dom.parentIn_skeleton]
  by_cases hd : d.isChild id = true
  · simp [hd, Dom.ids_skeleton]
  · simp only [hd, if_false, Bool.false_eq_true]
    cases d.parentIn id with
    | none => rfl
    | some p => simp [Dom.ids_skeleton]

theorem Dom.under_congr (id : Nat) (d e : Dom) (h : e.skeleton = d.skeleton) :
    e.under id = d.under id := by
  rw [← Dom.under_skeleton id e, h, Dom.under_skeleton]

theorem Dom.ids_congr (d e : Dom) (h : e.skeleton = d.skeleton) : e.ids = d.ids := by
  rw [← Dom.ids_skeleton e, h, Dom.ids_skeleton]

theorem Dom.isChild_of_not_mem (id : Nat) (d : Dom) (h : id ∉ d.ids) :
    d.isChild id = false := by
  cases hc : d.isChild id with
  | false => rfl
  | true => exact absurd (Dom.isChild_mem id d hc) h

theorem Dom.parentIn_of_not_mem (id : Nat) (d : Dom) (h : id ∉ d.ids) :
    d.parentIn id = none := by
  cases hp : d.parentIn id with
  | none => rfl
  | some p =>
    exact absurd ((Dom.mem_ids_iff id d).mpr (Or.inr (by simp [hp]))) h

theorem Dom.parentOf_of_not_mem (id : Nat) (d : Dom) (h : id ∉ d.ids) :
    d.parentOf id = none := by
  unfold Dom.parentOf
  rw [Dom.isChild_of_not_mem id d h, Dom.parentIn_of_not_mem id d h]
  rfl

theorem Dom.setErrorClass_of_not_mem (id : Nat) (b : Bool) (d : Dom) (h : id ∉ d.ids) :
    d.setErrorClass id b = d := by
  induction d with
  | nil => rfl
  | input f next ih =>
    simp only [Dom.ids, Dom.fields, List.map_cons, List.mem_cons, not_or] at h
    simp only [Dom.setErrorClass]
    rw [if_neg (fun hf => h.1 hf.symm), ih h.2]
  | error t next ih =>
    simp only [Dom.setErrorClass]
    rw [ih h]
  | other c next ihc ihn =>
    simp only [Dom.ids, Dom.fields, List.map_append, List.mem_append, not_or] at h
    simp only [Dom.setErrorClass]
    rw [ihc h.1, ihn h.2]

theorem Dom.atParentIn_of_not_mem (id : Nat) (g : Dom → Dom) (d : Dom) (h : id ∉ d.ids) :
    d.atParentIn id g = d := by
  induction d with
  | nil => rfl
  | input f next ih =>
    simp only [Dom.ids, Dom.fields, List.map_cons, List.mem_cons, not_or] at h
    simp only [Dom.atParentIn]
    rw [ih h.2]
  | error t next ih =>
    simp only [Dom.atParentIn]
    rw [ih h]
  | other c next ihc ihn =>
    simp only [Dom.ids, Dom.fields, List.map_append, List.mem_append, not_or] at h
    simp only [Dom.atParentIn]
    rw [Dom.isChild_of_not_mem id c h.1, ihc h.1, ihn h.2]
    rfl

theorem Dom.atParent_of_not_mem (id : Nat) (g : Dom → Dom) (d : Dom) (h : id ∉ d.ids) :
    d.atParent id g = d := by
  unfold Dom.atParent
  rw [Dom.isChild_of_not_mem id d h, Dom.atParentIn_of_not_mem id g d h]
  rfl

theorem Dom.ids_other (c next : Dom) : (Dom.other c next).ids = c.ids ++ next.ids := by
  simp [Dom.ids, Dom.fields]

theorem Dom.ids_atParentIn (id : Nat) (g : Dom → Dom) (hg : ∀ c, (g c).ids = c.ids)
    (d : Dom) : (d.atParentIn id g).ids = d.ids := by
  induction d with
  | nil => rfl
  | input f next ih =>
    simp only [Dom.ids, Dom.atParentIn, Dom.fields, List.map_cons] at ih ⊢
    rw [ih]
  | error t next ih => exact ih
  | other c next ihc ihn =>
    simp only [Dom.atParentIn, Dom.ids_other, ihn]
    split
    · rw [hg]
    · rw [ihc]

/-- Changing below the parent of one control leaves the parent of another control as it
was, when neither parent holds the other control. -/
theorem Dom.parentIn_atParentIn_other (fid gid : Nat) (g : Dom → Dom)
    (hg : ∀ c, (g c).ids = c.ids) (d : Dom) (hnd : d.ids.Nodup)
    (h1 : fid ∉ d.underIn gid) (h2 : gid ∉ d.underIn fid) :
    (d.atParentIn gid g).parentIn fid = d.parentIn fid := by
  induction d with
  | nil => rfl
  | input f next ih =>
    simp only [Dom.atParentIn, Dom.parentIn]
    apply ih
    · simp only [Dom.ids, Dom.fields, List.map_cons, List.nodup_cons] at hnd
      exact hnd.2
    · exact h1
    · exact h2
  | error t next ih =>
    simp only [Dom.atParentIn, Dom.parentIn]
    exact ih hnd h1 h2
  | other c next ihc ihn =>
    rw [Dom.ids_other, List.nodup_append] at hnd
    obtain ⟨hndc, hndn, hdisj⟩ := hnd
    simp only [Dom.underIn, Dom.parentIn] at h1 h2
    simp only [Dom.atParentIn, Dom.parentIn]
    by_cases hgc : c.isChild gid = true
    · -- the parent of `gid` is this node
      simp only [hgc, if_true] at h1 ⊢
      have hgmem : gid ∈ c.ids := Dom.isChild_mem gid c hgc
      have hgn : gid ∉ next.ids := fun h => hdisj hgmem h
      have hf' : fid ∉ (g c).ids := by rw [hg]; exact h1
      rw [Dom.atParentIn_of_not_mem gid g next hgn, Dom.isChild_of_not_mem fid _ hf',
        Dom.parentIn_of_not_mem fid _ hf', Dom.isChild_of_not_mem fid c h1,
        Dom.parentIn_of_not_mem fid c h1]
      rfl
    · simp only [hgc, if_false, Bool.false_eq_true] at h1 ⊢
      rw [Dom.isChild_atParentIn]
      by_cases hfc : c.isChild fid = true
      · simp only [hfc, if_true] at h2 ⊢
        rw [Dom.atParentIn_of_not_mem gid g c h2]
      · simp only [hfc, if_false, Bool.false_eq_true] at h2 ⊢
        by_cases hgin : gid ∈ c.ids
        · have hgn : gid ∉ next.ids := fun h => hdisj hgin h
          rw [Dom.atParentIn_of_not_mem gid g next hgn]
          have hgp : (c.parentIn gid).isSome = true := by
            rcases (Dom.mem_ids_iff gid c).mp hgin with h | h
            · exact absurd h hgc
            · exact h
          by_cases hfin : fid ∈ c.ids
          · have hfp : (c.parentIn fid).isSome = true := by
              rcases (Dom.mem_ids_iff fid c).mp hfin with h | h
              · exact absurd h hfc
              · exact h
            have e1 : fid ∉ c.underIn gid := by
              unfold Dom.underIn
              cases hp : c.parentIn gid with
              | none => simp
              | some p => rw [hp] at h1; exact h1
            have e2 : gid ∉ c.underIn fid := by
              unfold Dom.underIn
              cases hp : c.parentIn fid with
              | none => simp
              | some p => rw [hp] at h2; exact h2
            rw [ihc hndc e1 e2]
          · have hf' : fid ∉ (c.atParentIn gid g).ids := by
              rw [Dom.ids_atParentIn gid g hg]; exact hfin
            rw [Dom.parentIn_of_not_mem fid _ hf', Dom.parentIn_of_not_mem fid c hfin]
        · rw [Dom.atParentIn_of_not_mem gid g c hgin]
          rw [Dom.parentIn_of_not_mem gid c hgin] at h1
          cases hp : c.parentIn fid with
          | some p => rfl
          | none =>
            rw [hp] at h2
            simp only []
            exact ihn hndn h1 h2

theorem Dom.parentOf_atParent_other (fid gid : Nat) (g : Dom → Dom)
    (hg : ∀ c, (g c).ids = c.ids) (d : Dom) (hnd : d.ids.Nodup)
    (h1 : fid ∉ d.under gid) (h2 : gid ∉ d.under fid) :
    (d.atParent gid g).parentOf fid = d.parentOf fid := by
  unfold Dom.under Dom.parentOf at h1 h2
  unfold Dom.atParent
  by_cases hgd : d.isChild gid = true
  · simp only [hgd, if_true] at h1 ⊢
    have hf' : fid ∉ (g d).ids := by rw [hg]; exact h1
    rw [Dom.parentOf_of_not_mem fid _ hf', Dom.parentOf_of_not_mem fid d h1]
  · simp only [hgd, if_false, Bool.false_eq_true] at h1 ⊢
    by_cases hfd : d.isChild fid = true
    · simp only [hfd, if_true] at h2
      rw [Dom.atParentIn_of_not_mem gid g d h2]
    · simp only [hfd, if_false, Bool.false_eq_true] at h2
      unfold Dom.parentOf
      rw [Dom.isChild_atParentIn]
      simp only [hfd, if_false, Bool.false_eq_true]
      exact Dom.parentIn_atParentIn_other fid gid g hg d hnd h1 h2

theorem Dom.parentOf_setErrorClass_other (fid gid : Nat) (b : Bool) (d : Dom)
    (h2 : gid ∉ d.under fid) :
    (d.setErrorClass gid b).parentOf fid = d.parentOf fid := by
  rw [Dom.parentOf_setErrorClass]
  unfold Dom.under at h2
  cases hp : d.parentOf fid with
  | none => rfl
  | some p =>
    rw [hp] at h2
    simp only [Option.map_some']
    rw [Dom.setErrorClass_of_not_mem gid b p h2]

theorem ids_of_fields {g : Dom → Dom} (h : ∀ c, (g c).fields = c.fields) (c : Dom) :
    (g c).ids = c.ids := by
  unfold Dom.ids
  rw [h]

/-- Validating a field leaves the parent of another field as it was, when neither parent
holds the other field. -/
theorem validateField_parentOf_other (env : ValidationEnv) (dom : Dom) (field : Field)
    (fid : Nat) (hnd : dom.ids.Nodup) (h1 : fid ∉ dom.under field.fieldId)
    (h2 : field.fieldId ∉ dom.under fid) :
    (validateField env dom field).2.parentOf fid = dom.parentOf fid := by
  have hs1 : (dom.setErrorClass field.fieldId false).skeleton = dom.skeleton :=
    Dom.skeleton_setErrorClass _ _ _
  have hclearS : (clearFieldError dom field).skeleton = dom.skeleton := by
    unfold clearFieldError
    rw [Dom.skeleton_atParent _ _ Dom.skeleton_removeFirstError, hs1]
  have hclear : (clearFieldError dom field).parentOf fid = dom.parentOf fid := by
    unfold clearFieldError
    rw [Dom.parentOf_atParent_other fid field.fieldId _
      (ids_of_fields Dom.fields_removeFirstError) _
      (by rw [Dom.ids_congr dom _ hs1]; exact hnd)
      (by rw [Dom.under_congr _ dom _ hs1]; exact h1)
      (by rw [Dom.under_congr _ dom _ hs1]; exact h2)]
    exact Dom.parentOf_setErrorClass_other fid field.fieldId false dom h2
  unfold validateField
  simp only []
  split
  · exact hclear
  · simp only []
    have hs2 : ((clearFieldError dom field).setErrorClass field.fieldId true).skeleton =
        dom.skeleton := by
      rw [Dom.skeleton_setErrorClass, hclearS]
    unfold showFieldError
    rw [Dom.parentOf_atParent_other fid field.fieldId _
      (ids_of_fields (fields_showMessage _)) _
      (by rw [Dom.ids_congr dom _ hs2]; exact hnd)
      (by rw [Dom.under_congr _ dom _ hs2]; exact h1)
      (by rw [Dom.under_congr _ dom _ hs2]; exact h2)]
    rw [Dom.parentOf_setErrorClass_other fid field.fieldId true _
      (by rw [Dom.under_congr _ dom _ hclearS]; exact h2)]
    exact hclear

/-- The message shown for a field survives the validation of the fields whose parents do
not hold it and are not held by its parent. -/
theorem loop_shownFor (env : ValidationEnv) (l : List Field) (d : Dom) (fid : Nat)
    (hnd : d.ids.Nodup)
    (h : ∀ g ∈ l, fid ∉ d.under g.fieldId ∧ g.fieldId ∉ d.under fid) :
    (l.foldl (fun dom f => (validateField env dom f).2) d).shownFor fid = d.shownFor fid := by
  induction l generalizing d with
  | nil => rfl
  | cons g rest ih =>
    simp only [List.foldl_cons]
    have hs := skeleton_validateField env d g
    have hg := h g (List.mem_cons_self _ _)
    rw [ih (validateField env d g).2 (by rw [Dom.ids_congr d _ hs]; exact hnd)
      (fun x hx => by
        rw [Dom.under_congr _ d _ hs, Dom.under_congr _ d _ hs]
        exact h x (List.mem_cons_of_mem _ hx))]
    unfold Dom.shownFor
    rw [validateField_parentOf_other env d g fid hnd hg.1 hg.2]

/-! ## Form validation: the claims -/

/-- C25: for a field of type `email` whose name is not `phone` and whose trimmed value is
not empty, `validateField` returns true exactly when the value has no white space, one
`@` with something before it, and after the `@` a part holding a `.` that is neither its
first nor its last character; otherwise it returns false with the message
`Please enter a valid email address`, which the error element found from the parent of
the field then reads. -/
theorem C25_email_field_validity (env : ValidationEnv) (dom : Dom) (field : Field)
    (htype : field.type = "email") (hname : field.name ≠ "phone")
    (hvalue : jsTrim field.value.toList ≠ []) :
    ((validateField env dom field).1 = true ↔ EmailShape (jsTrim field.value.toList)) ∧
      ((validateField env dom field).1 = false →
        fieldVerdict env field = (false, "Please enter a valid email address")) ∧
      ((validateField env dom field).1 = false → field.fieldId ∈ dom.ids →
        (validateField env dom field).2.shownFor field.fieldId =
          some "Please enter a valid email address") := by
  have hverdict : fieldVerdict env field =
      if emailRegex.test (jsTrim field.value.toList) then (true, "")
      else (false, "Please enter a valid email address") := by
    have hdata : jsTrim field.value.data ≠ [] := hvalue
    unfold fieldVerdict
    simp [htype, hname, hdata]
  have hbad : (validateField env dom field).1 = false →
      fieldVerdict env field = (false, "Please enter a valid email address") := by
    intro hfalse
    rw [validateField_fst, hverdict] at hfalse
    rw [hverdict]
    cases htest : emailRegex.test (jsTrim field.value.toList)
    · rfl
    · rw [htest] at hfalse
      exact absurd hfalse (by simp)
  refine ⟨?_, hbad, ?_⟩
  · rw [validateField_fst, hverdict, ← emailRegex_test_iff_shape]
    cases emailRegex.test (jsTrim field.value.toList) <;> simp
  · intro hfalse hmem
    have hv := hbad hfalse
    have h1 : (fieldVerdict env field).1 = false := by rw [hv]
    have hshown := validateField_shows env dom field h1
      ((Dom.parentOf_isSome_iff _ _).mpr hmem)
    rw [hshown, hv]

/-- C25, witness: the value ` ann@example.com ` is accepted after trimming, and it has the
shape; the value `ann@example` is refused and the message is shown for the field. -/
theorem C25_witness_accepted :
    (validateField sampleEnv (emailForm " ann@example.com ")
        (sampleEmailField " ann@example.com ")).1 = true ∧
      EmailShape (jsTrim (sampleEmailField " ann@example.com ").value.toList) ∧
      (validateField sampleEnv (emailForm "ann@example") (sampleEmailField "ann@example")).1
        = false ∧
      (validateField sampleEnv (emailForm "ann@example")
        (sampleEmailField "ann@example")).2.shownFor 1 =
          some "Please enter a valid email address" :=
  ⟨by decide,
    (C25_email_field_validity sampleEnv (emailForm " ann@example.com ")
      (sampleEmailField " ann@example.com ") rfl (by decide) (by decide)).1.mp (by decide),
    by decide,
    (C25_email_field_validity sampleEnv (emailForm "ann@example")
      (sampleEmailField "ann@example") rfl (by decide) (by decide)).2.2 (by decide)
      (by decide)⟩

/-- C26 (amended): `validateForm` returns true exactly when `validateField` returns true
for every field; it runs `validateField` on every field, whatever the earlier ones
returned, so that afterwards every field carries the class `error` exactly when it is
invalid.  When an invalid field is validated its message is put in the first element of
class `error-message` below its parent node, and it is still there at the end when no
later field of the form has a parent node that holds the invalid field or is held by the
parent node of the invalid field. -/
theorem C26_validateForm_every_field (env : ValidationEnv) (dom : Dom) :
    ((validateForm env dom).1 = true ↔
        ∀ f ∈ dom.fields, (validateField env dom f).1 = true) ∧
      (validateForm env dom).2 =
        dom.fields.foldl (fun d f => (validateField env d f).2) dom ∧
      (dom.ids.Nodup →
        (validateForm env dom).2.fields =
          dom.fields.map fun g =>
            { g with hasErrorClass := !(validateField env dom g).1 }) ∧
      (∀ (d : Dom) (f : Field), (validateField env d f).1 = false → f.fieldId ∈ d.ids →
        (validateField env d f).2.shownFor f.fieldId = some (fieldVerdict env f).2) ∧
      (dom.ids.Nodup → ∀ pre f post, dom.fields = pre ++ f :: post →
        (validateField env dom f).1 = false →
        (∀ g ∈ post, f.fieldId ∉ dom.under g.fieldId ∧ g.fieldId ∉ dom.under f.fieldId) →
        (validateForm env dom).2.shownFor f.fieldId = some (fieldVerdict env f).2) := by
  have hloop := validateForm_loop env dom.fields true dom
  have hform : validateForm env dom =
      (dom.fields.all (fun f => (fieldVerdict env f).1),
        dom.fields.foldl (fun d f => (validateField env d f).2) dom) := by
    unfold validateForm
    rw [hloop, Bool.true_and]
  refine ⟨?_, ?_, ?_, ?_, ?_⟩
  · rw [hform]
    simp only [List.all_eq_true, validateField_fst]
  · rw [hform]
  · intro hnodup
    rw [hform]
    simp only []
    rw [loop_fields]
    apply List.map_congr_left
    intro g hg
    rw [validateField_fst]
    apply markAll_mem env dom.fields g g hg _ (Or.inl rfl)
    intro f hf hid
    exact List.inj_on_of_nodup_map hnodup hf hg hid
  · intro d f hfalse hmem
    rw [validateField_fst] at hfalse
    exact validateField_shows env d f hfalse ((Dom.parentOf_isSome_iff _ _).mpr hmem)
  · intro hnodup pre f post hfields hfalse hpost
    rw [validateField_fst] at hfalse
    rw [hform]
    simp only []
    rw [hfields, List.foldl_append, List.foldl_cons]
    have hs0 := skeleton_loop env pre dom
    have hs1 : (validateField env
        (pre.foldl (fun d f => (validateField env d f).2) dom) f).2.skeleton = dom.skeleton := by
      rw [skeleton_validateField, hs0]
    have hmem : f.fieldId ∈ dom.ids := by
      unfold Dom.ids
      rw [hfields]
      simp
    rw [loop_shownFor env post _ f.fieldId (by rw [Dom.ids_congr dom _ hs1]; exact hnodup)
      (fun g hg => by
        rw [Dom.under_congr _ dom _ hs1, Dom.under_congr _ dom _ hs1]
        exact hpost g hg)]
    apply validateField_shows env _ f hfalse
    rw [Dom.parentOf_isSome_iff, Dom.ids_congr dom _ hs0]
    exact hmem

/-- C26, counterexample to the claim as stated: in a form whose two fields share a
parent, the first invalid and the second valid, `validateForm` returns false and leaves
no error message: validating the second field removed the message of the first.  The
same happens when each field has a node of its own and a submit input follows as a child
of the form: its parent is the form, and the first error element below the form is the
message of the first field.  Without the submit input the message stays. -/
theorem C26_counterexample_shared_parent :
    (validateForm sampleEnv siblingForm).1 = false ∧
      (validateField sampleEnv siblingForm firstNameField).1 = false ∧
      (validateField sampleEnv siblingForm firstNameField).2.shownFor 1
        = some "This field is required" ∧
      (validateForm sampleEnv siblingForm).2.shownFor 1 = none ∧
      (validateForm sampleEnv siblingForm).2.fields.map Field.hasErrorClass = [true, false] ∧
      (validateForm sampleEnv wrappedForm).1 = false ∧
      (validateForm sampleEnv wrappedForm).2.shownFor 1 = none ∧
      (validateForm sampleEnv wrappedForm).2.firstError = none ∧
      (validateForm sampleEnv wrappedForm).2.fields.map Field.hasErrorClass
        = [true, false, false] ∧
      (validateForm sampleEnv wrappedFields).2.shownFor 1 = some "This field is required" := by
  decide

/-! ## Debounce -/

theorem clearTimeout_single {κ : Type} (tm : Timer κ) :
    clearTimeout (some tm.id) [tm] = [] := by
  simp [clearTimeout]

/-- After a call of the debounced function that met at most its predecessor's timer,
exactly the timer of this call is pending and `func` has not run. -/
theorem executedFunction_single {α : Type} (timersFirst : Bool) (wait : Nat)
    (t : Nat) (a : α) (id next : Nat) (t1 : Nat) (a1 : α) (ht : t1 < t + wait) :
    executedFunction wait t1 a1
      (debounceAdvance later timersFirst t1
        { timeout := some id, timers := [{ id := id, due := t + wait, callback := a }],
          nextId := next, invoked := [] }) =
      { timeout := some next, timers := [{ id := next, due := t1 + wait, callback := a1 }],
        nextId := next + 1, invoked := [] } := by
  have hnot : isDue timersFirst t1 (t + wait) = false := by
    unfold isDue
    cases timersFirst <;> simp <;> omega
  simp [debounceAdvance, debounceRunTimers, hnot, executedFunction, clearTimeout, insertTimer]

theorem executedFunction_first {α : Type} (timersFirst : Bool) (wait : Nat)
    (t1 : Nat) (a1 : α) :
    executedFunction wait t1 a1 (debounceAdvance later timersFirst t1 debounce) =
      { timeout := some 0, timers := [{ id := 0, due := t1 + wait, callback := a1 }],
        nextId := 1, invoked := [] } := by
  simp [debounceAdvance, debounceRunTimers, debounce, executedFunction, clearTimeout,
    insertTimer]

theorem debounceRun_single {α : Type} (timersFirst : Bool) (wait : Nat)
    (calls : List (Nat × α)) (last : Nat × α) (c : Nat × α) (id next : Nat)
    (hgaps : List.Chain (fun x y => x.1 < y.1 ∧ y.1 < x.1 + wait) c (calls ++ [last])) :
    ∃ id1 next1,
      debounceRun executedFunction later timersFirst wait (calls ++ [last])
        { timeout := some id, timers := [{ id := id, due := c.1 + wait, callback := c.2 }],
          nextId := next, invoked := [] } =
        { timeout := some id1,
          timers := [{ id := id1, due := last.1 + wait, callback := last.2 }],
          nextId := next1, invoked := [] } := by
  induction calls generalizing c id next with
  | nil =>
    simp only [List.nil_append, List.chain_cons, List.Chain.nil, and_true] at hgaps
    refine ⟨next, next + 1, ?_⟩
    simp only [debounceRun, List.nil_append, List.foldl_cons, List.foldl_nil]
    exact executedFunction_single timersFirst wait c.1 c.2 id next last.1 last.2 hgaps.2
  | cons d rest ih =>
    simp only [List.cons_append, List.chain_cons] at hgaps
    obtain ⟨hcd, hrest⟩ := hgaps
    obtain ⟨id1, next1, h⟩ := ih d next (next + 1) hrest
    refine ⟨id1, next1, ?_⟩
    simp only [debounceRun, List.cons_append, List.foldl_cons]
    rw [executedFunction_single timersFirst wait c.1 c.2 id next d.1 d.2 hcd.2]
    exact h

/-- After a burst of calls, each closer than `wait` to the one before, exactly the timer
of the last call is pending and `func` has not run. -/
theorem debounceRun_burst {α : Type} (timersFirst : Bool) (wait : Nat)
    (calls : List (Nat × α)) (last : Nat × α)
    (hgaps : List.Chain' (fun x y => x.1 < y.1 ∧ y.1 < x.1 + wait) (calls ++ [last])) :
    ∃ id1 next1,
      debounceRun executedFunction later timersFirst wait (calls ++ [last]) debounce =
        { timeout := some id1,
          timers := [{ id := id1, due := last.1 + wait, callback := last.2 }],
          nextId := next1, invoked := [] } := by
  cases calls with
  | nil =>
    refine ⟨0, 1, ?_⟩
    simp only [debounceRun, List.nil_append, List.foldl_cons, List.foldl_nil]
    exact executedFunction_first timersFirst wait last.1 last.2
  | cons c rest =>
    have hchain : List.Chain (fun x y => x.1 < y.1 ∧ y.1 < x.1 + wait) c (rest ++ [last]) :=
      hgaps
    obtain ⟨id1, next1, h⟩ := debounceRun_single timersFirst wait rest last c 0 1 hchain
    refine ⟨id1, next1, ?_⟩
    simp only [debounceRun, List.cons_append, List.foldl_cons]
    rw [executedFunction_first timersFirst wait c.1 c.2]
    exact h

/-- C27: when the debounced function is called at times `t1 < ... < tn`, each gap smaller
than `wait`, and not again, `func` has run exactly once by any time from `tn + wait` on,
at `tn + wait` and with the arguments of the last call, and it has not run at any time
before; the definition of `main.js` and the fallback of `booking.js` are the same
function and give the same invocations for every sequence of calls. -/
theorem C27_debounce_runs_last_call_once {α : Type} (timersFirst : Bool) (wait : Nat)
    (calls : List (Nat × α)) (last : Nat × α)
    (hgaps : List.Chain' (fun x y => x.1 < y.1 ∧ y.1 < x.1 + wait) (calls ++ [last]))
    (seenAt : Nat) :
    debounceInvoked executedFunction later timersFirst wait (calls ++ [last]) seenAt =
        (if last.1 + wait ≤ seenAt then [(last.1 + wait, last.2)] else []) ∧
      (∀ (w : Nat) (cs : List (Nat × α)) (at1 : Nat),
        debounceInvoked fallbackExecutedFunction fallbackLater timersFirst w cs at1 =
          debounceInvoked executedFunction later timersFirst w cs at1) := by
  refine ⟨?_, fun _ _ _ => rfl⟩
  obtain ⟨id1, next1, h⟩ := debounceRun_burst timersFirst wait calls last hgaps
  unfold debounceInvoked
  rw [h]
  by_cases hT : last.1 + wait ≤ seenAt
  · simp [debounceAdvance, debounceRunTimers, isDue, hT, later, clearTimeout]
  · simp [debounceAdvance, debounceRunTimers, isDue, hT]

/-- C27, witness: calls at 0, 300 and 700 ms with `wait = 500`; `func` runs once, at
1200 ms, with the arguments of the third call, and has not run at 1199 ms. -/
theorem C27_witness_three_calls :
    debounceInvoked executedFunction later true 500 ([(0, "a"), (300, "b")] ++ [(700, "c")])
        2000 = [(1200, "c")] ∧
      debounceInvoked executedFunction later true 500 ([(0, "a"), (300, "b")] ++ [(700, "c")])
        1199 = [] :=
  ⟨(C27_debounce_runs_last_call_once true 500 [(0, "a"), (300, "b")] (700, "c")
      (by simp) 2000).1,
    by decide⟩

/-! ## Throttle -/

theorem throttleAdvance_closed {θ α : Type} (timersFirst : Bool) (now : Nat)
    (s : ThrottleState θ α) (h : s.timers = []) : throttleAdvance timersFirst now s = s := by
  simp [throttleAdvance, h, throttleRunTimers]

theorem throttleAdvance_notDue {θ α : Type} (timersFirst : Bool) (now : Nat)
    (s : ThrottleState θ α) (id due : Nat)
    (h : s.timers = [{ id := id, due := due, callback := () }])
    (hdue : isDue timersFirst now due = false) : throttleAdvance timersFirst now s = s := by
  simp [throttleAdvance, h, throttleRunTimers, hdue]

theorem throttleAdvance_due {θ α : Type} (timersFirst : Bool) (now : Nat)
    (s : ThrottleState θ α) (id due : Nat)
    (h : s.timers = [{ id := id, due := due, callback := () }])
    (hdue : isDue timersFirst now due = true) :
    throttleAdvance timersFirst now s = { s with inThrottle := false, timers := [] } := by
  simp [throttleAdvance, h, throttleRunTimers, hdue]

theorem isDue_le {timersFirst : Bool} {now due : Nat} (h : isDue timersFirst now due = true) :
    due ≤ now := by
  unfold isDue at h
  cases timersFirst <;> simp at h <;> omega

theorem isDue_of_lt {timersFirst : Bool} {now due : Nat} (h : due < now) :
    isDue timersFirst now due = true := by
  unfold isDue
  cases timersFirst <;> simp <;> omega

theorem isDue_of_gt {timersFirst : Bool} {now due : Nat} (h : now < due) :
    isDue timersFirst now due = false := by
  unfold isDue
  cases timersFirst <;> simp <;> omega

theorem throttleRunTimers_invoked {θ α : Type} (timersFirst : Bool) (now fuel : Nat)
    (s : ThrottleState θ α) :
    (throttleRunTimers timersFirst now fuel s).invoked = s.invoked := by
  induction fuel generalizing s with
  | zero => rfl
  | succ n ih =>
    unfold throttleRunTimers
    split
    · rfl
    · split
      · rw [ih]
      · rfl

theorem throttleAdvance_invoked {θ α : Type} (timersFirst : Bool) (now : Nat)
    (s : ThrottleState θ α) : (throttleAdvance timersFirst now s).invoked = s.invoked :=
  throttleRunTimers_invoked timersFirst now _ s

theorem ThrottleInv.mono {θ α : Type} {limit now later1 : Nat} {s : ThrottleState θ α}
    (h : ThrottleInv limit now s) (hle : now ≤ later1) : ThrottleInv limit later1 s := by
  obtain ⟨hp, hnow, hcase⟩ := h
  refine ⟨hp, fun x hx => le_trans (hnow x hx) hle, ?_⟩
  rcases hcase with ⟨h1, h2, h3⟩ | h
  · exact Or.inl ⟨h1, h2, fun x hx => le_trans (h3 x hx) hle⟩
  · exact Or.inr h

theorem throttleAdvance_inv {θ α : Type} (timersFirst : Bool) (limit now t : Nat)
    (s : ThrottleState θ α) (h : ThrottleInv limit now s) (hle : now ≤ t) :
    ThrottleInv limit t (throttleAdvance timersFirst t s) := by
  obtain ⟨hp, hnow, hcase⟩ := h
  rcases hcase with ⟨h1, h2, h3⟩ | ⟨h1, id, due, h2, h3, h4⟩
  · rw [throttleAdvance_closed _ _ _ h2]
    exact ThrottleInv.mono ⟨hp, hnow, Or.inl ⟨h1, h2, h3⟩⟩ hle
  · cases hdue : isDue timersFirst t due
    · rw [throttleAdvance_notDue _ _ _ id due h2 hdue]
      exact ThrottleInv.mono ⟨hp, hnow, Or.inr ⟨h1, id, due, h2, h3, h4⟩⟩ hle
    · rw [throttleAdvance_due _ _ _ id due h2 hdue]
      refine ⟨hp, fun x hx => le_trans (hnow x hx) hle, Or.inl ⟨rfl, rfl, ?_⟩⟩
      intro x hx
      exact le_trans (h4 x hx) (isDue_le hdue)

theorem throttled_inv {θ α : Type} (limit t : Nat) (context : θ) (args : α)
    (s : ThrottleState θ α) (h : ThrottleInv limit t s) :
    ThrottleInv limit t (throttled limit t context args s) := by
  obtain ⟨hp, hnow, hcase⟩ := h
  rcases hcase with ⟨h1, h2, h3⟩ | ⟨h1, id, due, h2, h3, h4⟩
  · simp only [throttled, h1, Bool.not_false, if_true, h2, insertTimer]
    refine ⟨?_, ?_, Or.inr ⟨rfl, s.nextId, t + limit, rfl, ?_, ?_⟩⟩
    · rw [List.pairwise_append]
      refine ⟨hp, List.pairwise_singleton _ _, ?_⟩
      intro x hx y hy
      rw [List.mem_singleton.mp hy]
      exact h3 x hx
    · intro x hx
      rcases List.mem_append.mp hx with hx | hx
      · exact hnow x hx
      · rw [List.mem_singleton.mp hx]
    · exact ⟨(t, context, args), by simp, rfl⟩
    · intro y hy
      rcases List.mem_append.mp hy with hy | hy
      · exact Nat.add_le_add_right (hnow y hy) limit
      · rw [List.mem_singleton.mp hy]
  · have hsame : throttled limit t context args s = s := by
      simp [throttled, h1]
    rw [hsame]
    exact ⟨hp, hnow, Or.inr ⟨h1, id, due, h2, h3, h4⟩⟩

theorem throttleRun_inv {θ α : Type} (timersFirst : Bool) (limit : Nat)
    (calls : List (Nat × θ × α)) (s : ThrottleState θ α) (now bound : Nat)
    (h : ThrottleInv limit now s) (hfrom : ∀ c ∈ calls, now ≤ c.1)
    (hsorted : calls.Pairwise (fun x y => x.1 ≤ y.1)) (hbound : ∀ c ∈ calls, c.1 ≤ bound)
    (hnb : now ≤ bound) :
    ThrottleInv limit bound (throttleRun timersFirst limit calls s) := by
  induction calls generalizing s now with
  | nil => exact ThrottleInv.mono h hnb
  | cons c rest ih =>
    simp only [throttleRun, List.foldl_cons]
    rw [List.pairwise_cons] at hsorted
    apply ih _ c.1
    · exact throttled_inv limit c.1 c.2.1 c.2.2 _
        (throttleAdvance_inv timersFirst limit now c.1 s h (hfrom c (List.mem_cons_self _ _)))
    · exact fun d hd => hsorted.1 d hd
    · exact hsorted.2
    · exact fun d hd => hbound d (List.mem_cons_of_mem _ hd)
    · exact hbound c (List.mem_cons_self _ _)

theorem throttleRun_append {θ α : Type} (timersFirst : Bool) (limit : Nat)
    (pre post : List (Nat × θ × α)) (s : ThrottleState θ α) :
    throttleRun timersFirst limit (pre ++ post) s =
      throttleRun timersFirst limit post (throttleRun timersFirst limit pre s) := by
  simp [throttleRun, List.foldl_append]

/-- The invocations of a run are the earlier ones followed by some of the calls, each
at its own time and with its own `this` and arguments. -/
theorem throttleRun_sublist {θ α : Type} (timersFirst : Bool) (limit : Nat)
    (calls : List (Nat × θ × α)) (s : ThrottleState θ α) :
    ∃ l, l.Sublist calls ∧ (throttleRun timersFirst limit calls s).invoked = s.invoked ++ l := by
  induction calls generalizing s with
  | nil => exact ⟨[], List.Sublist.refl _, by simp [throttleRun]⟩
  | cons c rest ih =>
    simp only [throttleRun, List.foldl_cons]
    obtain ⟨l, hl, heq⟩ :=
      ih (throttled limit c.1 c.2.1 c.2.2 (throttleAdvance timersFirst c.1 s))
    simp only [throttleRun] at heq
    rw [heq]
    cases hopen : (throttleAdvance timersFirst c.1 s).inThrottle
    · refine ⟨c :: l, hl.cons₂ c, ?_⟩
      simp [throttled, hopen, throttleAdvance_invoked]
    · refine ⟨l, hl.cons c, ?_⟩
      simp [throttled, hopen, throttleAdvance_invoked]

theorem exists_time_bound {β : Type} (calls : List (Nat × β)) :
    ∃ bound, ∀ c ∈ calls, c.1 ≤ bound := by
  induction calls with
  | nil => exact ⟨0, by simp⟩
  | cons c rest ih =>
    obtain ⟨b, hb⟩ := ih
    refine ⟨max c.1 b, ?_⟩
    intro d hd
    rcases List.mem_cons.mp hd with h | h
    · rw [h]; exact le_max_left _ _
    · exact le_trans (hb d h) (le_max_right _ _)

theorem throttle_inv {θ α : Type} (limit : Nat) :
    ThrottleInv limit 0 (throttle : ThrottleState θ α) := by
  refine ⟨List.Pairwise.nil, by simp [throttle], Or.inl ⟨rfl, rfl, by simp [throttle]⟩⟩

theorem throttleRun_snoc {θ α : Type} (timersFirst : Bool) (limit : Nat)
    (pre : List (Nat × θ × α)) (c : Nat × θ × α) (s : ThrottleState θ α) :
    throttleRun timersFirst limit (pre ++ [c]) s =
      throttled limit c.1 c.2.1 c.2.2
        (throttleAdvance timersFirst c.1 (throttleRun timersFirst limit pre s)) := by
  simp [throttleRun, List.foldl_append]

/-- A call later than `limit` after every invocation finds the window closed. -/
theorem throttled_outside {θ α : Type} (timersFirst : Bool) (limit : Nat) (c : Nat × θ × α)
    (s : ThrottleState θ α) (hinv : ThrottleInv limit c.1 s)
    (hout : ∀ x ∈ s.invoked, x.1 + limit < c.1) :
    (throttled limit c.1 c.2.1 c.2.2 (throttleAdvance timersFirst c.1 s)).invoked =
        s.invoked ++ [c] ∧
      (throttled limit c.1 c.2.1 c.2.2 (throttleAdvance timersFirst c.1 s)).inThrottle = true ∧
      ∃ id, (throttled limit c.1 c.2.1 c.2.2 (throttleAdvance timersFirst c.1 s)).timers =
        [{ id := id, due := c.1 + limit, callback := () }] := by
  obtain ⟨_, _, hcase⟩ := hinv
  have hclosed : throttleAdvance timersFirst c.1 s =
      { s with inThrottle := false, timers := [] } := by
    rcases hcase with ⟨h1, h2, _⟩ | ⟨h1, id, due, h2, ⟨x, hx, hdue⟩, _⟩
    · rw [throttleAdvance_closed _ _ _ h2]
      cases s
      simp only [] at h1 h2
      rw [h1, h2]
    · apply throttleAdvance_due _ _ _ id due h2
      apply isDue_of_lt
      rw [hdue]
      exact hout x hx
  rw [hclosed]
  simp [throttled, insertTimer]

/-- A call sooner than `limit` after an invocation finds the window open. -/
theorem throttled_inside {θ α : Type} (timersFirst : Bool) (limit : Nat) (c : Nat × θ × α)
    (s : ThrottleState θ α) (hinv : ThrottleInv limit c.1 s)
    (hin : ∃ x ∈ s.invoked, c.1 < x.1 + limit) :
    throttled limit c.1 c.2.1 c.2.2 (throttleAdvance timersFirst c.1 s) = s := by
  obtain ⟨_, _, hcase⟩ := hinv
  obtain ⟨x, hx, hlt⟩ := hin
  rcases hcase with ⟨_, _, h3⟩ | ⟨h1, id, due, h2, _, h4⟩
  · exact absurd (h3 x hx) (by omega)
  · rw [throttleAdvance_notDue _ _ _ id due h2 (isDue_of_gt (lt_of_lt_of_le hlt (h4 x hx)))]
    simp [throttled, h1]

/-- C28: a call of the throttled function made more than `limit` after every earlier
invocation runs `func` at once with the same `this` and arguments and opens a window
that a timer closes `limit` later; a call made less than `limit` after an invocation
changes nothing, so it is not run later either; the invocations are calls, each at its
own time; any two invocations are at least `limit` apart; and the first call runs
`func`. This holds for calls in the order of their times and whichever of a timer and a
call at the same millisecond goes first. -/
theorem C28_throttle_spacing {θ α : Type} (timersFirst : Bool) (limit : Nat)
    (calls : List (Nat × θ × α)) (hsorted : calls.Pairwise (fun x y => x.1 ≤ y.1)) :
    (∀ pre c post, calls = pre ++ c :: post →
        ((∀ x ∈ (throttleRun timersFirst limit pre throttle).invoked, x.1 + limit < c.1) →
          (throttleRun timersFirst limit (pre ++ [c]) throttle).invoked =
              (throttleRun timersFirst limit pre throttle).invoked ++ [c] ∧
            (throttleRun timersFirst limit (pre ++ [c]) throttle).inThrottle = true ∧
            ∃ id, (throttleRun timersFirst limit (pre ++ [c]) throttle).timers =
              [{ id := id, due := c.1 + limit, callback := () }]) ∧
        ((∃ x ∈ (throttleRun timersFirst limit pre throttle).invoked, c.1 < x.1 + limit) →
          throttleRun timersFirst limit (pre ++ [c]) throttle =
            throttleRun timersFirst limit pre throttle)) ∧
      (throttleRun timersFirst limit calls throttle).invoked.Sublist calls ∧
      (throttleRun timersFirst limit calls throttle).invoked.Pairwise
        (fun x y => x.1 + limit ≤ y.1) ∧
      (∀ c rest, calls = c :: rest →
        (throttleRun timersFirst limit calls throttle).invoked.head? = some c) := by
  refine ⟨?_, ?_, ?_, ?_⟩
  · intro pre c post hcalls
    rw [hcalls, List.pairwise_append] at hsorted
    obtain ⟨hpre, _, hcross⟩ := hsorted
    have hinv : ThrottleInv limit c.1 (throttleRun timersFirst limit pre throttle) :=
      throttleRun_inv timersFirst limit pre throttle 0 c.1 (throttle_inv limit)
        (fun _ _ => Nat.zero_le _) hpre
        (fun d hd => hcross d hd c (List.mem_cons_self _ _)) (Nat.zero_le _)
    rw [throttleRun_snoc]
    exact ⟨throttled_outside timersFirst limit c _ hinv,
      throttled_inside timersFirst limit c _ hinv⟩
  · obtain ⟨l, hl, heq⟩ := throttleRun_sublist timersFirst limit calls (throttle : ThrottleState θ α)
    rw [heq]
    simpa [throttle] using hl
  · obtain ⟨bound, hbound⟩ := exists_time_bound calls
    exact (throttleRun_inv timersFirst limit calls throttle 0 bound (throttle_inv limit)
      (fun _ _ => Nat.zero_le _) hsorted hbound (Nat.zero_le _)).1
  · intro c rest hcalls
    rw [hcalls]
    simp only [throttleRun, List.foldl_cons]
    obtain ⟨l, _, heq⟩ := throttleRun_sublist timersFirst limit rest
      (throttled limit c.1 c.2.1 c.2.2
        (throttleAdvance timersFirst c.1 (throttle : ThrottleState θ α)))
    simp only [throttleRun] at heq
    rw [heq]
    simp [throttled, throttleAdvance, throttleRunTimers, throttle]

/-- C28, witness: calls at 0, 10, 16, 20 and 40 ms with `limit = 16`, timers going first:
the calls at 0, 16 and 40 ms run `func`, those at 10 and 20 ms are dropped. -/
theorem C28_witness_scroll_events :
    (throttleRun true 16
        [(0, "window", "e0"), (10, "window", "e1"), (16, "window", "e2"),
          (20, "window", "e3"), (40, "window", "e4")] throttle).invoked.Pairwise
        (fun x y => x.1 + 16 ≤ y.1) ∧
      (throttleRun true 16
        [(0, "window", "e0"), (10, "window", "e1"), (16, "window", "e2"),
          (20, "window", "e3"), (40, "window", "e4")] throttle).invoked =
        [(0, "window", "e0"), (16, "window", "e2"), (40, "window", "e4")] :=
  ⟨(C28_throttle_spacing true 16
      [(0, "window", "e0"), (10, "window", "e1"), (16, "window", "e2"),
        (20, "window", "e3"), (40, "window", "e4")] (by simp)).2.2.1,
    by decide⟩

/-! ## Cookies -/

theorem take_eq_iff_entryMatches (name entry : List Char) :
    (jsTrim entry).take (name.length + 1) = name ++ ['='] ↔ entryMatches name entry := by
  unfold entryMatches
  rw [List.prefix_iff_eq_take]
  simp only [List.length_append, List.length_singleton]
  exact eq_comm

theorem getCookieLoop_none_iff (decodeURIComponent : List Char → Option (List Char))
    (name : List Char) (entries : List (List Char)) :
    getCookieLoop decodeURIComponent name entries = Except.ok none ↔
      ∀ e ∈ entries, ¬ entryMatches name e := by
  induction entries with
  | nil => simp [getCookieLoop]
  | cons e rest ih =>
    unfold getCookieLoop
    by_cases h : (jsTrim e).take (name.length + 1) = name ++ ['=']
    · rw [if_pos h]
      have hm := (take_eq_iff_entryMatches name e).mp h
      constructor
      · intro hnone
        cases hd : decodeURIComponent ((jsTrim e).drop (name.length + 1)) <;>
          simp [hd] at hnone
      · intro hall
        exact absurd hm (hall e (List.mem_cons_self _ _))
    · rw [if_neg h, ih]
      have hm : ¬ entryMatches name e := fun hm => h ((take_eq_iff_entryMatches name e).mpr hm)
      simp [hm]

theorem getCookieLoop_first (decodeURIComponent : List Char → Option (List Char))
    (name : List Char) (pre : List (List Char)) (e : List Char) (post : List (List Char))
    (hpre : ∀ x ∈ pre, ¬ entryMatches name x) (he : entryMatches name e) :
    getCookieLoop decodeURIComponent name (pre ++ e :: post) =
      match decodeURIComponent ((jsTrim e).drop (name.length + 1)) with
      | some value => Except.ok (some value)
      | none => Except.error "URIError" := by
  induction pre with
  | nil =>
    simp only [List.nil_append]
    unfold getCookieLoop
    rw [if_pos ((take_eq_iff_entryMatches name e).mpr he)]
  | cons x rest ih =>
    simp only [List.cons_append]
    unfold getCookieLoop
    rw [if_neg (fun h => hpre x (List.mem_cons_self _ _)
      ((take_eq_iff_entryMatches name x).mp h))]
    exact ih (fun y hy => hpre y (List.mem_cons_of_mem _ hy))

theorem getCookieLoop_skip (decodeURIComponent : List Char → Option (List Char))
    (name : List Char) (pre : List (List Char)) (e : List Char) (post : List (List Char))
    (he : ¬ entryMatches name e) :
    getCookieLoop decodeURIComponent name (pre ++ e :: post) =
      getCookieLoop decodeURIComponent name (pre ++ post) := by
  induction pre with
  | nil =>
    simp only [List.nil_append]
    conv_lhs => unfold getCookieLoop
    rw [if_neg (fun h => he ((take_eq_iff_entryMatches name e).mp h))]
  | cons x rest ih =>
    simp only [List.cons_append]
    unfold getCookieLoop
    rw [ih]

/-- An entry whose name is `name` followed by more characters does not start with
`name=`. -/
theorem not_entryMatches_longer_name (name extra value entry : List Char)
    (hextra : extra ≠ []) (heq : '=' ∉ extra)
    (hentry : jsTrim entry = name ++ extra ++ '=' :: value) : ¬ entryMatches name entry := by
  unfold entryMatches
  rw [hentry, List.append_assoc]
  intro h
  have h1 := (List.prefix_append_right_inj name).mp h
  cases extra with
  | nil => exact hextra rfl
  | cons x xs =>
    obtain ⟨t, ht⟩ := h1
    simp only [List.cons_append, List.singleton_append, List.cons.injEq] at ht
    exact heq (ht.1 ▸ List.mem_cons_self _ _)

theorem splitSemicolon_nil_not_matched (name : List Char) :
    ∀ e ∈ splitSemicolon [], ¬ entryMatches name e := by
  intro e he
  simp only [splitSemicolon, List.mem_singleton] at he
  subst he
  unfold entryMatches
  intro h
  have hlen := h.length_le
  simp [jsTrim] at hlen

/-- C29: `getCookie(name)` returns `null` exactly when no entry of the cookie string,
split at `;` and trimmed, starts with `name=`, which covers the empty cookie string;
otherwise the result comes from the first such entry: the decoded rest of that entry, or
the `URIError` of `decodeURIComponent` when the rest cannot be decoded; and an entry
whose name is `name` followed by more characters is passed over, the result being the
same as without that entry. -/
theorem C29_getCookie_first_match (decodeURIComponent : List Char → Option (List Char))
    (documentCookie name : List Char) :
    (getCookie decodeURIComponent documentCookie name = Except.ok none ↔
        ∀ e ∈ splitSemicolon documentCookie, ¬ entryMatches name e) ∧
      (getCookie decodeURIComponent [] name = Except.ok none) ∧
      (∀ pre e post, splitSemicolon documentCookie = pre ++ e :: post →
        (∀ x ∈ pre, ¬ entryMatches name x) → entryMatches name e →
        getCookie decodeURIComponent documentCookie name =
          match decodeURIComponent ((jsTrim e).drop (name.length + 1)) with
          | some value => Except.ok (some value)
          | none => Except.error "URIError") ∧
      (∀ pre e post extra value, splitSemicolon documentCookie = pre ++ e :: post →
        extra ≠ [] → '=' ∉ extra → jsTrim e = name ++ extra ++ '=' :: value →
        ¬ entryMatches name e ∧
          getCookie decodeURIComponent documentCookie name =
            getCookieLoop decodeURIComponent name (pre ++ post)) := by
  by_cases hempty : documentCookie = []
  · subst hempty
    refine ⟨?_, by simp [getCookie], ?_, ?_⟩
    · simp only [getCookie, ne_eq, not_true_eq_false, if_false, true_iff]
      exact splitSemicolon_nil_not_matched name
    · intro pre e post hsplit _ he
      have hmem : e ∈ splitSemicolon [] := by rw [hsplit]; simp
      exact absurd he (splitSemicolon_nil_not_matched name e hmem)
    · intro pre e post extra value hsplit hextra heq hentry
      refine ⟨not_entryMatches_longer_name name extra value e hextra heq hentry, ?_⟩
      have hpre : pre = [] ∧ post = [] := by
        simp only [splitSemicolon] at hsplit
        cases pre with
        | nil =>
          have h2 : e = [] ∧ post = [] := by simpa using hsplit.symm
          exact ⟨rfl, h2.2⟩
        | cons _ _ => simp at hsplit
      simp [getCookie, hpre.1, hpre.2, getCookieLoop]
  · have hget : getCookie decodeURIComponent documentCookie name =
        getCookieLoop decodeURIComponent name (splitSemicolon documentCookie) := by
      simp [getCookie, hempty]
    refine ⟨?_, by simp [getCookie], ?_, ?_⟩
    · rw [hget]
      exact getCookieLoop_none_iff decodeURIComponent name _
    · intro pre e post hsplit hpre he
      rw [hget, hsplit]
      exact getCookieLoop_first decodeURIComponent name pre e post hpre he
    · intro pre e post extra value hsplit hextra heq hentry
      have hno := not_entryMatches_longer_name name extra value e hextra heq hentry
      refine ⟨hno, ?_⟩
      rw [hget, hsplit]
      exact getCookieLoop_skip decodeURIComponent name pre e post hno

/-- C29, sample: in ` sessionid=xyz; csrftoken2=no; csrftoken=abc123; csrftoken=late` the
name `csrftoken` gives `abc123`, the name `csrf` gives `null`. -/
theorem C29_sample_cookie_string :
    getCookie sampleDecode
        "sessionid=xyz; csrftoken2=no; csrftoken=abc123; csrftoken=late".toList
        "csrftoken".toList = Except.ok (some "abc123".toList) ∧
      getCookie sampleDecode
        "sessionid=xyz; csrftoken2=no; csrftoken=abc123; csrftoken=late".toList
        "csrf".toList = Except.ok none :=
  ⟨((C29_getCookie_first_match sampleDecode
        "sessionid=xyz; csrftoken2=no; csrftoken=abc123; csrftoken=late".toList
        "csrftoken".toList).2.2.1
      ["sessionid=xyz".toList, " csrftoken2=no".toList] " csrftoken=abc123".toList
      [" csrftoken=late".toList] (by decide) (by decide) (by decide)).trans rfl,
    rfl⟩

end AuroraMotors
